import Mathlib

/-! # Gateway graph construction (ako-gateway-api/nodes/gateway_model.go)

A shallow embedding of the functions that derive the virtual-service tree of a
gateway (port/protocol entries, VIP node, TLS key/cert nodes) and of the two
incremental TLS passes `AddTLSNode` / `DeleteTLSNode`, followed by theorems
about them.

Conventions of the embedding:
* Go pointers that may be nil are `Option`; dereferencing `none` makes the
  run end in a nil-pointer fault, which fallible functions report as `none`
  (or through a `faulted` flag where the effects before the fault matter).
* Go maps that are only looked up, written and deleted from (never ranged
  over) are functions `String → Option V`.
* `[]int` is `List Int`; indexing a slice outside `0 .. len-1` is a fault.
* Helpers and constants of packages whose source is not part of this slice
  (`lib`, `utils`, `akogatewayapilib`) are fields of `Config`.
-/

set_option autoImplicit false

namespace AKO

/-! ## Go maps -/

/-- A Go `map[string]V` used through lookup, assignment and `delete` only. -/
abbrev GoMap (V : Type) := String → Option V

namespace GoMap

variable {V : Type}

/-- The map without any key. -/
def empty : GoMap V := fun _ => none

/-- Assignment `m[k] = v`. -/
def set (m : GoMap V) (k : String) (v : V) : GoMap V :=
  fun k' => if k' = k then some v else m k'

/-- The builtin `delete(m, k)`. -/
def delete (m : GoMap V) (k : String) : GoMap V :=
  fun k' => if k' = k then none else m k'

end GoMap

/-! ## Gateway API objects (sigs.k8s.io/gateway-api/apis/v1), the fields read here -/

/-- A `gatewayv1.SecretObjectReference`. -/
structure SecretObjectReference where
  Group : Option String := none
  Kind : Option String := none
  Name : String
  Namespace : Option String := none
  deriving DecidableEq, Repr

/-- A `gatewayv1.GatewayTLSConfig`. -/
structure GatewayTLSConfig where
  Mode : Option String := none
  CertificateRefs : List SecretObjectReference := []
  deriving DecidableEq, Repr

/-- A `gatewayv1.Listener`; `Port` is a `PortNumber` (an int32). -/
structure Listener where
  Name : String := ""
  Hostname : Option String := none
  Port : Int := 0
  Protocol : String := ""
  TLS : Option GatewayTLSConfig := none
  deriving DecidableEq, Repr

/-- A `gatewayv1.GatewayAddress`. -/
structure GatewayAddress where
  /-- The field `Type`. -/
  Type_ : Option String := none
  Value : String
  deriving DecidableEq, Repr

/-- A `gatewayv1.GatewaySpec`. -/
structure GatewaySpec where
  GatewayClassName : String := ""
  Listeners : List Listener := []
  Addresses : List GatewayAddress := []
  deriving DecidableEq, Repr

/-- A Go slice whose being nil matters (`reflect.DeepEqual` tells a nil slice from an
empty one): `none` is the nil slice. -/
abbrev Slice (α : Type) := Option (List α)

/-- The elements of a slice. -/
def Slice.toList {α : Type} (s : Slice α) : List α := s.getD []

/-- The builtin `append(s, x)`. -/
def Slice.append {α : Type} (s : Slice α) (x : α) : Slice α := some (s.toList ++ [x])

/-- A `metav1.Condition`; `LastTransitionTime` is a `metav1.Time`, `0` being the zero time. -/
structure Condition where
  /-- The field `Type`. -/
  Type_ : String := ""
  Status : String := ""
  ObservedGeneration : Int := 0
  LastTransitionTime : Int := 0
  Reason : String := ""
  Message : String := ""
  deriving DecidableEq, Repr

/-- A `gatewayv1.GatewayStatusAddress`. -/
structure GatewayStatusAddress where
  /-- The field `Type`. -/
  Type_ : Option String := none
  Value : String := ""
  deriving DecidableEq, Repr

/-- A `gatewayv1.RouteGroupKind`. -/
structure RouteGroupKind where
  Group : Option String := none
  Kind : String := ""
  deriving DecidableEq, Repr

/-- A `gatewayv1.ListenerStatus`. -/
structure ListenerStatus where
  Name : String := ""
  SupportedKinds : Slice RouteGroupKind := none
  AttachedRoutes : Int := 0
  Conditions : Slice Condition := none
  deriving DecidableEq, Repr

/-- A `gatewayv1.GatewayStatus`. -/
structure GatewayStatus where
  Addresses : Slice GatewayStatusAddress := none
  Conditions : Slice Condition := none
  Listeners : Slice ListenerStatus := none
  deriving DecidableEq, Repr

/-- A `gatewayv1.Gateway`: object metadata, spec and status. -/
structure Gateway where
  Namespace : String := ""
  Name : String := ""
  Generation : Int := 0
  Spec : GatewaySpec := {}
  Status : GatewayStatus := {}
  deriving DecidableEq, Repr

/-- A `gatewayv1.GatewayClass`: its name and the controller name of its spec. -/
structure GatewayClass where
  Name : String := ""
  ControllerName : String := ""
  deriving DecidableEq, Repr

/-- A `corev1.Secret`: name, namespace and the `Data` map of byte strings. -/
structure Secret where
  Name : String := ""
  Namespace : String := ""
  Data : GoMap (List Nat) := GoMap.empty

/-- The pair `(secretObj, err)` returned by `Secrets(ns).Get(ctx, name, opts)`. -/
structure SecretGetResult where
  secretObj : Option Secret
  err : Option String

/-- The call `cs.CoreV1().Secrets(ns).Get(context.TODO(), name, metav1.GetOptions{})`
as a function of `ns` and `name`. -/
abbrev SecretClient := String → String → SecretGetResult

/-! ## Graph nodes (internal/nodes), the fields written here -/

/-- A `nodes.AviPortHostProtocol`; the fields not listed stay at their zero value. -/
structure AviPortHostProtocol where
  Port : Int := 0
  Protocol : String := ""
  EnableSSL : Bool := false
  deriving DecidableEq, Repr

/-- A `nodes.AviTLSKeyCertNode`. -/
structure AviTLSKeyCertNode where
  Name : String := ""
  Tenant : String := ""
  /-- The field `Type`. -/
  Type_ : String := ""
  Key : List Nat := []
  Cert : List Nat := []
  deriving DecidableEq, Repr

/-- An `akov1alpha1.AviInfraSettingVipNetwork`. -/
structure AviInfraSettingVipNetwork where
  NetworkName : String := ""
  Cidr : String := ""
  V6Cidr : String := ""
  deriving DecidableEq, Repr

/-- A `nodes.AviVSVIPNode`. -/
structure AviVSVIPNode where
  Name : String := ""
  Tenant : String := ""
  VrfContext : String := ""
  VipNetworks : List AviInfraSettingVipNetwork := []
  IPAddress : String := ""
  deriving DecidableEq, Repr

/-- A `lib.ServiceMetadataObj`, the field set here. -/
structure ServiceMetadataObj where
  Gateway : String := ""
  deriving DecidableEq, Repr

/-- A `nodes.AviEvhVsNode`. -/
structure AviEvhVsNode where
  Name : String := ""
  Tenant : String := ""
  ServiceEngineGroup : String := ""
  ApplicationProfile : String := ""
  NetworkProfile : String := ""
  EVHParent : Bool := false
  VrfContext : String := ""
  ServiceMetadata : ServiceMetadataObj := {}
  PortProto : List AviPortHostProtocol := []
  SSLKeyCertRefs : List AviTLSKeyCertNode := []
  VSVIPRefs : List AviVSVIPNode := []
  deriving DecidableEq, Repr

/-- An element of the graph's `modelNodes`: an EVH virtual-service node, or a node
of another type (kept by its name). -/
inductive AviModelNode where
  | evhVs (vs : AviEvhVsNode)
  | other (name : String)
  deriving DecidableEq, Repr

/-- The `nodes.AviObjectGraph` wrapped by this package's `AviObjectGraph`. -/
structure AviObjectGraph where
  modelNodes : List AviModelNode := []
  deriving DecidableEq, Repr

/-- The method `GetAviEvhVS`: the EVH virtual-service nodes among `modelNodes`, in order. -/
def AviObjectGraph.GetAviEvhVS (o : AviObjectGraph) : List AviEvhVsNode :=
  o.modelNodes.filterMap fun m =>
    match m with
    | .evhVs vs => some vs
    | .other _ => none

/-- The assignment `o.GetAviEvhVS()[0].SSLKeyCertRefs = tlsNodes` on the list of model
nodes: the first EVH virtual-service node gets the new list, nothing else changes. -/
def setFirstEvhVsCertRefs (tlsNodes : List AviTLSKeyCertNode) :
    List AviModelNode → List AviModelNode
  | [] => []
  | .evhVs vs :: rest => .evhVs { vs with SSLKeyCertRefs := tlsNodes } :: rest
  | .other name :: rest => .other name :: setFirstEvhVsCertRefs tlsNodes rest

/-! ## Configuration and helpers of other packages -/

/-- The values and helper functions that `gateway_model.go` and `wcp.go` take from `lib`,
`utils` and `akogatewayapilib`. -/
structure Config where
  /-- `lib.GetTenant()`. -/
  GetTenant : String
  /-- `lib.GetSEGName()`. -/
  GetSEGName : String
  /-- `lib.GetVrf()`. -/
  GetVrf : String
  /-- `utils.GetVipNetworkList()`. -/
  GetVipNetworkList : List AviInfraSettingVipNetwork
  /-- `lib.CertTypeVS`. -/
  CertTypeVS : String
  /-- `utils.DEFAULT_L7_APP_PROFILE`. -/
  DEFAULT_L7_APP_PROFILE : String
  /-- `utils.DEFAULT_TCP_NW_PROFILE`. -/
  DEFAULT_TCP_NW_PROFILE : String
  /-- `utils.K8S_TLS_SECRET_CERT`. -/
  K8S_TLS_SECRET_CERT : String
  /-- `utils.K8S_TLS_SECRET_KEY`. -/
  K8S_TLS_SECRET_KEY : String
  /-- `akogatewayapilib.GetGatewayParentName(namespace, name)`. -/
  GetGatewayParentName : String → String → String
  /-- `lib.GetVsVipName(vsName)`. -/
  GetVsVipName : String → String
  /-- `lib.GetTLSKeyCertNodeName(infrasetting, sniHostName, secretName)`. -/
  GetTLSKeyCertNodeName : String → String → String → String
  /-- `lib.ExtractTypeNameNamespace(key)`: object type, namespace, name. -/
  ExtractTypeNameNamespace : String → String × String × String
  /-- `utils.IsVCFCluster()`. -/
  IsVCFCluster : Bool := false

/-! ## BuildPortProtocols -/

/-- The loop of `BuildPortProtocols` over the remaining listeners, `portProtocols`
being the slice appended to so far. -/
def BuildPortProtocols.loop :
    List Listener → List AviPortHostProtocol → List AviPortHostProtocol
  | [], portProtocols => portProtocols
  | listener :: rest, portProtocols =>
    let pp : AviPortHostProtocol := { Port := listener.Port, Protocol := listener.Protocol }
    -- TLS config on listener is present
    let pp :=
      match listener.TLS with
      | some tls => if tls.CertificateRefs.length > 0 then { pp with EnableSSL := true } else pp
      | none => pp
    BuildPortProtocols.loop rest (portProtocols ++ [pp])

/-- The function `BuildPortProtocols(gateway, key)`. -/
def BuildPortProtocols (gateway : Gateway) (_key : String) : List AviPortHostProtocol :=
  BuildPortProtocols.loop gateway.Spec.Listeners []

/-! ## BuildVsVipNodeForGateway -/

/-- The function `BuildVsVipNodeForGateway(gateway, vsName)`. -/
def BuildVsVipNodeForGateway (cfg : Config) (gateway : Gateway) (vsName : String) :
    AviVSVIPNode :=
  let vsvipNode : AviVSVIPNode :=
    { Name := cfg.GetVsVipName vsName
      Tenant := cfg.GetTenant
      VrfContext := cfg.GetVrf
      VipNetworks := cfg.GetVipNetworkList }
  -- Type is validated at ingestion
  if gateway.Spec.Addresses.length = 1 then
    match gateway.Spec.Addresses with
    | a :: _ => { vsvipNode with IPAddress := a.Value }
    | [] => vsvipNode
  else vsvipNode

/-! ## TLSNodeFromSecret and BuildTLSNodesForGateway -/

/-- The function `TLSNodeFromSecret(secretObj, hostname, certName, key)`, given a non-nil
secret; a key missing from `Data` reads as the nil byte slice (and is logged). -/
def TLSNodeFromSecret (cfg : Config) (secretObj : Secret) (hostname certName _key : String) :
    AviTLSKeyCertNode :=
  let keycertMap := secretObj.Data
  let tlscert := (keycertMap cfg.K8S_TLS_SECRET_CERT).getD []
  let tlskey := (keycertMap cfg.K8S_TLS_SECRET_KEY).getD []
  { Name := cfg.GetTLSKeyCertNodeName "" hostname certName
    Tenant := cfg.GetTenant
    Type_ := cfg.CertTypeVS
    Key := tlskey
    Cert := tlscert }

/-- The state of a run of `BuildTLSNodesForGateway`: the slice `tlsNodes`, the secret
lookups `(ns, name)` issued so far, in order, and whether the run has ended in a
nil-pointer fault (`*listener.Hostname` with a nil hostname). -/
structure TLSBuild where
  tlsNodes : List AviTLSKeyCertNode := []
  lookups : List (String × String) := []
  faulted : Bool := false

/-- The body of the inner loop of `BuildTLSNodesForGateway` for one certificate reference. -/
def BuildTLSNodesForGateway.certRef (cfg : Config) (cs : SecretClient) (gateway : Gateway)
    (key : String) (listener : Listener) (certRef : SecretObjectReference) (st : TLSBuild) :
    TLSBuild :=
  -- kind is validated at ingestion
  let ns :=
    match certRef.Namespace with
    | none => gateway.Namespace
    | some n => if n = "" then gateway.Namespace else n
  let name := certRef.Name
  let got := cs ns name
  let st := { st with lookups := st.lookups ++ [(ns, name)] }
  match got.err, got.secretObj with
  | none, some secretObj =>
    match listener.Hostname with
    | none => { st with faulted := true }
    | some hostname =>
      { st with tlsNodes := st.tlsNodes ++ [TLSNodeFromSecret cfg secretObj hostname name key] }
  | _, _ => st

/-- The inner loop of `BuildTLSNodesForGateway` over the remaining certificate references
of one listener. -/
def BuildTLSNodesForGateway.certRefs (cfg : Config) (cs : SecretClient) (gateway : Gateway)
    (key : String) (listener : Listener) : List SecretObjectReference → TLSBuild → TLSBuild
  | [], st => st
  | certRef :: rest, st =>
    let st := BuildTLSNodesForGateway.certRef cfg cs gateway key listener certRef st
    if st.faulted then st
    else BuildTLSNodesForGateway.certRefs cfg cs gateway key listener rest st

/-- The outer loop of `BuildTLSNodesForGateway` over the remaining listeners. -/
def BuildTLSNodesForGateway.listeners (cfg : Config) (cs : SecretClient) (gateway : Gateway)
    (key : String) : List Listener → TLSBuild → TLSBuild
  | [], st => st
  | listener :: rest, st =>
    let st :=
      match listener.TLS with
      | some tls =>
        BuildTLSNodesForGateway.certRefs cfg cs gateway key listener tls.CertificateRefs st
      | none => st
    if st.faulted then st
    else BuildTLSNodesForGateway.listeners cfg cs gateway key rest st

/-- The function `BuildTLSNodesForGateway(gateway, key)` run against the secret client
`cs`: the returned slice is `tlsNodes` when `faulted` is false. -/
def BuildTLSNodesForGateway (cfg : Config) (cs : SecretClient) (gateway : Gateway)
    (key : String) : TLSBuild :=
  BuildTLSNodesForGateway.listeners cfg cs gateway key gateway.Spec.Listeners {}

/-! ## BuildGatewayParent -/

/-- The method `BuildGatewayParent(gateway, key)`: `none` when the TLS build faults. -/
def BuildGatewayParent (cfg : Config) (cs : SecretClient) (gateway : Gateway) (key : String) :
    Option AviEvhVsNode :=
  let vsName := cfg.GetGatewayParentName gateway.Namespace gateway.Name
  let parentVsNode : AviEvhVsNode :=
    { Name := vsName
      Tenant := cfg.GetTenant
      ServiceEngineGroup := cfg.GetSEGName
      ApplicationProfile := cfg.DEFAULT_L7_APP_PROFILE
      NetworkProfile := cfg.DEFAULT_TCP_NW_PROFILE
      EVHParent := true
      VrfContext := cfg.GetVrf
      ServiceMetadata := { Gateway := gateway.Namespace ++ "/" ++ gateway.Name } }
  let parentVsNode := { parentVsNode with PortProto := BuildPortProtocols gateway key }
  let run := BuildTLSNodesForGateway cfg cs gateway key
  if run.faulted then none
  else
    let tlsNodes := run.tlsNodes
    let parentVsNode :=
      if tlsNodes.length > 0 then { parentVsNode with SSLKeyCertRefs := tlsNodes }
      else parentVsNode
    let vsvipNode := BuildVsVipNodeForGateway cfg gateway parentVsNode.Name
    some { parentVsNode with VSVIPRefs := [vsvipNode] }

/-! ## DeleteTLSNode and AddTLSNode -/

/-- The slice access `evhVsCertRefs[i]` for an `int` index: `none` is the
index-out-of-range fault. -/
def sliceAt {α : Type} (xs : List α) (i : Int) : Option α :=
  if i < 0 then none else xs[i.toNat]?

/-- The variables that the walk of `DeleteTLSNode` / `AddTLSNode` updates: the slice
`tlsNodes` and the map `encodedCertNameIndexMap` (mutated in place by the callee). -/
structure TLSWalk where
  tlsNodes : List AviTLSKeyCertNode
  encodedCertNameIndexMap : GoMap (List Int)

/-- The update of the index after a hit on `encodedCertName`: the list loses its first
position, and the key is deleted when no position would remain. -/
def popIndex (encodedCertNameIndexMap : GoMap (List Int)) (encodedCertName : String)
    (indexlist : List Int) : GoMap (List Int) :=
  if indexlist.length > 1 then
    encodedCertNameIndexMap.set encodedCertName (indexlist.drop 1)
  else
    encodedCertNameIndexMap.delete encodedCertName

/-- The body of the inner loop of `DeleteTLSNode` for one certificate reference;
`none` is a fault (nil hostname, `indexlist[0]` on an empty list, position out of range). -/
def DeleteTLSNode.certRef (cfg : Config) (secretName : String)
    (evhVsCertRefs : List AviTLSKeyCertNode) (listener : Listener)
    (certRef : SecretObjectReference) (st : TLSWalk) : Option TLSWalk :=
  let name := certRef.Name
  match listener.Hostname with
  | none => none
  | some hostname =>
    let encodedCertName := cfg.GetTLSKeyCertNodeName "" hostname name
    match st.encodedCertNameIndexMap encodedCertName with
    | some indexlist =>
      let kept : Option (List AviTLSKeyCertNode) :=
        if name ≠ secretName then
          match indexlist.head? with
          | none => none
          | some i0 =>
            match sliceAt evhVsCertRefs i0 with
            | none => none
            | some node => some (st.tlsNodes ++ [node])
        else some st.tlsNodes
      match kept with
      | none => none
      | some tlsNodes =>
        some { tlsNodes := tlsNodes
               encodedCertNameIndexMap :=
                 popIndex st.encodedCertNameIndexMap encodedCertName indexlist }
    | none => some st

/-- The body of the inner loop of `AddTLSNode` for one certificate reference; `none` is a
fault (nil hostname, `indexlist[0]` on an empty list, position out of range, nil secret). -/
def AddTLSNode.certRef (cfg : Config) (key secretName : String)
    (evhVsCertRefs : List AviTLSKeyCertNode) (secretObj : Option Secret) (listener : Listener)
    (certRef : SecretObjectReference) (st : TLSWalk) : Option TLSWalk :=
  let name := certRef.Name
  match listener.Hostname with
  | none => none
  | some hostname =>
    let encodedCertName := cfg.GetTLSKeyCertNodeName "" hostname name
    match st.encodedCertNameIndexMap encodedCertName with
    | some indexlist =>
      match indexlist.head? with
      | none => none
      | some i0 =>
        match sliceAt evhVsCertRefs i0 with
        | none => none
        | some node =>
          some { tlsNodes := st.tlsNodes ++ [node]
                 encodedCertNameIndexMap :=
                   popIndex st.encodedCertNameIndexMap encodedCertName indexlist }
    | none =>
      if name = secretName then
        match secretObj with
        | none => none
        | some secret =>
          some { st with tlsNodes := st.tlsNodes ++ [TLSNodeFromSecret cfg secret hostname name key] }
      else some st

/-- The inner loop of both passes over the remaining certificate references of one
listener, `body` being the loop body. -/
def walkCertRefs (body : Listener → SecretObjectReference → TLSWalk → Option TLSWalk)
    (listener : Listener) : List SecretObjectReference → TLSWalk → Option TLSWalk
  | [], st => some st
  | certRef :: rest, st =>
    match body listener certRef st with
    | none => none
    | some st => walkCertRefs body listener rest st

/-- The outer loop of both passes over the remaining listeners. -/
def walkListeners (body : Listener → SecretObjectReference → TLSWalk → Option TLSWalk) :
    List Listener → TLSWalk → Option TLSWalk
  | [], st => some st
  | listener :: rest, st =>
    match listener.TLS with
    | some tls =>
      match walkCertRefs body listener tls.CertificateRefs st with
      | none => none
      | some st => walkListeners body rest st
    | none => walkListeners body rest st

/-- The function `DeleteTLSNode(key, object, gateway, secretObj, encodedCertNameIndexMap)`:
the graph and the index map as the call leaves them, `none` when the call faults. -/
def DeleteTLSNode (cfg : Config) (key : String) (object : AviObjectGraph) (gateway : Gateway)
    (_secretObj : Option Secret) (encodedCertNameIndexMap : GoMap (List Int)) :
    Option (AviObjectGraph × GoMap (List Int)) :=
  let secretName := (cfg.ExtractTypeNameNamespace key).2.2
  match object.GetAviEvhVS with
  | [] => none
  | vs0 :: _ =>
    let evhVsCertRefs := vs0.SSLKeyCertRefs
    match walkListeners (DeleteTLSNode.certRef cfg secretName evhVsCertRefs)
        gateway.Spec.Listeners { tlsNodes := [], encodedCertNameIndexMap } with
    | none => none
    | some st =>
      some ({ object with modelNodes := setFirstEvhVsCertRefs st.tlsNodes object.modelNodes },
        st.encodedCertNameIndexMap)

/-- The function `AddTLSNode(key, object, gateway, secretObj, encodedCertNameIndexMap)`:
the graph and the index map as the call leaves them, `none` when the call faults. -/
def AddTLSNode (cfg : Config) (key : String) (object : AviObjectGraph) (gateway : Gateway)
    (secretObj : Option Secret) (encodedCertNameIndexMap : GoMap (List Int)) :
    Option (AviObjectGraph × GoMap (List Int)) :=
  let secretName := (cfg.ExtractTypeNameNamespace key).2.2
  match object.GetAviEvhVS with
  | [] => none
  | vs0 :: _ =>
    let evhVsCertRefs := vs0.SSLKeyCertRefs
    match walkListeners (AddTLSNode.certRef cfg key secretName evhVsCertRefs secretObj)
        gateway.Spec.Listeners { tlsNodes := [], encodedCertNameIndexMap } with
    | none => none
    | some st =>
      some ({ object with modelNodes := setFirstEvhVsCertRefs st.tlsNodes object.modelNodes },
        st.encodedCertNameIndexMap)

/-! # Gateway status (ako-gateway-api/status/gateway_status.go) -/

/-! ## Conditions -/

/-- The constant `gatewayv1.GatewayConditionProgrammed`. -/
def GatewayConditionProgrammed : String := "Programmed"

/-- The constant `gatewayv1.GatewayConditionAccepted`. -/
def GatewayConditionAccepted : String := "Accepted"

/-- The constant `gatewayv1.GatewayReasonProgrammed`. -/
def GatewayReasonProgrammed : String := "Programmed"

/-- The constant `gatewayv1.GatewayReasonPending`. -/
def GatewayReasonPending : String := "Pending"

/-- The constant `metav1.ConditionTrue`. -/
def ConditionTrue : String := "True"

/-- The constant `metav1.ConditionUnknown`. -/
def ConditionUnknown : String := "Unknown"

/-- The constant `gatewayv1.IPAddressType`. -/
def IPAddressType : String := "IPAddress"

/-- The function `apimeta.FindStatusCondition`: the first condition of the given type. -/
def FindStatusCondition (conditions : List Condition) (conditionType : String) :
    Option Condition :=
  conditions.find? fun c => c.Type_ = conditionType

/-- The in-place update that `apimeta.SetStatusCondition` makes to the first condition of
the type of `newCondition` in a list that has one. -/
def updateFirstOfType (now : Int) (newCondition : Condition) : List Condition → List Condition
  | [] => []
  | existing :: rest =>
    if existing.Type_ = newCondition.Type_ then
      { existing with
        Status := newCondition.Status
        LastTransitionTime :=
          if existing.Status ≠ newCondition.Status then
            (if newCondition.LastTransitionTime ≠ 0 then newCondition.LastTransitionTime else now)
          else existing.LastTransitionTime
        Reason := newCondition.Reason
        Message := newCondition.Message
        ObservedGeneration := newCondition.ObservedGeneration } :: rest
    else existing :: updateFirstOfType now newCondition rest

/-- Modelled from the spec: `apimeta.SetStatusCondition` of k8s.io/apimachinery, which is
not part of this slice, the upsert by condition type behind the invariant of one condition
per type. When a condition of the type of `newCondition` exists, the first one takes the
status, reason, message and observed generation of `newCondition`, and its transition time
changes only when the status does; otherwise `newCondition` is appended, with the time
`now` when its transition time is zero. -/
def SetStatusCondition (now : Int) (conditions : Slice Condition) (newCondition : Condition) :
    Slice Condition :=
  match FindStatusCondition conditions.toList newCondition.Type_ with
  | none =>
    let newCondition :=
      if newCondition.LastTransitionTime = 0 then
        { newCondition with LastTransitionTime := now }
      else newCondition
    conditions.append newCondition
  | some _ => conditions.map (updateFirstOfType now newCondition)

/-- Modelled from the spec: the condition builder of `condition.go`, which is not part of
this slice: `NewCondition()` starts a condition whose transition time is the current
time, the chained setters fill its type, status, reason, observed generation and message,
and `SetIn` stores it in a condition list with `apimeta.SetStatusCondition`. -/
def NewConditionSetIn (now : Int) (conditionType status reason : String)
    (observedGeneration : Int) (message : String) (conditions : Slice Condition) :
    Slice Condition :=
  SetStatusCondition now conditions
    { Type_ := conditionType, Status := status, Reason := reason,
      ObservedGeneration := observedGeneration, Message := message,
      LastTransitionTime := now }

/-! ## The collaborators of the status functions -/

/-- The `lib.UpdateOptions` fields read by the status functions. -/
structure UpdateOptions where
  Vip : List String := []
  ServiceMetadata : ServiceMetadataObj := {}

/-- The `status.StatusOptions` fields read by the status functions. -/
structure StatusOptions where
  Options : UpdateOptions := {}

/-- What the status functions get from their collaborators during one call. -/
structure StatusEnv where
  /-- `akogatewayapilib.GatewayController`. -/
  GatewayController : String
  /-- `GatewayClassInformer.Lister().List(labels.Everything())`; `none` is an error. -/
  gatewayClassList : Option (List GatewayClass)
  /-- `GatewayInformer.Lister().List(labels.Everything())`; `none` is an error. -/
  gatewayList : Option (List Gateway)
  /-- `GatewayInformer.Lister().Gateways(namespace).Get(name)` as called by `Get`;
  `none` is an error. -/
  gatewayGet : String → String → Option Gateway
  /-- Whether the `Patch` call of the API client made with retry count `retry` returns
  an error. -/
  patchFails : Int → Bool
  /-- `GatewayInformer.Lister().Gateways(namespace).Get(name)` as called by `Patch` after
  the failed call with retry count `retry`; `none` is an error. -/
  refetch : Int → String → String → Option Gateway
  /-- The reading of the clock (`metav1.Now()`, `time.Now()`) number `n` of the call. -/
  Now : Nat → Int

/-- The calls that the status functions make to the store. -/
inductive StatusEvent where
  /-- A merge patch of the status subresource of gateway `ns/name` with payload `status`. -/
  | patch (ns name : String) (status : GatewayStatus)
  /-- A lookup of gateway `ns/name` in the lister after a failed patch. -/
  | get (ns name : String)
  deriving DecidableEq, Repr

/-- The events of a call that may end in a fault (`option.Options.Vip[0]` on an empty
list): the events up to the fault, and whether the call faulted. -/
structure StatusRun where
  events : List StatusEvent := []
  faulted : Bool := false
  deriving DecidableEq, Repr

/-! ## isStatusEqual and Patch -/

/-- The loops of `isStatusEqual` on one of the two copies: every `LastTransitionTime`, at
object level and in every listener entry, becomes `currentTime`. -/
def setTransitionTimes (currentTime : Int) (status : GatewayStatus) : GatewayStatus :=
  { status with
    Conditions :=
      status.Conditions.map (List.map fun c => { c with LastTransitionTime := currentTime })
    Listeners := status.Listeners.map (List.map fun listener =>
      { listener with
        Conditions := listener.Conditions.map
          (List.map fun c => { c with LastTransitionTime := currentTime }) }) }

/-- The method `isStatusEqual(old, new)`, `currentTime` being its reading of the clock:
`reflect.DeepEqual` of the two copies after their transition times have been overwritten. -/
def isStatusEqual (currentTime : Int) (old new : GatewayStatus) : Bool :=
  decide (setTransitionTimes currentTime old = setTransitionTimes currentTime new)

/-- The method `Patch(key, obj, status, retryNum...)`: the calls it makes to the store, in
order. -/
def Patch (env : StatusEnv) (key : String) (obj : Gateway) (status : GatewayStatus)
    (retryNum : List Int) : List StatusEvent :=
  let retry := retryNum.headD 0
  if retryNum.length > 0 ∧ retry ≥ 5 then []
  else
    let gw := obj
    if isStatusEqual (env.Now retry.toNat) gw.Status status then []
    else
      if env.patchFails retry then
        match env.refetch retry gw.Namespace gw.Name with
        | none => [.patch gw.Namespace gw.Name status, .get gw.Namespace gw.Name]
        | some updatedGW =>
          .patch gw.Namespace gw.Name status :: .get gw.Namespace gw.Name ::
            Patch env key updatedGW status [retry + 1]
      else [.patch gw.Namespace gw.Name status]
termination_by (5 - retryNum.headD 0).toNat
decreasing_by
  rename_i hcond _ _
  simp only [List.headD_cons]
  have hlt : retryNum.headD 0 < 5 := by
    cases retryNum with
    | nil => simp
    | cons r rest =>
      simp only [List.headD_cons]
      by_contra hge
      exact hcond ⟨by simp, by simpa using hge⟩
  omega

/-! ## Get and GetAll -/

/-- The call `strings.Split(s, "/")` on the characters of `s`, `current` being the
characters of the piece being read, last first. -/
def splitSlash : List Char → List Char → List String
  | [], current => [String.mk current.reverse]
  | c :: rest, current =>
    if c = '/' then String.mk current.reverse :: splitSlash rest []
    else splitSlash rest (c :: current)

/-- The method `Get(key, option)`: the gateway named by the option, `none` for nil. -/
def Get (env : StatusEnv) (_key : String) (option : StatusOptions) : Option Gateway :=
  let nsName := splitSlash option.Options.ServiceMetadata.Gateway.data []
  match nsName with
  | [ns, name] => env.gatewayGet ns name
  | _ => none

/-- The first loop of `GetAll`: the names of the gateway classes of this controller. -/
def GetAll.classes (env : StatusEnv) : List GatewayClass → GoMap Unit → GoMap Unit
  | [], gwClassOwnedByAko => gwClassOwnedByAko
  | gwClass :: rest, gwClassOwnedByAko =>
    if gwClass.ControllerName = env.GatewayController then
      GetAll.classes env rest (gwClassOwnedByAko.set gwClass.Name ())
    else GetAll.classes env rest gwClassOwnedByAko

/-- The second loop of `GetAll`: the gateways of an owned class, by `namespace/name`. -/
def GetAll.gateways (gwClassOwnedByAko : GoMap Unit) :
    List Gateway → GoMap Gateway → GoMap Gateway
  | [], gwMap => gwMap
  | gw :: rest, gwMap =>
    match gwClassOwnedByAko gw.Spec.GatewayClassName with
    | some _ => GetAll.gateways gwClassOwnedByAko rest
        (gwMap.set (gw.Namespace ++ "/" ++ gw.Name) gw)
    | none => GetAll.gateways gwClassOwnedByAko rest gwMap

/-- The method `GetAll(key)`; the nil map is the map without keys. -/
def GetAll (env : StatusEnv) (_key : String) : GoMap Gateway :=
  match env.gatewayClassList with
  | none => GoMap.empty
  | some gwClassList =>
    if gwClassList.length = 0 then GoMap.empty
    else
      let gwClassOwnedByAko := GetAll.classes env gwClassList GoMap.empty
      match env.gatewayList with
      | none => GoMap.empty
      | some gwList => GetAll.gateways gwClassOwnedByAko gwList GoMap.empty

/-! ## Delete, Update and BulkUpdate -/

/-- The loop of `Delete` over the listener entries from entry number `i` on. -/
def Delete.listeners (env : StatusEnv) (gw : Gateway) : Nat → List ListenerStatus →
    List ListenerStatus
  | _, [] => []
  | i, listener :: rest =>
    { listener with
      Conditions := NewConditionSetIn (env.Now (i + 1)) GatewayConditionProgrammed
        ConditionUnknown GatewayReasonPending gw.Generation "Virtual service has been deleted"
        listener.Conditions } :: Delete.listeners env gw (i + 1) rest

/-- The status that `Delete` computes for the fetched gateway `gw` and hands to `Patch`. -/
def Delete.status (env : StatusEnv) (gw : Gateway) : GatewayStatus :=
  -- assuming 1 IP per gateway
  let status := gw.Status
  let status := { status with Addresses := some [] }
  let status :=
    { status with
      Conditions := NewConditionSetIn (env.Now 0) GatewayConditionProgrammed ConditionUnknown
        GatewayReasonPending gw.Generation "Virtual service has been deleted"
        status.Conditions }
  { status with Listeners := status.Listeners.map (Delete.listeners env gw 0) }

/-- The method `Delete(key, option)`: the calls it makes to the store. -/
def Delete (env : StatusEnv) (key : String) (option : StatusOptions) : List StatusEvent :=
  match Get env key option with
  | none => []
  | some gw =>
    -- Gateway don't have any address. In this case, the delete is not required.
    if gw.Status.Addresses.toList.length = 0 ∨
        (gw.Status.Addresses.toList.length > 0 ∧
          (gw.Status.Addresses.toList.head?.map fun a => a.Value) = some "") then []
    else Patch env key gw (Delete.status env gw) []

/-- The loop of `Update` over the listener entries from entry number `i` on. -/
def Update.listeners (env : StatusEnv) (gw : Gateway) : Nat → List ListenerStatus →
    List ListenerStatus
  | _, [] => []
  | i, listener :: rest =>
    { listener with
      Conditions := NewConditionSetIn (env.Now (i + 1)) GatewayConditionProgrammed
        ConditionTrue GatewayReasonProgrammed gw.Generation "Virtual service configured/updated"
        listener.Conditions } :: Update.listeners env gw (i + 1) rest

/-- The status that `Update` computes for the fetched gateway `gw` and the first VIP `vip`
of the option, and hands to `Patch`. -/
def Update.status (env : StatusEnv) (gw : Gateway) (vip : String) : GatewayStatus :=
  let status := gw.Status
  let addressType := IPAddressType
  let status :=
    { status with
      Addresses := status.Addresses.append { Type_ := some addressType, Value := vip } }
  let status :=
    { status with
      Conditions := NewConditionSetIn (env.Now 0) GatewayConditionProgrammed ConditionTrue
        GatewayReasonProgrammed gw.Generation "Virtual service configured/updated"
        status.Conditions }
  { status with Listeners := status.Listeners.map (Update.listeners env gw 0) }

/-- The method `Update(key, option)`: the calls it makes to the store; it faults on an
option without VIP once the gateway has been fetched. -/
def Update (env : StatusEnv) (key : String) (option : StatusOptions) : StatusRun :=
  match Get env key option with
  | none => {}
  | some gw =>
    match option.Options.Vip.head? with
    | none => { faulted := true }
    | some vip => { events := Patch env key gw (Update.status env gw vip) [] }

/-- The status that `BulkUpdate` computes for the gateway `gw` of the map and the first
VIP `vip` of the option, and hands to `Patch`. -/
def BulkUpdate.status (env : StatusEnv) (gw : Gateway) (vip : String) : GatewayStatus :=
  let status : GatewayStatus := {}
  let addressType := IPAddressType
  let status :=
    { status with
      Addresses := status.Addresses.append { Type_ := some addressType, Value := vip } }
  { status with
    Conditions := SetStatusCondition (env.Now 0) status.Conditions
      { Type_ := GatewayConditionProgrammed
        Status := ConditionTrue
        Reason := GatewayReasonProgrammed
        Message := "Virtual service configured/updated"
        ObservedGeneration := gw.Generation + 1 } }

/-- The loop of `BulkUpdate` over the remaining options, `run` holding the calls made so
far. -/
def BulkUpdate.options (env : StatusEnv) (key : String) (gwMap : GoMap Gateway) :
    List StatusOptions → StatusRun → StatusRun
  | [], run => run
  | option :: rest, run =>
    let nsName := option.Options.ServiceMetadata.Gateway
    match gwMap nsName with
    | some gw =>
      match option.Options.Vip.head? with
      | none => { run with faulted := true }
      | some vip =>
        BulkUpdate.options env key gwMap rest
          { run with events := run.events ++ Patch env key gw (BulkUpdate.status env gw vip) [] }
    | none => BulkUpdate.options env key gwMap rest run

/-- The method `BulkUpdate(key, options)`: the calls it makes to the store. -/
def BulkUpdate (env : StatusEnv) (key : String) (options : List StatusOptions) : StatusRun :=
  let gwMap := GetAll env key
  BulkUpdate.options env key gwMap options {}

/-! # The namespace caches (internal/objects/wcp.go) -/

/-- Modelled from the spec: an `ObjectMapStore`, a key-value lookup with the operations
`Get`, `AddOrUpdate` and `Delete`; the values that `wcp.go` stores are strings. -/
structure ObjectMapStore where
  ObjectMap : GoMap String := GoMap.empty

/-- Modelled from the spec: `ObjectMapStore.Get(key)`, the value stored under the key, if
there is one (`found` is `isSome`). -/
def ObjectMapStore.Get (o : ObjectMapStore) (key : String) : Option String :=
  o.ObjectMap key

/-- Modelled from the spec: `ObjectMapStore.AddOrUpdate(key, value)`. -/
def ObjectMapStore.AddOrUpdate (o : ObjectMapStore) (key value : String) : ObjectMapStore :=
  { o with ObjectMap := o.ObjectMap.set key value }

/-- Modelled from the spec: `ObjectMapStore.Delete(key)`. -/
def ObjectMapStore.Delete (o : ObjectMapStore) (key : String) : ObjectMapStore :=
  { o with ObjectMap := o.ObjectMap.delete key }

/-- The type `WCPLister`: the caches `namespace -> tier1lr` and `namespace -> network`. -/
structure WCPLister where
  NamespaceTier1LrCache : ObjectMapStore := {}
  NamespaceNetworkCache : ObjectMapStore := {}

/-- The method `UpdateNamespaceNetworkCache(namespace, networkName)`. -/
def WCPLister.UpdateNamespaceNetworkCache (w : WCPLister) (ns networkName : String) :
    WCPLister :=
  { w with NamespaceNetworkCache := w.NamespaceNetworkCache.AddOrUpdate ns networkName }

/-- The method `RemoveNamespaceNetworkCache(namespace)`. -/
def WCPLister.RemoveNamespaceNetworkCache (w : WCPLister) (ns : String) : WCPLister :=
  { w with NamespaceNetworkCache := w.NamespaceNetworkCache.Delete ns }

/-- The method `GetNetworkForNamespace(namespace ...string)`; `ns` is the list of the
variadic arguments. -/
def WCPLister.GetNetworkForNamespace (cfg : Config) (w : WCPLister) (ns : List String) :
    List AviInfraSettingVipNetwork :=
  if cfg.IsVCFCluster ∧ ns.length > 0 then
    match ns.head?.bind w.NamespaceNetworkCache.Get with
    | some networkName => [{ NetworkName := networkName }]
    | none => cfg.GetVipNetworkList
  else cfg.GetVipNetworkList

/-! ## Vocabulary of the statements -/

/-- The certificate references of a list of listeners in declared order (listeners in
order, references in order within a listener), each paired with its listener. -/
def certRefWalk (listeners : List Listener) : List (Listener × SecretObjectReference) :=
  listeners.flatMap fun l =>
    match l.TLS with
    | some tls => tls.CertificateRefs.map fun r => (l, r)
    | none => []

/-- The namespace a certificate reference designates: the gateway's own namespace when
the reference's namespace is absent or the empty string, the reference's namespace
otherwise. -/
def resolutionNamespace (gateway : Gateway) (certRef : SecretObjectReference) : String :=
  if certRef.Namespace = none ∨ certRef.Namespace = some "" then gateway.Namespace
  else certRef.Namespace.getD gateway.Namespace

/-- The secret a certificate reference resolves to under the client `cs`, if any: the
lookup in the reference's resolution namespace returned no error and a non-nil object. -/
def resolveCertRef (cs : SecretClient) (gateway : Gateway) (certRef : SecretObjectReference) :
    Option Secret :=
  let got := cs (resolutionNamespace gateway certRef) certRef.Name
  match got.err with
  | none => got.secretObj
  | some _ => none

/-- The walk of an incremental pass over a list of certificate references given with
their listeners, from the state `st`; `body` is the loop body of the pass. -/
def walkPairs (body : Listener → SecretObjectReference → TLSWalk → Option TLSWalk) :
    List (Listener × SecretObjectReference) → TLSWalk → Option TLSWalk
  | [], st => some st
  | p :: rest, st =>
    match body p.1 p.2 st with
    | none => none
    | some st => walkPairs body rest st

/-- The TLS node list of the first EVH virtual-service node of a graph, if there is one. -/
def tlsListOf (o : AviObjectGraph) : Option (List AviTLSKeyCertNode) :=
  o.GetAviEvhVS.head?.map fun vs => vs.SSLKeyCertRefs

/-- The encoded key of a certificate reference of a listener with hostname `hostname`. -/
def encodedKey (cfg : Config) (hostname : String) (certRef : SecretObjectReference) : String :=
  cfg.GetTLSKeyCertNodeName "" hostname certRef.Name

/-- The name part of a key, `secretName` in both passes. -/
def secretNameOf (cfg : Config) (key : String) : String :=
  (cfg.ExtractTypeNameNamespace key).2.2

/-- The state of a call of `AddTLSNode` once the certificate references `refs` have been
walked, `none` when the walk faults on them; the previous TLS list is the one of the
graph's first EVH virtual-service node. -/
def AddTLSNode.walk (cfg : Config) (key : String) (object : AviObjectGraph)
    (secretObj : Option Secret) (encodedCertNameIndexMap : GoMap (List Int))
    (refs : List (Listener × SecretObjectReference)) : Option TLSWalk :=
  walkPairs
    (AddTLSNode.certRef cfg key (secretNameOf cfg key) ((tlsListOf object).getD []) secretObj)
    refs { tlsNodes := [], encodedCertNameIndexMap }

/-- The state of a call of `DeleteTLSNode` once the certificate references `refs` have
been walked, `none` when the walk faults on them. -/
def DeleteTLSNode.walk (cfg : Config) (key : String) (object : AviObjectGraph)
    (encodedCertNameIndexMap : GoMap (List Int))
    (refs : List (Listener × SecretObjectReference)) : Option TLSWalk :=
  walkPairs
    (DeleteTLSNode.certRef cfg (secretNameOf cfg key) ((tlsListOf object).getD []))
    refs { tlsNodes := [], encodedCertNameIndexMap }

/-- The encoded keys of a list of certificate references in walk order (a listener
without hostname counts with the empty hostname; a completed walk meets none). -/
def walkKeys (cfg : Config) (refs : List (Listener × SecretObjectReference)) : List String :=
  refs.map fun p => encodedKey cfg (p.1.Hostname.getD "") p.2

/-- The effect of one consumption on the entry of a key: the list loses its first
position, and the entry disappears when no position would remain. -/
def popEntry (entry : Option (List Int)) : Option (List Int) :=
  entry.bind fun positions => if positions.length > 1 then some (positions.drop 1) else none

/-- The index after one consumption on the key `k`. -/
def popAt (index : GoMap (List Int)) (k : String) : GoMap (List Int) :=
  fun k' => if k' = k then popEntry (index k') else index k'

/-- The position that the `j`-th reference of a walk takes from the index it starts with:
when the reference is the `i`-th one with its key, the `i`-th position recorded for that
key, if there is one. -/
def takenPosition (index : GoMap (List Int)) (keys : List String) (j : Nat) : Option Int :=
  match keys[j]? with
  | none => none
  | some k => (index k).bind fun positions => positions[(keys.take j).count k]?

/-- The positions taken by the references of a walk, in walk order. -/
def takenPositions (index : GoMap (List Int)) (keys : List String) : List (Option Int) :=
  (List.range keys.length).map (takenPosition index keys)

/-- The positions whose nodes `DeleteTLSNode` keeps, in walk order: those taken by the
references that do not name the deleted secret. -/
def keptPositions (cfg : Config) (secretName : String) (index : GoMap (List Int))
    (refs : List (Listener × SecretObjectReference)) : List Int :=
  (refs.zip (takenPositions index (walkKeys cfg refs))).filterMap fun q =>
    if q.1.2.Name ≠ secretName then q.2 else none

/-- A status with every `LastTransitionTime` ignored (set to the zero time), at object
level and in every listener entry. -/
def withoutTransitionTimes (status : GatewayStatus) : GatewayStatus :=
  setTransitionTimes 0 status

/-- Whether an event is a patch call, that is, a write to the store. -/
def StatusEvent.isPatch : StatusEvent → Bool
  | .patch _ _ _ => true
  | .get _ _ => false

/-- The number of patch calls among the events of a call. -/
def patchCalls (events : List StatusEvent) : Nat :=
  (events.filter StatusEvent.isPatch).length

/-- That `c` is a `Programmed` condition with the given status, reason, message and
observed generation. -/
def IsProgrammedCondition (c : Condition) (status reason message : String)
    (observedGeneration : Int) : Prop :=
  c.Type_ = GatewayConditionProgrammed ∧ c.Status = status ∧ c.Reason = reason ∧
    c.Message = message ∧ c.ObservedGeneration = observedGeneration

/-- That a list of conditions has exactly one `Programmed` condition and, for the other
types, the conditions of the list `stored`, unchanged and in the same order. -/
def KeepsConditions (stored desired : List Condition) : Prop :=
  (desired.filter fun c => decide (c.Type_ = GatewayConditionProgrammed)).length = 1 ∧
  (desired.filter fun c => decide (c.Type_ ≠ GatewayConditionProgrammed)) =
    stored.filter fun c => decide (c.Type_ ≠ GatewayConditionProgrammed)

/-- The condition-set invariant of a desired status with respect to the stored one: one
`Programmed` condition at object level and the other object-level conditions carried
over; the same listener entries in number and order (name, supported kinds and attached
routes unchanged), each with one `Programmed` condition and its other conditions carried
over. -/
def KeepsConditionSet (stored desired : GatewayStatus) : Prop :=
  KeepsConditions stored.Conditions.toList desired.Conditions.toList ∧
  List.Forall₂
    (fun l l' => l'.Name = l.Name ∧ l'.SupportedKinds = l.SupportedKinds ∧
      l'.AttachedRoutes = l.AttachedRoutes ∧
      KeepsConditions l.Conditions.toList l'.Conditions.toList)
    stored.Listeners.toList desired.Listeners.toList

/-- Whether the gateway class of a gateway is one of the listed classes whose controller
name is the name of this controller. -/
def ownedByController (env : StatusEnv) (classes : List GatewayClass) (gw : Gateway) : Bool :=
  classes.any fun c =>
    decide (c.ControllerName = env.GatewayController ∧ c.Name = gw.Spec.GatewayClassName)

/-- The key of a gateway in the map of `GetAll`. -/
def gatewayKey (gw : Gateway) : String := gw.Namespace ++ "/" ++ gw.Name

/-- That every list of positions recorded in an index is non-empty and holds positions of
a list of length `n` only: at least `0` and smaller than `n`. -/
def IndexInRange (index : GoMap (List Int)) (n : Nat) : Prop :=
  ∀ k positions, index k = some positions →
    positions ≠ [] ∧ ∀ position ∈ positions, 0 ≤ position ∧ position < n

/-- The secret that a lookup of `(ns, name)` with the client `cs` resolves to, if any:
the lookup returned no error and a non-nil object. -/
def lookupSecret (cs : SecretClient) (ns name : String) : Option Secret :=
  match (cs ns name).err with
  | none => (cs ns name).secretObj
  | some _ => none

/-- The TLS node that the full build produces for a certificate reference of the walk,
if the reference resolves. -/
def builtNode (cfg : Config) (cs : SecretClient) (gateway : Gateway) (key : String)
    (p : Listener × SecretObjectReference) : Option AviTLSKeyCertNode :=
  (resolveCertRef cs gateway p.2).map fun s =>
    TLSNodeFromSecret cfg s (p.1.Hostname.getD "") p.2.Name key

/-- The positions of the nodes named `k` in a TLS list whose first node has position
`offset`, in order. -/
def positionsFrom (offset : Nat) : List AviTLSKeyCertNode → String → List Int
  | [], _ => []
  | node :: rest, k =>
    if node.Name = k then (offset : Int) :: positionsFrom (offset + 1) rest k
    else positionsFrom (offset + 1) rest k

/-- The index of a TLS list whose first node has position `offset`. -/
def indexFrom (offset : Nat) (tlsNodes : List AviTLSKeyCertNode) : GoMap (List Int) :=
  fun k =>
    match positionsFrom offset tlsNodes k with
    | [] => none
    | positions => some positions

/-- Modelled from the spec: the index that goes with a TLS list, each encoded key (the
name of a node) mapped to the positions of its nodes in the list, in order; a name that
no node carries is not a key. -/
def indexOfList (tlsNodes : List AviTLSKeyCertNode) : GoMap (List Int) :=
  indexFrom 0 tlsNodes

/-- The fields of a condition other than `LastTransitionTime`: type, status, reason,
message and observed generation. -/
def Condition.fields (c : Condition) : String × String × String × String × Int :=
  (c.Type_, c.Status, c.Reason, c.Message, c.ObservedGeneration)

/-- That two statuses agree on addresses and on every condition field other than
`LastTransitionTime`, at object level and per listener. -/
def AgreeOnAddressesAndConditions (old new : GatewayStatus) : Prop :=
  old.Addresses = new.Addresses ∧
  old.Conditions.toList.map Condition.fields = new.Conditions.toList.map Condition.fields ∧
  old.Listeners.toList.map (fun l => l.Conditions.toList.map Condition.fields) =
    new.Listeners.toList.map (fun l => l.Conditions.toList.map Condition.fields)

/-- The constant `metav1.ConditionFalse`. -/
def ConditionFalse : String := "False"

/-- The constant `gatewayv1.GatewayReasonInvalid`. -/
def GatewayReasonInvalid : String := "Invalid"

/-- The constant `gatewayv1.GatewayReasonListenersNotValid`. -/
def GatewayReasonListenersNotValid : String := "ListenersNotValid"

/-- The constant `gatewayv1.GatewayReasonAccepted`. -/
def GatewayReasonAccepted : String := "Accepted"

/-- Modelled from the spec: whether a listener passes validation (section 4.3, the
per-listener conditions): its protocol is supported (`HTTP` and `HTTPS`, the protocols
that the tests admit), it has a hostname other than the bare wildcard `*`, and its TLS
block, if it has one, has a supported mode (absent or `Terminate`) and certificate
references that all resolve. -/
def isValidListener (cs : SecretClient) (gateway : Gateway) (l : Listener) : Bool :=
  (decide (l.Protocol = "HTTP") || decide (l.Protocol = "HTTPS")) &&
  (match l.Hostname with
    | none => false
    | some hostname => decide (hostname ≠ "*")) &&
  (match l.TLS with
    | none => true
    | some tls =>
      (decide (tls.Mode = none) || decide (tls.Mode = some "Terminate")) &&
        tls.CertificateRefs.all fun r => (resolveCertRef cs gateway r).isSome)

/-- Modelled from the spec: the object-level condition that the status computer derives
at admission (section 4.3), the rows of the table in order, first match wins: no
listener; more than one static address; a listener that fails validation; a gateway class
that this controller does not own (`owned` false: no condition, `none`); otherwise the
gateway is accepted. -/
def objectLevelCondition (cs : SecretClient) (gateway : Gateway) (owned : Bool) :
    Option Condition :=
  let rejected (reason message : String) : Condition :=
    { Type_ := GatewayConditionAccepted, Status := ConditionFalse, Reason := reason,
      Message := message, ObservedGeneration := gateway.Generation }
  let invalid := (gateway.Spec.Listeners.filter fun l => !isValidListener cs gateway l).length
  if gateway.Spec.Listeners.length = 0 then
    some (rejected GatewayReasonInvalid "No listeners found")
  else if gateway.Spec.Addresses.length > 1 then
    some (rejected GatewayReasonInvalid "More than one address is not supported")
  else if invalid > 0 then
    some (rejected GatewayReasonListenersNotValid
      ("Gateway contains " ++ toString invalid ++ " invalid listener(s)"))
  else if !owned then none
  else
    some { Type_ := GatewayConditionAccepted, Status := ConditionTrue,
           Reason := GatewayReasonAccepted, Message := "Gateway configuration is valid",
           ObservedGeneration := gateway.Generation }

/-! ## Example objects -/

/-- A configuration: the TLS node name of `(hostname, certName)` is `hostname/certName`,
and the name part of a key is the key itself. -/
def exampleConfig : Config :=
  { GetTenant := "admin"
    GetSEGName := "Default-Group"
    GetVrf := "global"
    GetVipNetworkList := [{ NetworkName := "vip-net" }]
    CertTypeVS := "VS"
    DEFAULT_L7_APP_PROFILE := "System-HTTP"
    DEFAULT_TCP_NW_PROFILE := "System-TCP-Proxy"
    K8S_TLS_SECRET_CERT := "tls.crt"
    K8S_TLS_SECRET_KEY := "tls.key"
    GetGatewayParentName := fun ns name => "ako-gw--" ++ ns ++ "-" ++ name
    GetVsVipName := fun vsName => vsName
    GetTLSKeyCertNodeName := fun infrasetting sniHostName secretName =>
      infrasetting ++ sniHostName ++ "/" ++ secretName
    ExtractTypeNameNamespace := fun key => ("Secret", "default", key) }

/-- A gateway with an HTTPS listener holding one certificate reference, a plain HTTP
listener, and one static address. -/
def exampleGateway : Gateway :=
  { Namespace := "default"
    Name := "gw"
    Spec :=
      { Listeners :=
          [{ Name := "https", Hostname := some "a.com", Port := 443, Protocol := "HTTPS",
             TLS := some { CertificateRefs := [{ Name := "c" }] } },
           { Name := "http", Hostname := some "b.com", Port := 80, Protocol := "HTTP" }]
        Addresses := [{ Value := "10.0.0.1" }] } }

/-- The gateway `exampleGateway` with a second static address. -/
def exampleGatewayTwoAddresses : Gateway :=
  { exampleGateway with
    Spec := { exampleGateway.Spec with
      Addresses := [{ Value := "10.0.0.1" }, { Value := "10.0.0.2" }] } }

/-- A secret client that knows the secrets `default/c` and `default/d` and answers every
other lookup with an error. -/
def exampleSecrets : SecretClient := fun ns name =>
  if ns = "default" ∧ name = "c" then
    { secretObj := some
        { Name := "c", Namespace := "default",
          Data := fun k => if k = "tls.crt" then some [1, 2] else
            if k = "tls.key" then some [3, 4] else none }
      err := none }
  else if ns = "default" ∧ name = "d" then
    { secretObj := some
        { Name := "d", Namespace := "default",
          Data := fun k => if k = "tls.crt" then some [5] else
            if k = "tls.key" then some [6] else none }
      err := none }
  else { secretObj := some {}, err := some "secrets not found" }

/-- A gateway in namespace `default` with two TLS listeners: `a.com` refers to `missing`
and to `c`, `b.com` refers to `c` in namespace `other` and to `d` with an empty namespace. -/
def exampleGatewayTLS : Gateway :=
  { Namespace := "default"
    Name := "gw"
    Spec :=
      { Listeners :=
          [{ Name := "l1", Hostname := some "a.com", Port := 443, Protocol := "HTTPS",
             TLS := some { CertificateRefs := [{ Name := "missing" }, { Name := "c" }] } },
           { Name := "l2", Hostname := some "b.com", Port := 8443, Protocol := "HTTPS",
             TLS := some { CertificateRefs :=
               [{ Name := "c", Namespace := some "other" },
                { Name := "d", Namespace := some "" }] } }] } }

/-- A gateway whose only listener has a TLS block with a reference to `c` and no hostname. -/
def exampleGatewayNoHostname : Gateway :=
  { Namespace := "default"
    Name := "gw"
    Spec :=
      { Listeners :=
          [{ Name := "l1", Hostname := none, Port := 443, Protocol := "HTTPS",
             TLS := some { CertificateRefs := [{ Name := "c" }] } }] } }

/-- The TLS node of `exampleGatewayTLS` for the reference `c` of listener `a.com`. -/
def exampleNodeAC : AviTLSKeyCertNode :=
  { Name := "a.com/c", Tenant := "admin", Type_ := "VS", Key := [3, 4], Cert := [1, 2] }

/-- The TLS node of `exampleGatewayTLS` for the reference `d` of listener `b.com`. -/
def exampleNodeBD : AviTLSKeyCertNode :=
  { Name := "b.com/d", Tenant := "admin", Type_ := "VS", Key := [6], Cert := [5] }

/-- A graph whose first EVH virtual-service node holds the two TLS nodes that the full
build of `exampleGatewayTLS` produces. -/
def exampleGraph : AviObjectGraph :=
  { modelNodes :=
      [.other "vsvip",
       .evhVs { Name := "ako-gw--default-gw", Tenant := "admin",
                SSLKeyCertRefs := [exampleNodeAC, exampleNodeBD] },
       .evhVs { Name := "child", Tenant := "admin" }] }

/-- The index of the TLS list of `exampleGraph`: each node name with its position. -/
def exampleIndex : GoMap (List Int) :=
  (GoMap.set GoMap.empty "a.com/c" [0]).set "b.com/d" [1]

/-- The secret `default/missing`, once it exists. -/
def exampleMissingSecret : Secret :=
  { Name := "missing", Namespace := "default",
    Data := fun k => if k = "tls.crt" then some [7] else if k = "tls.key" then some [8] else none }

/-- The TLS node of `exampleGatewayTLS` for the reference `missing` of listener `a.com`,
built from `exampleMissingSecret`. -/
def exampleNodeAMissing : AviTLSKeyCertNode :=
  { Name := "a.com/missing", Tenant := "admin", Type_ := "VS", Key := [8], Cert := [7] }

/-- The first listener of `exampleGatewayTLS`. -/
def exampleListenerA : Listener :=
  { Name := "l1", Hostname := some "a.com", Port := 443, Protocol := "HTTPS",
    TLS := some { CertificateRefs := [{ Name := "missing" }, { Name := "c" }] } }

/-- The second listener of `exampleGatewayTLS`. -/
def exampleListenerB : Listener :=
  { Name := "l2", Hostname := some "b.com", Port := 8443, Protocol := "HTTPS",
    TLS := some { CertificateRefs :=
      [{ Name := "c", Namespace := some "other" }, { Name := "d", Namespace := some "" }] } }

/-- The TLS node of a listener `old.com` that the gateway no longer has. -/
def exampleNodeOld : AviTLSKeyCertNode :=
  { Name := "old.com/x", Tenant := "admin", Type_ := "VS", Key := [9], Cert := [9] }

/-- The graph `exampleGraph` with a third TLS node, left over from a listener that
`exampleGatewayTLS` no longer has. -/
def exampleGraphStale : AviObjectGraph :=
  { modelNodes :=
      [.evhVs { Name := "ako-gw--default-gw", Tenant := "admin",
                SSLKeyCertRefs := [exampleNodeAC, exampleNodeBD, exampleNodeOld] }] }

/-- The index of the TLS list of `exampleGraphStale`. -/
def exampleIndexStale : GoMap (List Int) :=
  ((GoMap.set GoMap.empty "a.com/c" [0]).set "b.com/d" [1]).set "old.com/x" [2]

/-- A gateway whose listener `a.com` refers to `c` in namespace `x`, to `d`, to `c` in
its own namespace, and to `e`: the first and the third reference share an encoded key. -/
def exampleGatewayDup : Gateway :=
  { Namespace := "default"
    Name := "gw"
    Spec :=
      { Listeners :=
          [{ Name := "l1", Hostname := some "a.com", Port := 443, Protocol := "HTTPS",
             TLS := some { CertificateRefs :=
               [{ Name := "c", Namespace := some "x" }, { Name := "d" }, { Name := "c" },
                { Name := "e" }] } }] } }

/-- The TLS node for the reference `d` of listener `a.com`. -/
def exampleNodeAD : AviTLSKeyCertNode :=
  { Name := "a.com/d", Tenant := "admin", Type_ := "VS", Key := [6], Cert := [5] }

/-- The secret `default/e`, once it exists. -/
def exampleSecretE : Secret :=
  { Name := "e", Namespace := "default",
    Data := fun k => if k = "tls.crt" then some [10] else if k = "tls.key" then some [11] else none }

/-- The TLS node for the reference `e` of listener `a.com`, built from `exampleSecretE`. -/
def exampleNodeAE : AviTLSKeyCertNode :=
  { Name := "a.com/e", Tenant := "admin", Type_ := "VS", Key := [11], Cert := [10] }

/-- A graph whose first EVH virtual-service node holds the TLS list that the full build of
`exampleGatewayDup` produces under `exampleSecrets`. -/
def exampleGraphDup : AviObjectGraph :=
  { modelNodes :=
      [.evhVs { Name := "ako-gw--default-gw", Tenant := "admin",
                SSLKeyCertRefs := [exampleNodeAD, exampleNodeAC] }] }

/-- The index of the TLS list of `exampleGraphDup`: each node name with its position. -/
def exampleIndexDup : GoMap (List Int) :=
  (GoMap.set GoMap.empty "a.com/d" [0]).set "a.com/c" [1]

/-- A gateway with two listeners on `a.com`: both refer to `c`, the second also to `d`. -/
def exampleGatewayShared : Gateway :=
  { Namespace := "default"
    Name := "gw"
    Spec :=
      { Listeners :=
          [{ Name := "l1", Hostname := some "a.com", Port := 443, Protocol := "HTTPS",
             TLS := some { CertificateRefs := [{ Name := "c" }] } },
           { Name := "l2", Hostname := some "a.com", Port := 8443, Protocol := "HTTPS",
             TLS := some { CertificateRefs := [{ Name := "c" }, { Name := "d" }] } }] } }

/-- A graph whose TLS list holds three nodes `a.com/c` (positions 0, 1 and 3) and the node
`a.com/d` (position 2). -/
def exampleGraphShared : AviObjectGraph :=
  { modelNodes :=
      [.evhVs { Name := "ako-gw--default-gw", Tenant := "admin",
                SSLKeyCertRefs :=
                  [exampleNodeAC, exampleNodeAC, exampleNodeAD, exampleNodeAC] }] }

/-- The index of the TLS list of `exampleGraphShared`. -/
def exampleIndexShared : GoMap (List Int) :=
  (GoMap.set GoMap.empty "a.com/c" [0, 1, 3]).set "a.com/d" [2]

/-- A gateway of class `avi-lb` as the store holds it: generation 3, one address, an
`Accepted` condition, and one listener entry with an `Accepted` condition. -/
def exampleStoredGateway : Gateway :=
  { Namespace := "default"
    Name := "gw"
    Generation := 3
    Spec := { GatewayClassName := "avi-lb",
              Listeners := [{ Name := "https", Hostname := some "a.com", Port := 443,
                              Protocol := "HTTPS" }] }
    Status :=
      { Addresses := some [{ Type_ := some "IPAddress", Value := "10.0.0.1" }]
        Conditions := some
          [{ Type_ := "Accepted", Status := "True", Reason := "Accepted",
             Message := "Gateway configuration is valid", ObservedGeneration := 3,
             LastTransitionTime := 50 }]
        Listeners := some
          [{ Name := "https", AttachedRoutes := 0,
             Conditions := some
               [{ Type_ := "Accepted", Status := "True", Reason := "Accepted",
                  Message := "Listener is valid", ObservedGeneration := 3,
                  LastTransitionTime := 50 }] }] } }

/-- The status of `exampleStoredGateway` with other transition times. -/
def exampleStatusLater : GatewayStatus :=
  { Addresses := some [{ Type_ := some "IPAddress", Value := "10.0.0.1" }]
    Conditions := some
      [{ Type_ := "Accepted", Status := "True", Reason := "Accepted",
         Message := "Gateway configuration is valid", ObservedGeneration := 3,
         LastTransitionTime := 70 }]
    Listeners := some
      [{ Name := "https", AttachedRoutes := 0,
         Conditions := some
           [{ Type_ := "Accepted", Status := "True", Reason := "Accepted",
              Message := "Listener is valid", ObservedGeneration := 3,
              LastTransitionTime := 71 }] }] }

/-- A gateway of a class that another controller owns. -/
def exampleForeignGateway : Gateway :=
  { Namespace := "default"
    Name := "foreign"
    Generation := 1
    Spec := { GatewayClassName := "other" } }

/-- Collaborators: the controller owns the class `avi-lb`, the store holds
`exampleStoredGateway` and `exampleForeignGateway`, and every patch call succeeds. -/
def exampleStatusEnv : StatusEnv :=
  { GatewayController := "ako.vmware.com/avi-lb"
    gatewayClassList := some
      [{ Name := "avi-lb", ControllerName := "ako.vmware.com/avi-lb" },
       { Name := "other", ControllerName := "example.com/lb" }]
    gatewayList := some [exampleStoredGateway, exampleForeignGateway]
    gatewayGet := fun ns name =>
      if ns = "default" ∧ name = "gw" then some exampleStoredGateway
      else if ns = "default" ∧ name = "foreign" then some exampleForeignGateway
      else none
    patchFails := fun _ => false
    refetch := fun _ _ _ => none
    Now := fun n => 100 + n }

/-- The collaborators of `exampleStatusEnv` with a store that rejects every patch call and
keeps returning `exampleStoredGateway`. -/
def exampleRejectingEnv : StatusEnv :=
  { exampleStatusEnv with
    patchFails := fun _ => true
    refetch := fun _ _ _ => some exampleStoredGateway }

/-- The status option of a virtual service of gateway `default/gw` with VIP `10.0.0.1`. -/
def exampleOption : StatusOptions :=
  { Options := { Vip := ["10.0.0.1"], ServiceMetadata := { Gateway := "default/gw" } } }

/-- A status option whose gateway name has no namespace part. -/
def exampleOptionBadName : StatusOptions :=
  { Options := { Vip := ["10.0.0.1"], ServiceMetadata := { Gateway := "gw" } } }

/-- The status option of a virtual service of gateway `default/foreign`. -/
def exampleOptionForeign : StatusOptions :=
  { Options := { Vip := ["10.0.0.9"], ServiceMetadata := { Gateway := "default/foreign" } } }

/-- The secret client `exampleSecrets` with one more secret, `other/e`. -/
def exampleSecretsMore : SecretClient := fun ns name =>
  if ns = "other" ∧ name = "e" then
    { secretObj := some
        { Name := "e", Namespace := "other",
          Data := fun k => if k = "tls.crt" then some [7] else
            if k = "tls.key" then some [8] else none }
      err := none }
  else exampleSecrets ns name

/-- The index `a.com/c -> [-1]`: its one position is smaller than the length of any list. -/
def exampleIndexNegative : GoMap (List Int) :=
  GoMap.set GoMap.empty "a.com/c" [-1]

/-- The secret client `exampleSecrets` once the secret `default/d` is deleted. -/
def exampleSecretsWithoutD : SecretClient := fun ns name =>
  if ns = "default" ∧ name = "d" then { secretObj := some {}, err := some "secrets not found" }
  else exampleSecrets ns name

/-- The secret client `exampleSecrets` once the secret `default/missing` exists. -/
def exampleSecretsWithMissing : SecretClient := fun ns name =>
  if ns = "default" ∧ name = "missing" then
    { secretObj := some exampleMissingSecret, err := none }
  else exampleSecrets ns name

/-- The secret client `exampleSecrets` with a secret `c` in namespace `other` as well. -/
def exampleSecretsOther : SecretClient := fun ns name =>
  if ns = "other" ∧ name = "c" then
    { secretObj := some
        { Name := "c", Namespace := "other",
          Data := fun k => if k = "tls.crt" then some [7] else
            if k = "tls.key" then some [8] else none }
      err := none }
  else exampleSecrets ns name

/-- The secret client `exampleSecretsOther` once the secret `default/c` is deleted. -/
def exampleSecretsOtherWithoutC : SecretClient := fun ns name =>
  if ns = "default" ∧ name = "c" then { secretObj := some {}, err := some "secrets not found" }
  else exampleSecretsOther ns name

/-- A gateway in namespace `default` whose listener `a.com` refers to `c` in namespace
`other` and whose listener `b.com` refers to `c` in its own namespace. -/
def exampleGatewayTwoNamespaces : Gateway :=
  { Namespace := "default"
    Name := "gw"
    Spec :=
      { Listeners :=
          [{ Name := "l1", Hostname := some "a.com", Port := 443, Protocol := "HTTPS",
             TLS := some { CertificateRefs := [{ Name := "c", Namespace := some "other" }] } },
           { Name := "l2", Hostname := some "b.com", Port := 8443, Protocol := "HTTPS",
             TLS := some { CertificateRefs := [{ Name := "c" }] } }] } }

/-- The TLS node of `exampleGatewayTwoNamespaces` for the reference to `other/c`. -/
def exampleNodeACOther : AviTLSKeyCertNode :=
  { Name := "a.com/c", Tenant := "admin", Type_ := "VS", Key := [8], Cert := [7] }

/-- The TLS node of `exampleGatewayTwoNamespaces` for the reference to `default/c`. -/
def exampleNodeBC : AviTLSKeyCertNode :=
  { Name := "b.com/c", Tenant := "admin", Type_ := "VS", Key := [3, 4], Cert := [1, 2] }

/-- A graph whose first EVH virtual-service node holds the TLS list that the full build of
`exampleGatewayTwoNamespaces` produces under `exampleSecretsOther`. -/
def exampleGraphTwoNamespaces : AviObjectGraph :=
  { modelNodes :=
      [.evhVs { Name := "ako-gw--default-gw", Tenant := "admin",
                SSLKeyCertRefs := [exampleNodeACOther, exampleNodeBC] }] }

/-- The secret `default/c` with new key and certificate. -/
def exampleSecretCRotated : Secret :=
  { Name := "c", Namespace := "default",
    Data := fun k => if k = "tls.crt" then some [9] else if k = "tls.key" then some [9, 9] else none }

/-- The secret client `exampleSecrets` once `default/c` holds the new key and
certificate. -/
def exampleSecretsRotated : SecretClient := fun ns name =>
  if ns = "default" ∧ name = "c" then { secretObj := some exampleSecretCRotated, err := none }
  else exampleSecrets ns name

/-- A graph whose first EVH virtual-service node holds the TLS list that the full build of
`exampleGateway` produces under `exampleSecrets`. -/
def exampleGraphOne : AviObjectGraph :=
  { modelNodes :=
      [.evhVs { Name := "ako-gw--default-gw", Tenant := "admin",
                SSLKeyCertRefs := [exampleNodeAC] }] }

/-- The configuration `exampleConfig` on a VCF cluster. -/
def exampleConfigVCF : Config := { exampleConfig with IsVCFCluster := true }

/-- A lister whose network cache holds the network `ns-net` for the namespace `default`. -/
def exampleLister : WCPLister :=
  ({} : WCPLister).UpdateNamespaceNetworkCache "default" "ns-net"

/-- The gateway `exampleStoredGateway` before an address was written to its status. -/
def exampleFreshGateway : Gateway :=
  { exampleStoredGateway with
    Status := { exampleStoredGateway.Status with Addresses := none } }

/-- The gateway `exampleFreshGateway` once the status that `Update` computes for the VIP
`10.0.0.1` has been written to the store. -/
def exampleAppliedGateway : Gateway :=
  { exampleFreshGateway with
    Status := Update.status exampleStatusEnv exampleFreshGateway "10.0.0.1" }

/-- The collaborators of `exampleStatusEnv` with a store that holds `exampleFreshGateway`. -/
def exampleFreshEnv : StatusEnv :=
  { exampleStatusEnv with
    gatewayGet := fun ns name =>
      if ns = "default" ∧ name = "gw" then some exampleFreshGateway else none }

/-- The collaborators of `exampleStatusEnv` with a store that holds
`exampleAppliedGateway`. -/
def exampleAppliedEnv : StatusEnv :=
  { exampleStatusEnv with
    gatewayGet := fun ns name =>
      if ns = "default" ∧ name = "gw" then some exampleAppliedGateway else none }

/-- The status of `exampleStoredGateway` once a route is attached to its listener. -/
def exampleStatusRouteAttached : GatewayStatus :=
  { exampleStoredGateway.Status with
    Listeners := some
      [{ Name := "https", AttachedRoutes := 1,
         Conditions := some
           [{ Type_ := "Accepted", Status := "True", Reason := "Accepted",
              Message := "Listener is valid", ObservedGeneration := 3,
              LastTransitionTime := 50 }] }] }

/-- A gateway of class `avi-lb` without listeners. -/
def exampleGatewayNoListeners : Gateway :=
  { Namespace := "default", Name := "gw", Generation := 1,
    Spec := { GatewayClassName := "avi-lb" } }

/-- A gateway of class `avi-lb` with a listener of unsupported protocol and two static
addresses. -/
def exampleGatewayInvalidTwoAddresses : Gateway :=
  { Namespace := "default", Name := "gw", Generation := 1,
    Spec := { GatewayClassName := "avi-lb",
              Listeners := [{ Name := "l1", Hostname := some "foo.example.com", Port := 80,
                              Protocol := "GRPC" }],
              Addresses := [{ Value := "10.0.0.1" }, { Value := "10.0.0.2" }] } }

/-- A gateway of class `avi-lb` with the listener `80, HTTP, foo.example.com` and one
static address. -/
def exampleGatewayFoo : Gateway :=
  { Namespace := "default", Name := "gw", Generation := 1,
    Spec := { GatewayClassName := "avi-lb",
              Listeners := [{ Name := "l1", Hostname := some "foo.example.com", Port := 80,
                              Protocol := "HTTP" }],
              Addresses := [{ Value := "10.0.0.1" }] } }

/-! # Theorems -/

/-! ## BuildPortProtocols -/

/-- The loop of `BuildPortProtocols` appends one entry per remaining listener, in order. -/
theorem BuildPortProtocols.loop_eq (ls : List Listener) (acc : List AviPortHostProtocol) :
    BuildPortProtocols.loop ls acc =
      acc ++ ls.map fun l =>
        { Port := l.Port, Protocol := l.Protocol,
          EnableSSL :=
            match l.TLS with
            | some tls => decide (tls.CertificateRefs.length > 0)
            | none => false } := by
  induction ls generalizing acc with
  | nil => simp [BuildPortProtocols.loop]
  | cons l rest ih =>
    rw [BuildPortProtocols.loop, ih]
    cases hT : l.TLS with
    | none => simp [hT]
    | some tls =>
      by_cases hc : tls.CertificateRefs.length > 0 <;> simp [hT, hc]

/-- C1: `BuildPortProtocols` returns one entry per listener, in listener order: the result
has the length of `gateway.Spec.Listeners`, and its `i`-th entry carries the port and the
protocol of the `i`-th listener. -/
theorem BuildPortProtocols_one_entry_per_listener (gateway : Gateway) (key : String) :
    (BuildPortProtocols gateway key).length = gateway.Spec.Listeners.length ∧
    ∀ i : Nat,
      ((BuildPortProtocols gateway key)[i]?).map (fun pp => (pp.Port, pp.Protocol)) =
        (gateway.Spec.Listeners[i]?).map (fun l => (l.Port, l.Protocol)) := by
  unfold BuildPortProtocols
  rw [BuildPortProtocols.loop_eq]
  refine ⟨by simp, fun i => ?_⟩
  simp only [List.nil_append, List.getElem?_map, Option.map_map]
  rfl

/-- C2: the `i`-th entry of `BuildPortProtocols` has `EnableSSL` set exactly when the
`i`-th listener has a TLS block with at least one certificate reference. -/
theorem BuildPortProtocols_enableSSL_iff (gateway : Gateway) (key : String) (i : Nat)
    (pp : AviPortHostProtocol) (listener : Listener)
    (hpp : (BuildPortProtocols gateway key)[i]? = some pp)
    (hl : gateway.Spec.Listeners[i]? = some listener) :
    pp.EnableSSL = true ↔
      ∃ tls, listener.TLS = some tls ∧ 1 ≤ tls.CertificateRefs.length := by
  unfold BuildPortProtocols at hpp
  rw [BuildPortProtocols.loop_eq] at hpp
  simp only [List.nil_append, List.getElem?_map, hl, Option.map_some', Option.some.injEq] at hpp
  subst hpp
  cases hT : listener.TLS with
  | none => simp
  | some tls => simp [Nat.succ_le_iff]

/-- A witness of `BuildPortProtocols_enableSSL_iff`: on `exampleGateway` the first entry
(HTTPS listener with one certificate reference) has `EnableSSL` set. -/
theorem BuildPortProtocols_enableSSL_iff_witness :
    ((BuildPortProtocols exampleGateway "k")[0]? =
        some { Port := 443, Protocol := "HTTPS", EnableSSL := true }) ∧
    ((({ Port := 443, Protocol := "HTTPS", EnableSSL := true } : AviPortHostProtocol).EnableSSL
        = true) ↔
      ∃ tls,
        (({ Name := "https", Hostname := some "a.com", Port := 443, Protocol := "HTTPS",
            TLS := some { CertificateRefs := [{ Name := "c" }] } } : Listener).TLS = some tls) ∧
        1 ≤ tls.CertificateRefs.length) :=
  ⟨by decide,
    BuildPortProtocols_enableSSL_iff exampleGateway "k" 0 _ _ (by decide) (by decide)⟩

/-! ## BuildVsVipNodeForGateway -/

/-- C3: the VIP node built for a gateway has the value of the gateway's single address as
its static IP when the gateway declares exactly one address, and an empty static IP when
it declares none or more than one. -/
theorem BuildVsVipNodeForGateway_static_ip (cfg : Config) (gateway : Gateway)
    (vsName : String) :
    (∀ a, gateway.Spec.Addresses = [a] →
      (BuildVsVipNodeForGateway cfg gateway vsName).IPAddress = a.Value) ∧
    (gateway.Spec.Addresses.length ≠ 1 →
      (BuildVsVipNodeForGateway cfg gateway vsName).IPAddress = "") := by
  constructor
  · intro a ha
    simp [BuildVsVipNodeForGateway, ha]
  · intro hne
    simp [BuildVsVipNodeForGateway, hne]

/-- A witness of `BuildVsVipNodeForGateway_static_ip`: one address is used verbatim, two
addresses leave the static IP empty. -/
theorem BuildVsVipNodeForGateway_static_ip_witness :
    (BuildVsVipNodeForGateway exampleConfig exampleGateway "vs").IPAddress = "10.0.0.1" ∧
    (BuildVsVipNodeForGateway exampleConfig exampleGatewayTwoAddresses "vs").IPAddress = "" :=
  ⟨(BuildVsVipNodeForGateway_static_ip exampleConfig exampleGateway "vs").1
      { Value := "10.0.0.1" } (by decide),
    (BuildVsVipNodeForGateway_static_ip exampleConfig exampleGatewayTwoAddresses "vs").2
      (by decide)⟩

/-! ## BuildTLSNodesForGateway -/

/-- The namespace computed by the loop body is the resolution namespace of the reference. -/
theorem resolutionNamespace_eq (gateway : Gateway) (certRef : SecretObjectReference) :
    (match certRef.Namespace with
      | none => gateway.Namespace
      | some n => if n = "" then gateway.Namespace else n) =
      resolutionNamespace gateway certRef := by
  unfold resolutionNamespace
  cases h : certRef.Namespace with
  | none => simp
  | some n => by_cases hn : n = "" <;> simp [hn]

/-- One pass of the loop body: it records its lookup, appends the node of a resolving
reference when the listener has a hostname, and faults when it has none. -/
theorem BuildTLSNodesForGateway.certRef_eq (cfg : Config) (cs : SecretClient)
    (gateway : Gateway) (key : String) (l : Listener) (r : SecretObjectReference)
    (st : TLSBuild) :
    BuildTLSNodesForGateway.certRef cfg cs gateway key l r st =
      { tlsNodes := st.tlsNodes ++
          (match resolveCertRef cs gateway r, l.Hostname with
            | some s, some h => [TLSNodeFromSecret cfg s h r.Name key]
            | _, _ => [])
        lookups := st.lookups ++ [(resolutionNamespace gateway r, r.Name)]
        faulted := st.faulted || ((resolveCertRef cs gateway r).isSome && l.Hostname.isNone) } := by
  unfold BuildTLSNodesForGateway.certRef resolveCertRef
  simp only [resolutionNamespace_eq]
  cases he : (cs (resolutionNamespace gateway r) r.Name).err <;>
    cases hs : (cs (resolutionNamespace gateway r) r.Name).secretObj <;>
    cases hh : l.Hostname <;> simp

/-- The inner loop from a state that has not faulted, when every resolving reference of
the listener finds a hostname: all lookups are issued and every resolving reference
appends its node. -/
theorem BuildTLSNodesForGateway.certRefs_eq (cfg : Config) (cs : SecretClient)
    (gateway : Gateway) (key : String) (l : Listener) (rs : List SecretObjectReference)
    (st : TLSBuild) (hst : st.faulted = false)
    (hhost : ∀ r ∈ rs, (resolveCertRef cs gateway r).isSome = true → l.Hostname ≠ none) :
    BuildTLSNodesForGateway.certRefs cfg cs gateway key l rs st =
      { tlsNodes := st.tlsNodes ++ rs.filterMap fun r =>
          (resolveCertRef cs gateway r).map fun s =>
            TLSNodeFromSecret cfg s (l.Hostname.getD "") r.Name key
        lookups := st.lookups ++ rs.map fun r => (resolutionNamespace gateway r, r.Name)
        faulted := false } := by
  induction rs generalizing st with
  | nil => cases st; simp_all [BuildTLSNodesForGateway.certRefs]
  | cons r rest ih =>
    have hr := hhost r (List.mem_cons_self _ _)
    have hrest : ∀ r' ∈ rest, (resolveCertRef cs gateway r').isSome = true → l.Hostname ≠ none :=
      fun r' hr' => hhost r' (List.mem_cons_of_mem _ hr')
    rw [BuildTLSNodesForGateway.certRefs, BuildTLSNodesForGateway.certRef_eq]
    cases hres : resolveCertRef cs gateway r with
    | none =>
      simp only [hst, Option.isSome_none, Bool.false_and, Bool.or_false, Bool.false_eq_true,
        if_false]
      rw [ih _ rfl hrest]
      simp [hres]
    | some s =>
      cases hh : l.Hostname with
      | none => simp [hres, hh] at hr
      | some h =>
        simp only [hst, Option.isSome_some, Option.isNone_some, Bool.and_false, Bool.or_false,
          Bool.false_eq_true, if_false]
        rw [ih _ rfl (by simp [hh])]
        simp [hres, hh]

/-- The outer loop under the same conditions, over the certificate references of all
remaining listeners. -/
theorem BuildTLSNodesForGateway.listeners_eq (cfg : Config) (cs : SecretClient)
    (gateway : Gateway) (key : String) (ls : List Listener) (st : TLSBuild)
    (hst : st.faulted = false)
    (hhost : ∀ p ∈ certRefWalk ls,
      (resolveCertRef cs gateway p.2).isSome = true → p.1.Hostname ≠ none) :
    BuildTLSNodesForGateway.listeners cfg cs gateway key ls st =
      { tlsNodes := st.tlsNodes ++ (certRefWalk ls).filterMap fun p =>
          (resolveCertRef cs gateway p.2).map fun s =>
            TLSNodeFromSecret cfg s (p.1.Hostname.getD "") p.2.Name key
        lookups := st.lookups ++
          (certRefWalk ls).map fun p => (resolutionNamespace gateway p.2, p.2.Name)
        faulted := false } := by
  induction ls generalizing st with
  | nil => cases st; simp_all [BuildTLSNodesForGateway.listeners, certRefWalk]
  | cons l rest ih =>
    have hrest : ∀ p ∈ certRefWalk rest,
        (resolveCertRef cs gateway p.2).isSome = true → p.1.Hostname ≠ none := by
      intro p hp
      apply hhost p
      simp only [certRefWalk, List.flatMap_cons, List.mem_append]
      exact Or.inr hp
    rw [BuildTLSNodesForGateway.listeners]
    cases hT : l.TLS with
    | none =>
      simp only [hst, Bool.false_eq_true, if_false]
      rw [ih _ hst hrest]
      simp [certRefWalk, hT]
    | some tls =>
      have hl : ∀ r ∈ tls.CertificateRefs,
          (resolveCertRef cs gateway r).isSome = true → l.Hostname ≠ none := by
        intro r hr
        apply hhost (l, r)
        simp only [certRefWalk, List.flatMap_cons, List.mem_append, hT]
        exact Or.inl (List.mem_map.mpr ⟨r, hr, rfl⟩)
      simp only [BuildTLSNodesForGateway.certRefs_eq cfg cs gateway key l _ st hst hl,
        Bool.false_eq_true, if_false]
      rw [ih _ rfl hrest]
      simp [certRefWalk, hT, List.filterMap_append, List.filterMap_map, Function.comp_def]

/-- C4 (as amended): when every certificate reference whose secret resolves belongs to a
listener with a hostname, `BuildTLSNodesForGateway` returns exactly one TLS node per
resolving reference, in declared order; references whose lookup fails are skipped and
the references after them still produce their nodes. -/
theorem BuildTLSNodesForGateway_one_node_per_resolved_ref (cfg : Config) (cs : SecretClient)
    (gateway : Gateway) (key : String)
    (hhost : ∀ p ∈ certRefWalk gateway.Spec.Listeners,
      (resolveCertRef cs gateway p.2).isSome = true → p.1.Hostname ≠ none) :
    (BuildTLSNodesForGateway cfg cs gateway key).faulted = false ∧
    (BuildTLSNodesForGateway cfg cs gateway key).tlsNodes =
      ((certRefWalk gateway.Spec.Listeners).filterMap fun p =>
        (resolveCertRef cs gateway p.2).map fun s =>
          TLSNodeFromSecret cfg s (p.1.Hostname.getD "") p.2.Name key) ∧
    (BuildTLSNodesForGateway cfg cs gateway key).tlsNodes.length =
      ((certRefWalk gateway.Spec.Listeners).filter fun p =>
        (resolveCertRef cs gateway p.2).isSome).length := by
  unfold BuildTLSNodesForGateway
  rw [BuildTLSNodesForGateway.listeners_eq cfg cs gateway key _ _ rfl hhost]
  refine ⟨rfl, by simp, ?_⟩
  simp only [List.nil_append]
  generalize certRefWalk gateway.Spec.Listeners = w
  induction w with
  | nil => rfl
  | cons p rest ih =>
    cases hres : resolveCertRef cs gateway p.2 <;>
      simp [List.filterMap_cons, List.filter_cons, hres, ih]

/-- A witness of `BuildTLSNodesForGateway_one_node_per_resolved_ref`: on
`exampleGatewayTLS` the references `missing` and `other/c` are skipped and the two
others give their nodes, in order. -/
theorem BuildTLSNodesForGateway_one_node_per_resolved_ref_witness :
    (BuildTLSNodesForGateway exampleConfig exampleSecrets exampleGatewayTLS "k").faulted
      = false ∧
    (BuildTLSNodesForGateway exampleConfig exampleSecrets exampleGatewayTLS "k").tlsNodes =
      [{ Name := "a.com/c", Tenant := "admin", Type_ := "VS", Key := [3, 4], Cert := [1, 2] },
       { Name := "b.com/d", Tenant := "admin", Type_ := "VS", Key := [6], Cert := [5] }] := by
  have h := BuildTLSNodesForGateway_one_node_per_resolved_ref exampleConfig exampleSecrets
    exampleGatewayTLS "k" (by decide)
  exact ⟨h.1, by decide⟩

/-- C4 (counterexample): on `exampleGatewayNoHostname` the only certificate reference
resolves, yet the build ends in a nil-hostname fault and returns no node list. -/
theorem BuildTLSNodesForGateway_faults_without_hostname :
    ((certRefWalk exampleGatewayNoHostname.Spec.Listeners).filter fun p =>
        (resolveCertRef exampleSecrets exampleGatewayNoHostname p.2).isSome).length = 1 ∧
    (BuildTLSNodesForGateway exampleConfig exampleSecrets exampleGatewayNoHostname "k").faulted
      = true ∧
    (BuildTLSNodesForGateway exampleConfig exampleSecrets exampleGatewayNoHostname "k").tlsNodes
      = [] := by
  decide

/-- The lookups of the inner loop, without any assumption: the lookups of a front part
of the references are added, of all of them when the loop ends without a fault. -/
theorem BuildTLSNodesForGateway.certRefs_lookups (cfg : Config) (cs : SecretClient)
    (gateway : Gateway) (key : String) (l : Listener) (rs : List SecretObjectReference)
    (st : TLSBuild) :
    ∃ t, t <+: (rs.map fun r => (resolutionNamespace gateway r, r.Name)) ∧
      (BuildTLSNodesForGateway.certRefs cfg cs gateway key l rs st).lookups = st.lookups ++ t ∧
      ((BuildTLSNodesForGateway.certRefs cfg cs gateway key l rs st).faulted = false →
        t = rs.map fun r => (resolutionNamespace gateway r, r.Name)) := by
  induction rs generalizing st with
  | nil => exact ⟨[], by simp [BuildTLSNodesForGateway.certRefs]⟩
  | cons r rest ih =>
    rw [BuildTLSNodesForGateway.certRefs]
    by_cases hf : (BuildTLSNodesForGateway.certRef cfg cs gateway key l r st).faulted = true
    · refine ⟨[(resolutionNamespace gateway r, r.Name)], ?_, ?_, ?_⟩
      · simp [List.prefix_cons_inj]
      · simp only [hf, if_true]
        rw [BuildTLSNodesForGateway.certRef_eq]
      · simp [hf]
    · obtain ⟨t, ht, hl, hfull⟩ :=
        ih (BuildTLSNodesForGateway.certRef cfg cs gateway key l r st)
      refine ⟨(resolutionNamespace gateway r, r.Name) :: t, ?_, ?_, ?_⟩
      · simpa [List.prefix_cons_inj] using ht
      · simp only [hf, Bool.false_eq_true, if_false, hl]
        rw [BuildTLSNodesForGateway.certRef_eq]
        simp
      · intro h
        simp only [hf, Bool.false_eq_true, if_false] at h
        simp [hfull h]

/-- The lookups of the outer loop, without any assumption. -/
theorem BuildTLSNodesForGateway.listeners_lookups (cfg : Config) (cs : SecretClient)
    (gateway : Gateway) (key : String) (ls : List Listener) (st : TLSBuild) :
    ∃ t, t <+: ((certRefWalk ls).map fun p => (resolutionNamespace gateway p.2, p.2.Name)) ∧
      (BuildTLSNodesForGateway.listeners cfg cs gateway key ls st).lookups = st.lookups ++ t ∧
      ((BuildTLSNodesForGateway.listeners cfg cs gateway key ls st).faulted = false →
        t = (certRefWalk ls).map fun p => (resolutionNamespace gateway p.2, p.2.Name)) := by
  induction ls generalizing st with
  | nil => exact ⟨[], by simp [BuildTLSNodesForGateway.listeners, certRefWalk]⟩
  | cons l rest ih =>
    rw [BuildTLSNodesForGateway.listeners]
    cases hT : l.TLS with
    | none =>
      by_cases hf : st.faulted = true
      · exact ⟨[], by simp [hf]⟩
      · obtain ⟨t, ht, hl, hfull⟩ := ih st
        refine ⟨t, ?_, ?_, ?_⟩
        · simpa [certRefWalk, hT] using ht
        · simp only [hf, Bool.false_eq_true, if_false, hl]
        · intro h
          simp only [hf, Bool.false_eq_true, if_false] at h
          simpa [certRefWalk, hT] using hfull h
    | some tls =>
      obtain ⟨t₁, ht₁, hl₁, hfull₁⟩ :=
        BuildTLSNodesForGateway.certRefs_lookups cfg cs gateway key l tls.CertificateRefs st
      have hwalk : ((certRefWalk (l :: rest)).map fun p =>
            (resolutionNamespace gateway p.2, p.2.Name)) =
          (tls.CertificateRefs.map fun r => (resolutionNamespace gateway r, r.Name)) ++
            (certRefWalk rest).map fun p => (resolutionNamespace gateway p.2, p.2.Name) := by
        simp [certRefWalk, hT, Function.comp_def]
      rw [hwalk]
      by_cases hf : (BuildTLSNodesForGateway.certRefs cfg cs gateway key l
          tls.CertificateRefs st).faulted = true
      · refine ⟨t₁, ?_, ?_, ?_⟩
        · exact ht₁.trans (List.prefix_append _ _)
        · simp only [hf, if_true, hl₁]
        · simp [hf]
      · obtain ⟨t₂, ht₂, hl₂, hfull₂⟩ :=
          ih (BuildTLSNodesForGateway.certRefs cfg cs gateway key l tls.CertificateRefs st)
        have h₁ := hfull₁ (by simpa using hf)
        refine ⟨t₁ ++ t₂, ?_, ?_, ?_⟩
        · rw [h₁]
          exact (List.prefix_append_right_inj _).mpr ht₂
        · simp only [hf, Bool.false_eq_true, if_false, hl₂, hl₁, List.append_assoc]
        · intro h
          simp only [hf, Bool.false_eq_true, if_false] at h
          rw [h₁, hfull₂ h]

/-- C5: every secret lookup of the full TLS build is issued in the gateway's own namespace
when the reference's namespace is absent or empty, and in the reference's namespace
otherwise: the lookups `(namespace, name)` are those of the certificate references in
declared order, up to the point where the build stops, and all of them when it does not
fault. -/
theorem BuildTLSNodesForGateway_lookup_namespace (cfg : Config) (cs : SecretClient)
    (gateway : Gateway) (key : String) :
    (BuildTLSNodesForGateway cfg cs gateway key).lookups <+:
      ((certRefWalk gateway.Spec.Listeners).map fun p =>
        (if p.2.Namespace = none ∨ p.2.Namespace = some "" then gateway.Namespace
          else p.2.Namespace.getD gateway.Namespace, p.2.Name)) ∧
    ((BuildTLSNodesForGateway cfg cs gateway key).faulted = false →
      (BuildTLSNodesForGateway cfg cs gateway key).lookups =
        (certRefWalk gateway.Spec.Listeners).map fun p =>
          (if p.2.Namespace = none ∨ p.2.Namespace = some "" then gateway.Namespace
            else p.2.Namespace.getD gateway.Namespace, p.2.Name)) := by
  obtain ⟨t, ht, hl, hfull⟩ :=
    BuildTLSNodesForGateway.listeners_lookups cfg cs gateway key gateway.Spec.Listeners {}
  simp only [resolutionNamespace] at ht hfull
  unfold BuildTLSNodesForGateway
  refine ⟨?_, ?_⟩
  · rw [hl]
    simpa using ht
  · intro h
    rw [hl, hfull h]
    simp

/-- A witness of `BuildTLSNodesForGateway_lookup_namespace`: on `exampleGatewayTLS` the
references without namespace and with the empty namespace are looked up in `default`,
the reference with namespace `other` in `other`. -/
theorem BuildTLSNodesForGateway_lookup_namespace_witness :
    (BuildTLSNodesForGateway exampleConfig exampleSecrets exampleGatewayTLS "k").lookups =
      [("default", "missing"), ("default", "c"), ("other", "c"), ("default", "d")] := by
  rw [(BuildTLSNodesForGateway_lookup_namespace exampleConfig exampleSecrets
    exampleGatewayTLS "k").2 (by decide)]
  decide

/-! ## The walk of the incremental passes -/

/-- The inner loop is the walk over the references of the listener. -/
theorem walkCertRefs_eq_walkPairs
    (body : Listener → SecretObjectReference → TLSWalk → Option TLSWalk) (l : Listener)
    (rs : List SecretObjectReference) (st : TLSWalk) :
    walkCertRefs body l rs st = walkPairs body (rs.map fun r => (l, r)) st := by
  induction rs generalizing st with
  | nil => rfl
  | cons r rest ih =>
    simp only [walkCertRefs, List.map_cons, walkPairs]
    cases body l r st with
    | none => rfl
    | some st' => exact ih st'

/-- A walk over an appended list is the walk over the first part followed by the walk
over the second. -/
theorem walkPairs_append
    (body : Listener → SecretObjectReference → TLSWalk → Option TLSWalk)
    (ps qs : List (Listener × SecretObjectReference)) (st : TLSWalk) :
    walkPairs body (ps ++ qs) st = (walkPairs body ps st).bind (walkPairs body qs) := by
  induction ps generalizing st with
  | nil => rfl
  | cons p rest ih =>
    simp only [List.cons_append, walkPairs]
    cases body p.1 p.2 st with
    | none => rfl
    | some st' => exact ih st'

/-- The nested loops of a pass are the walk over the certificate references of the
listeners in declared order. -/
theorem walkListeners_eq_walkPairs
    (body : Listener → SecretObjectReference → TLSWalk → Option TLSWalk)
    (ls : List Listener) (st : TLSWalk) :
    walkListeners body ls st = walkPairs body (certRefWalk ls) st := by
  induction ls generalizing st with
  | nil => rfl
  | cons l rest ih =>
    rw [walkListeners]
    cases hT : l.TLS with
    | none =>
      simp only [certRefWalk, List.flatMap_cons, hT, List.nil_append]
      exact ih st
    | some tls =>
      have hw : certRefWalk (l :: rest) =
          (tls.CertificateRefs.map fun r => (l, r)) ++ certRefWalk rest := by
        simp [certRefWalk, hT]
      rw [hw, walkPairs_append]
      simp only [walkCertRefs_eq_walkPairs]
      cases walkPairs body (tls.CertificateRefs.map fun r => (l, r)) st with
      | none => rfl
      | some st' => exact ih st'

/-- The EVH virtual-service nodes after the assignment of a new TLS list to the first. -/
theorem GetAviEvhVS_setFirstEvhVsCertRefs (tlsNodes : List AviTLSKeyCertNode)
    (ms : List AviModelNode) (vs0 : AviEvhVsNode) (vsRest : List AviEvhVsNode)
    (h : AviObjectGraph.GetAviEvhVS { modelNodes := ms } = vs0 :: vsRest) :
    AviObjectGraph.GetAviEvhVS { modelNodes := setFirstEvhVsCertRefs tlsNodes ms } =
      { vs0 with SSLKeyCertRefs := tlsNodes } :: vsRest := by
  induction ms with
  | nil => simp [AviObjectGraph.GetAviEvhVS] at h
  | cons m rest ih =>
    cases m with
    | evhVs vs =>
      simp only [AviObjectGraph.GetAviEvhVS, List.filterMap_cons, List.cons.injEq] at h
      simp only [setFirstEvhVsCertRefs, AviObjectGraph.GetAviEvhVS, List.filterMap_cons,
        List.cons.injEq]
      exact ⟨by rw [h.1], h.2⟩
    | other name =>
      simp only [AviObjectGraph.GetAviEvhVS, List.filterMap_cons] at h ih
      simp only [setFirstEvhVsCertRefs, AviObjectGraph.GetAviEvhVS, List.filterMap_cons]
      exact ih h

/-- A completed `AddTLSNode` in terms of the walk: the graph has a first EVH
virtual-service node, the walk over the gateway's certificate references completes, and
the call leaves the walk's node list in that node and the walk's index map. -/
theorem AddTLSNode_isSome (cfg : Config) (key : String) (object : AviObjectGraph)
    (gateway : Gateway) (secretObj : Option Secret) (index : GoMap (List Int))
    (h : (AddTLSNode cfg key object gateway secretObj index).isSome = true) :
    ∃ vs0 vsRest st out,
      object.GetAviEvhVS = vs0 :: vsRest ∧
      walkPairs (AddTLSNode.certRef cfg key (secretNameOf cfg key) vs0.SSLKeyCertRefs secretObj)
        (certRefWalk gateway.Spec.Listeners)
        { tlsNodes := [], encodedCertNameIndexMap := index } = some st ∧
      AddTLSNode cfg key object gateway secretObj index = some out ∧
      out.2 = st.encodedCertNameIndexMap ∧
      out.1.GetAviEvhVS = { vs0 with SSLKeyCertRefs := st.tlsNodes } :: vsRest ∧
      tlsListOf out.1 = some st.tlsNodes := by
  unfold AddTLSNode at h ⊢
  cases hvs : object.GetAviEvhVS with
  | nil => simp [hvs] at h
  | cons vs0 vsRest =>
    simp only [hvs, walkListeners_eq_walkPairs] at h ⊢
    cases hw : walkPairs (AddTLSNode.certRef cfg key (cfg.ExtractTypeNameNamespace key).2.2
        vs0.SSLKeyCertRefs secretObj) (certRefWalk gateway.Spec.Listeners)
        { tlsNodes := [], encodedCertNameIndexMap := index } with
    | none => simp [hw] at h
    | some st =>
      have hg := GetAviEvhVS_setFirstEvhVsCertRefs st.tlsNodes object.modelNodes vs0 vsRest hvs
      exact ⟨vs0, vsRest, st, _, rfl, hw, rfl, rfl, hg, by simp [tlsListOf, hg]⟩

/-- A completed `DeleteTLSNode` in terms of the walk. -/
theorem DeleteTLSNode_isSome (cfg : Config) (key : String) (object : AviObjectGraph)
    (gateway : Gateway) (secretObj : Option Secret) (index : GoMap (List Int))
    (h : (DeleteTLSNode cfg key object gateway secretObj index).isSome = true) :
    ∃ vs0 vsRest st out,
      object.GetAviEvhVS = vs0 :: vsRest ∧
      walkPairs (DeleteTLSNode.certRef cfg (secretNameOf cfg key) vs0.SSLKeyCertRefs)
        (certRefWalk gateway.Spec.Listeners)
        { tlsNodes := [], encodedCertNameIndexMap := index } = some st ∧
      DeleteTLSNode cfg key object gateway secretObj index = some out ∧
      out.2 = st.encodedCertNameIndexMap ∧
      out.1.GetAviEvhVS = { vs0 with SSLKeyCertRefs := st.tlsNodes } :: vsRest ∧
      tlsListOf out.1 = some st.tlsNodes := by
  unfold DeleteTLSNode at h ⊢
  cases hvs : object.GetAviEvhVS with
  | nil => simp [hvs] at h
  | cons vs0 vsRest =>
    simp only [hvs, walkListeners_eq_walkPairs] at h ⊢
    cases hw : walkPairs (DeleteTLSNode.certRef cfg (cfg.ExtractTypeNameNamespace key).2.2
        vs0.SSLKeyCertRefs) (certRefWalk gateway.Spec.Listeners)
        { tlsNodes := [], encodedCertNameIndexMap := index } with
    | none => simp [hw] at h
    | some st =>
      have hg := GetAviEvhVS_setFirstEvhVsCertRefs st.tlsNodes object.modelNodes vs0 vsRest hvs
      exact ⟨vs0, vsRest, st, _, rfl, hw, rfl, rfl, hg, by simp [tlsListOf, hg]⟩

/-! ## The loop bodies of the incremental passes -/

/-- A completed step of `AddTLSNode` on a reference whose key is in the index: the node at
the first recorded position is appended and that position is consumed. -/
theorem AddTLSNode.addStep_indexed (cfg : Config) (key secretName : String)
    (prev : List AviTLSKeyCertNode) (secretObj : Option Secret) (l : Listener)
    (r : SecretObjectReference) (st st' : TLSWalk) (hostname : String) (indexlist : List Int)
    (hh : l.Hostname = some hostname)
    (hidx : st.encodedCertNameIndexMap (encodedKey cfg hostname r) = some indexlist)
    (hstep : AddTLSNode.certRef cfg key secretName prev secretObj l r st = some st') :
    ∃ position node, indexlist.head? = some position ∧ sliceAt prev position = some node ∧
      st' = { tlsNodes := st.tlsNodes ++ [node]
              encodedCertNameIndexMap :=
                popIndex st.encodedCertNameIndexMap (encodedKey cfg hostname r) indexlist } := by
  unfold encodedKey at hidx ⊢
  simp only [AddTLSNode.certRef, hh, hidx] at hstep
  cases hp : indexlist.head? with
  | none => simp [hp] at hstep
  | some position =>
    cases hn : sliceAt prev position with
    | none => simp [hp, hn] at hstep
    | some node =>
      simp only [hp, hn, Option.some.injEq] at hstep
      exact ⟨position, node, rfl, hn, hstep.symm⟩

/-- A completed step of `AddTLSNode` on a reference whose key is not in the index: a node
built from the supplied secret is appended when the reference names the changed secret,
and the state is left as it is otherwise. -/
theorem AddTLSNode.addStep_not_indexed (cfg : Config) (key secretName : String)
    (prev : List AviTLSKeyCertNode) (secretObj : Option Secret) (l : Listener)
    (r : SecretObjectReference) (st st' : TLSWalk) (hostname : String)
    (hh : l.Hostname = some hostname)
    (hidx : st.encodedCertNameIndexMap (encodedKey cfg hostname r) = none)
    (hstep : AddTLSNode.certRef cfg key secretName prev secretObj l r st = some st') :
    (r.Name = secretName → ∃ secret, secretObj = some secret ∧
      st' = { st with
        tlsNodes := st.tlsNodes ++ [TLSNodeFromSecret cfg secret hostname r.Name key] }) ∧
    (r.Name ≠ secretName → st' = st) := by
  unfold encodedKey at hidx
  simp only [AddTLSNode.certRef, hh, hidx] at hstep
  by_cases hname : r.Name = secretName
  · simp only [hname, if_true] at hstep
    cases hs : secretObj with
    | none => simp [hs] at hstep
    | some secret =>
      simp only [hs, Option.some.injEq] at hstep
      exact ⟨fun _ => ⟨secret, rfl, by rw [← hstep, hname]⟩, fun hne => absurd hname hne⟩
  · simp only [hname, if_false, Option.some.injEq] at hstep
    exact ⟨fun he => absurd he hname, fun _ => hstep.symm⟩

/-- A completed step of `DeleteTLSNode` on a reference whose key is in the index: the
position is consumed, and the node at the first recorded position is appended unless the
reference names the deleted secret. -/
theorem DeleteTLSNode.deleteStep_indexed (cfg : Config) (secretName : String)
    (prev : List AviTLSKeyCertNode) (l : Listener)
    (r : SecretObjectReference) (st st' : TLSWalk) (hostname : String) (indexlist : List Int)
    (hh : l.Hostname = some hostname)
    (hidx : st.encodedCertNameIndexMap (encodedKey cfg hostname r) = some indexlist)
    (hstep : DeleteTLSNode.certRef cfg secretName prev l r st = some st') :
    st'.encodedCertNameIndexMap =
      popIndex st.encodedCertNameIndexMap (encodedKey cfg hostname r) indexlist ∧
    (r.Name = secretName → st'.tlsNodes = st.tlsNodes) ∧
    (r.Name ≠ secretName → ∃ position node, indexlist.head? = some position ∧
      sliceAt prev position = some node ∧ st'.tlsNodes = st.tlsNodes ++ [node]) := by
  unfold encodedKey at hidx ⊢
  simp only [DeleteTLSNode.certRef, hh, hidx] at hstep
  by_cases hname : r.Name = secretName
  · simp only [hname, ne_eq, not_true_eq_false, if_false, Option.some.injEq] at hstep
    subst hstep
    exact ⟨by rw [hname], fun _ => rfl, fun hne => absurd hname hne⟩
  · simp only [ne_eq, hname, not_false_eq_true, if_true] at hstep
    cases hp : indexlist.head? with
    | none => simp [hp] at hstep
    | some position =>
      cases hn : sliceAt prev position with
      | none => simp [hp, hn] at hstep
      | some node =>
        simp only [hp, hn, Option.some.injEq] at hstep
        subst hstep
        exact ⟨rfl, fun he => absurd he hname, fun _ => ⟨position, node, rfl, hn, rfl⟩⟩

/-- A completed step of `DeleteTLSNode` on a reference whose key is not in the index
leaves the state as it is. -/
theorem DeleteTLSNode.deleteStep_not_indexed (cfg : Config) (secretName : String)
    (prev : List AviTLSKeyCertNode) (l : Listener)
    (r : SecretObjectReference) (st st' : TLSWalk) (hostname : String)
    (hh : l.Hostname = some hostname)
    (hidx : st.encodedCertNameIndexMap (encodedKey cfg hostname r) = none)
    (hstep : DeleteTLSNode.certRef cfg secretName prev l r st = some st') :
    st' = st := by
  unfold encodedKey at hidx
  simp only [DeleteTLSNode.certRef, hh, hidx, Option.some.injEq] at hstep
  exact hstep.symm

/-- A completed step of `AddTLSNode` found a hostname on the listener. -/
theorem AddTLSNode.addStep_hostname (cfg : Config) (key secretName : String)
    (prev : List AviTLSKeyCertNode) (secretObj : Option Secret) (l : Listener)
    (r : SecretObjectReference) (st st' : TLSWalk)
    (hstep : AddTLSNode.certRef cfg key secretName prev secretObj l r st = some st') :
    ∃ hostname, l.Hostname = some hostname := by
  cases hh : l.Hostname with
  | none => simp [AddTLSNode.certRef, hh] at hstep
  | some hostname => exact ⟨hostname, rfl⟩

/-- A completed step of `DeleteTLSNode` found a hostname on the listener. -/
theorem DeleteTLSNode.deleteStep_hostname (cfg : Config) (secretName : String)
    (prev : List AviTLSKeyCertNode) (l : Listener)
    (r : SecretObjectReference) (st st' : TLSWalk)
    (hstep : DeleteTLSNode.certRef cfg secretName prev l r st = some st') :
    ∃ hostname, l.Hostname = some hostname := by
  cases hh : l.Hostname with
  | none => simp [DeleteTLSNode.certRef, hh] at hstep
  | some hostname => exact ⟨hostname, rfl⟩

/-! ## Walks: splitting, growth of the node list -/

/-- A completed walk over `pre ++ p :: post` passes through a state after `pre`, a
completed step on `p`, and a completed walk over `post`. -/
theorem walkPairs_split
    (body : Listener → SecretObjectReference → TLSWalk → Option TLSWalk)
    (pre post : List (Listener × SecretObjectReference)) (p : Listener × SecretObjectReference)
    (st stF : TLSWalk) (h : walkPairs body (pre ++ p :: post) st = some stF) :
    ∃ st₁ st₂, walkPairs body pre st = some st₁ ∧ body p.1 p.2 st₁ = some st₂ ∧
      walkPairs body post st₂ = some stF := by
  rw [walkPairs_append] at h
  cases h₁ : walkPairs body pre st with
  | none => simp [h₁] at h
  | some st₁ =>
    simp only [h₁, Option.some_bind, walkPairs] at h
    cases h₂ : body p.1 p.2 st₁ with
    | none => simp [h₂] at h
    | some st₂ =>
      simp only [h₂] at h
      exact ⟨st₁, st₂, rfl, h₂, h⟩

/-- When every completed step only appends to the node list, so does a completed walk. -/
theorem walkPairs_tlsNodes_append
    (body : Listener → SecretObjectReference → TLSWalk → Option TLSWalk)
    (happ : ∀ l r st st', body l r st = some st' → ∃ t, st'.tlsNodes = st.tlsNodes ++ t)
    (ps : List (Listener × SecretObjectReference)) (st st' : TLSWalk)
    (h : walkPairs body ps st = some st') :
    ∃ tail, st'.tlsNodes = st.tlsNodes ++ tail := by
  induction ps generalizing st with
  | nil =>
    simp only [walkPairs, Option.some.injEq] at h
    exact ⟨[], by simp [h]⟩
  | cons p rest ih =>
    simp only [walkPairs] at h
    cases hb : body p.1 p.2 st with
    | none => simp [hb] at h
    | some st₂ =>
      simp only [hb] at h
      obtain ⟨t, ht⟩ := happ _ _ _ _ hb
      obtain ⟨tail, htail⟩ := ih st₂ h
      exact ⟨t ++ tail, by rw [htail, ht, List.append_assoc]⟩

/-- A completed step of `AddTLSNode` only appends to the node list. -/
theorem AddTLSNode.addStep_append (cfg : Config) (key secretName : String)
    (prev : List AviTLSKeyCertNode) (secretObj : Option Secret) (l : Listener)
    (r : SecretObjectReference) (st st' : TLSWalk)
    (hstep : AddTLSNode.certRef cfg key secretName prev secretObj l r st = some st') :
    ∃ t, st'.tlsNodes = st.tlsNodes ++ t := by
  obtain ⟨hostname, hh⟩ := AddTLSNode.addStep_hostname _ _ _ _ _ _ _ _ _ hstep
  cases hidx : st.encodedCertNameIndexMap (encodedKey cfg hostname r) with
  | none =>
    obtain ⟨h₁, h₂⟩ := AddTLSNode.addStep_not_indexed _ _ _ _ _ _ _ _ _ _ hh hidx hstep
    by_cases hname : r.Name = secretName
    · obtain ⟨secret, -, hst⟩ := h₁ hname
      exact ⟨_, by rw [hst]⟩
    · exact ⟨[], by rw [h₂ hname, List.append_nil]⟩
  | some indexlist =>
    obtain ⟨position, node, -, -, hst⟩ :=
      AddTLSNode.addStep_indexed _ _ _ _ _ _ _ _ _ _ _ hh hidx hstep
    exact ⟨_, by rw [hst]⟩

/-- A completed step of `DeleteTLSNode` only appends to the node list. -/
theorem DeleteTLSNode.deleteStep_append (cfg : Config) (secretName : String)
    (prev : List AviTLSKeyCertNode) (l : Listener)
    (r : SecretObjectReference) (st st' : TLSWalk)
    (hstep : DeleteTLSNode.certRef cfg secretName prev l r st = some st') :
    ∃ t, st'.tlsNodes = st.tlsNodes ++ t := by
  obtain ⟨hostname, hh⟩ := DeleteTLSNode.deleteStep_hostname _ _ _ _ _ _ _ hstep
  cases hidx : st.encodedCertNameIndexMap (encodedKey cfg hostname r) with
  | none =>
    have := DeleteTLSNode.deleteStep_not_indexed _ _ _ _ _ _ _ _ hh hidx hstep
    exact ⟨[], by rw [this, List.append_nil]⟩
  | some indexlist =>
    obtain ⟨-, h₁, h₂⟩ := DeleteTLSNode.deleteStep_indexed _ _ _ _ _ _ _ _ _ hh hidx hstep
    by_cases hname : r.Name = secretName
    · exact ⟨[], by rw [h₁ hname, List.append_nil]⟩
    · obtain ⟨position, node, -, -, hst⟩ := h₂ hname
      exact ⟨_, hst⟩

/-- An element read from a slice is an element of the slice. -/
theorem sliceAt_mem {α : Type} (xs : List α) (i : Int) (x : α) (h : sliceAt xs i = some x) :
    x ∈ xs := by
  unfold sliceAt at h
  split at h
  · simp at h
  · exact List.getElem?_mem h

/-! ## AddTLSNode and DeleteTLSNode through their walks -/

/-- A completed `AddTLSNode`: its walk over the gateway's certificate references
completes, and the call leaves the walk's node list and index map. -/
theorem AddTLSNode_walk (cfg : Config) (key : String) (object : AviObjectGraph)
    (gateway : Gateway) (secretObj : Option Secret) (index : GoMap (List Int))
    (h : (AddTLSNode cfg key object gateway secretObj index).isSome = true) :
    ∃ st out,
      AddTLSNode.walk cfg key object secretObj index (certRefWalk gateway.Spec.Listeners)
        = some st ∧
      AddTLSNode cfg key object gateway secretObj index = some out ∧
      out.2 = st.encodedCertNameIndexMap ∧ tlsListOf out.1 = some st.tlsNodes := by
  obtain ⟨vs0, vsRest, st, out, hvs, hw, hout, hidx, -, hlist⟩ :=
    AddTLSNode_isSome cfg key object gateway secretObj index h
  refine ⟨st, out, ?_, hout, hidx, hlist⟩
  simpa [AddTLSNode.walk, tlsListOf, hvs] using hw

/-- A completed `DeleteTLSNode`: its walk over the gateway's certificate references
completes, and the call leaves the walk's node list and index map. -/
theorem DeleteTLSNode_walk (cfg : Config) (key : String) (object : AviObjectGraph)
    (gateway : Gateway) (secretObj : Option Secret) (index : GoMap (List Int))
    (h : (DeleteTLSNode cfg key object gateway secretObj index).isSome = true) :
    ∃ st out,
      DeleteTLSNode.walk cfg key object index (certRefWalk gateway.Spec.Listeners) = some st ∧
      DeleteTLSNode cfg key object gateway secretObj index = some out ∧
      out.2 = st.encodedCertNameIndexMap ∧ tlsListOf out.1 = some st.tlsNodes := by
  obtain ⟨vs0, vsRest, st, out, hvs, hw, hout, hidx, -, hlist⟩ :=
    DeleteTLSNode_isSome cfg key object gateway secretObj index h
  refine ⟨st, out, ?_, hout, hidx, hlist⟩
  simpa [DeleteTLSNode.walk, tlsListOf, hvs] using hw

/-- C6: in a completed `AddTLSNode`, a certificate reference (of listener `l`, after the
references `pre` in declared order) whose encoded key is in the index at that point
contributes the existing node found at the first position recorded for the key: the new
TLS list is the list built before the reference, then that node, then the rest. -/
theorem AddTLSNode_keeps_node_of_indexed_ref (cfg : Config) (key : String)
    (object : AviObjectGraph) (gateway : Gateway) (secretObj : Option Secret)
    (index : GoMap (List Int)) (pre post : List (Listener × SecretObjectReference))
    (l : Listener) (r : SecretObjectReference) (hostname : String) (indexlist : List Int)
    (hsucc : (AddTLSNode cfg key object gateway secretObj index).isSome = true)
    (hwalk : certRefWalk gateway.Spec.Listeners = pre ++ (l, r) :: post)
    (hh : l.Hostname = some hostname)
    (hidx : (AddTLSNode.walk cfg key object secretObj index pre).bind
      (fun st => st.encodedCertNameIndexMap (encodedKey cfg hostname r)) = some indexlist) :
    ∃ st₁ position node tail,
      AddTLSNode.walk cfg key object secretObj index pre = some st₁ ∧
      indexlist.head? = some position ∧
      sliceAt ((tlsListOf object).getD []) position = some node ∧
      (AddTLSNode cfg key object gateway secretObj index).bind (fun out => tlsListOf out.1) =
        some (st₁.tlsNodes ++ node :: tail) := by
  obtain ⟨stF, out, hw, hout, -, hlist⟩ :=
    AddTLSNode_walk cfg key object gateway secretObj index hsucc
  rw [hwalk] at hw
  obtain ⟨st₁, st₂, h₁, h₂, h₃⟩ := walkPairs_split _ _ _ _ _ _ hw
  have h₁' : AddTLSNode.walk cfg key object secretObj index pre = some st₁ := h₁
  rw [h₁'] at hidx
  simp only [Option.some_bind] at hidx
  obtain ⟨position, node, hp, hn, hst₂⟩ :=
    AddTLSNode.addStep_indexed _ _ _ _ _ _ _ _ _ _ _ hh hidx h₂
  obtain ⟨tail, htail⟩ :=
    walkPairs_tlsNodes_append _ (AddTLSNode.addStep_append _ _ _ _ _) _ _ _ h₃
  refine ⟨st₁, position, node, tail, h₁', hp, hn, ?_⟩
  rw [hout, Option.some_bind, hlist, htail, hst₂]
  simp

/-- A witness of `AddTLSNode_keeps_node_of_indexed_ref`: when the secret `missing` appears,
the pass over `exampleGatewayTLS` builds `[missing, a.com/c, b.com/d]`, the reference `c`
of listener `a.com` contributing the node at position 0. -/
theorem AddTLSNode_keeps_node_of_indexed_ref_witness :
    (AddTLSNode exampleConfig "missing" exampleGraph exampleGatewayTLS
        (some exampleMissingSecret) exampleIndex).bind (fun out => tlsListOf out.1) =
      some [exampleNodeAMissing, exampleNodeAC, exampleNodeBD] ∧
    ∃ st₁ position node tail,
      AddTLSNode.walk exampleConfig "missing" exampleGraph (some exampleMissingSecret)
        exampleIndex [(exampleListenerA, { Name := "missing" })] = some st₁ ∧
      ([0] : List Int).head? = some position ∧
      sliceAt ((tlsListOf exampleGraph).getD []) position = some node ∧
      (AddTLSNode exampleConfig "missing" exampleGraph exampleGatewayTLS
        (some exampleMissingSecret) exampleIndex).bind (fun out => tlsListOf out.1) =
        some (st₁.tlsNodes ++ node :: tail) :=
  ⟨by decide,
    AddTLSNode_keeps_node_of_indexed_ref exampleConfig "missing" exampleGraph
      exampleGatewayTLS (some exampleMissingSecret) exampleIndex
      [(exampleListenerA, { Name := "missing" })]
      [(exampleListenerB, { Name := "c", Namespace := some "other" }),
       (exampleListenerB, { Name := "d", Namespace := some "" })]
      exampleListenerA { Name := "c" } "a.com" [0]
      (by decide) (by decide) (by decide) (by decide)⟩

/-- C7: in a completed `AddTLSNode` with the secret `secret` supplied, a certificate
reference whose encoded key is not in the index at that point contributes a node built
from the secret (named by the encoding of listener hostname and certificate name, key and
certificate taken from the secret's data) when its certificate name is the changed
secret's name, and leaves the state of the walk as it is otherwise. -/
theorem AddTLSNode_unindexed_ref (cfg : Config) (key : String)
    (object : AviObjectGraph) (gateway : Gateway) (secret : Secret)
    (index : GoMap (List Int)) (pre post : List (Listener × SecretObjectReference))
    (l : Listener) (r : SecretObjectReference) (hostname : String)
    (hsucc : (AddTLSNode cfg key object gateway (some secret) index).isSome = true)
    (hwalk : certRefWalk gateway.Spec.Listeners = pre ++ (l, r) :: post)
    (hh : l.Hostname = some hostname)
    (hidx : (AddTLSNode.walk cfg key object (some secret) index pre).map
      (fun st => st.encodedCertNameIndexMap (encodedKey cfg hostname r)) = some none) :
    ∃ st₁,
      AddTLSNode.walk cfg key object (some secret) index pre = some st₁ ∧
      (r.Name = secretNameOf cfg key →
        AddTLSNode.walk cfg key object (some secret) index (pre ++ [(l, r)]) =
          some { st₁ with
            tlsNodes := st₁.tlsNodes ++ [TLSNodeFromSecret cfg secret hostname r.Name key] } ∧
        ∃ tail,
          (AddTLSNode cfg key object gateway (some secret) index).bind
              (fun out => tlsListOf out.1) =
            some (st₁.tlsNodes ++ TLSNodeFromSecret cfg secret hostname r.Name key :: tail)) ∧
      (r.Name ≠ secretNameOf cfg key →
        AddTLSNode.walk cfg key object (some secret) index (pre ++ [(l, r)]) = some st₁) ∧
      (TLSNodeFromSecret cfg secret hostname r.Name key).Name =
        cfg.GetTLSKeyCertNodeName "" hostname r.Name ∧
      (TLSNodeFromSecret cfg secret hostname r.Name key).Key =
        (secret.Data cfg.K8S_TLS_SECRET_KEY).getD [] ∧
      (TLSNodeFromSecret cfg secret hostname r.Name key).Cert =
        (secret.Data cfg.K8S_TLS_SECRET_CERT).getD [] := by
  obtain ⟨stF, out, hw, hout, -, hlist⟩ :=
    AddTLSNode_walk cfg key object gateway (some secret) index hsucc
  rw [hwalk] at hw
  obtain ⟨st₁, st₂, h₁, h₂, h₃⟩ := walkPairs_split _ _ _ _ _ _ hw
  have h₁' : AddTLSNode.walk cfg key object (some secret) index pre = some st₁ := h₁
  rw [h₁'] at hidx
  simp only [Option.map_some', Option.some.injEq] at hidx
  obtain ⟨hfresh, hskip⟩ := AddTLSNode.addStep_not_indexed _ _ _ _ _ _ _ _ _ _ hh hidx h₂
  have hstep : AddTLSNode.walk cfg key object (some secret) index (pre ++ [(l, r)]) =
      some st₂ := by
    unfold AddTLSNode.walk at h₁' ⊢
    rw [walkPairs_append, h₁']
    simp only [Option.some_bind, walkPairs]
    rw [h₂]
  refine ⟨st₁, h₁', ?_, ?_, rfl, rfl, rfl⟩
  · intro hname
    obtain ⟨secret', hs, hst₂⟩ := hfresh hname
    simp only [Option.some.injEq] at hs
    subst hs
    obtain ⟨tail, htail⟩ :=
      walkPairs_tlsNodes_append _ (AddTLSNode.addStep_append _ _ _ _ _) _ _ _ h₃
    refine ⟨by rw [hstep, hst₂], tail, ?_⟩
    rw [hout, Option.some_bind, hlist, htail, hst₂]
    simp
  · intro hname
    rw [hstep, hskip hname]

/-- A witness of `AddTLSNode_unindexed_ref`: when the secret `missing` appears, the
reference `missing` of listener `a.com` (not in the index) contributes the node built from
the secret. -/
theorem AddTLSNode_unindexed_ref_witness :
    (AddTLSNode.walk exampleConfig "missing" exampleGraph (some exampleMissingSecret)
        exampleIndex [(exampleListenerA, { Name := "missing" })]).map (fun st => st.tlsNodes) =
      some [exampleNodeAMissing] := by
  obtain ⟨st₁, h₁, hfresh, -, -⟩ :=
    AddTLSNode_unindexed_ref exampleConfig "missing" exampleGraph exampleGatewayTLS
      exampleMissingSecret exampleIndex []
      [(exampleListenerA, { Name := "c" }),
       (exampleListenerB, { Name := "c", Namespace := some "other" }),
       (exampleListenerB, { Name := "d", Namespace := some "" })]
      exampleListenerA { Name := "missing" } "a.com"
      (by decide) (by decide) (by decide) (by decide)
  simp only [AddTLSNode.walk, walkPairs, Option.some.injEq] at h₁
  have h := (hfresh (by decide)).1
  simp only [List.nil_append] at h
  rw [h, ← h₁]
  decide

/-- In a completed walk of `DeleteTLSNode` every node of the list was in the list at the
start or is a node of the previous TLS list. -/
theorem DeleteTLSNode.deleteWalk_mem (cfg : Config) (secretName : String)
    (prev : List AviTLSKeyCertNode) (ps : List (Listener × SecretObjectReference))
    (st st' : TLSWalk)
    (h : walkPairs (DeleteTLSNode.certRef cfg secretName prev) ps st = some st') :
    ∀ n ∈ st'.tlsNodes, n ∈ st.tlsNodes ∨ n ∈ prev := by
  induction ps generalizing st with
  | nil =>
    simp only [walkPairs, Option.some.injEq] at h
    subst h
    exact fun n hn => Or.inl hn
  | cons p rest ih =>
    simp only [walkPairs] at h
    cases hb : DeleteTLSNode.certRef cfg secretName prev p.1 p.2 st with
    | none => simp [hb] at h
    | some st₂ =>
      simp only [hb] at h
      intro n hn
      rcases ih st₂ h n hn with hmem | hmem
      · obtain ⟨hostname, hh⟩ := DeleteTLSNode.deleteStep_hostname _ _ _ _ _ _ _ hb
        cases hidx : st.encodedCertNameIndexMap (encodedKey cfg hostname p.2) with
        | none =>
          rw [DeleteTLSNode.deleteStep_not_indexed _ _ _ _ _ _ _ _ hh hidx hb] at hmem
          exact Or.inl hmem
        | some indexlist =>
          obtain ⟨-, hsame, hkeep⟩ :=
            DeleteTLSNode.deleteStep_indexed _ _ _ _ _ _ _ _ _ hh hidx hb
          by_cases hname : p.2.Name = secretName
          · rw [hsame hname] at hmem
            exact Or.inl hmem
          · obtain ⟨position, node, -, hnode, hst₂⟩ := hkeep hname
            rw [hst₂, List.mem_append, List.mem_singleton] at hmem
            rcases hmem with hmem | hmem
            · exact Or.inl hmem
            · exact Or.inr (hmem ▸ sliceAt_mem _ _ _ hnode)
      · exact Or.inr hmem

/-- C8: in a completed `DeleteTLSNode`, a certificate reference whose certificate name is
the deleted secret's name contributes no node; any other reference whose encoded key is
in the index at that point contributes the existing node at the first position recorded
for the key; and every node of the new TLS list was already in the previous list. -/
theorem DeleteTLSNode_drops_deleted_keeps_indexed (cfg : Config) (key : String)
    (object : AviObjectGraph) (gateway : Gateway) (secretObj : Option Secret)
    (index : GoMap (List Int))
    (hsucc : (DeleteTLSNode cfg key object gateway secretObj index).isSome = true) :
    (∀ pre post l r hostname,
      certRefWalk gateway.Spec.Listeners = pre ++ (l, r) :: post →
      l.Hostname = some hostname →
      ∃ st₁ st₂ tail,
        DeleteTLSNode.walk cfg key object index pre = some st₁ ∧
        DeleteTLSNode.walk cfg key object index (pre ++ [(l, r)]) = some st₂ ∧
        (DeleteTLSNode cfg key object gateway secretObj index).bind
          (fun out => tlsListOf out.1) = some (st₂.tlsNodes ++ tail) ∧
        (r.Name = secretNameOf cfg key → st₂.tlsNodes = st₁.tlsNodes) ∧
        (r.Name ≠ secretNameOf cfg key →
          ∀ indexlist,
            st₁.encodedCertNameIndexMap (encodedKey cfg hostname r) = some indexlist →
            ∃ position node, indexlist.head? = some position ∧
              sliceAt ((tlsListOf object).getD []) position = some node ∧
              st₂.tlsNodes = st₁.tlsNodes ++ [node])) ∧
    ∃ newList,
      (DeleteTLSNode cfg key object gateway secretObj index).bind
        (fun out => tlsListOf out.1) = some newList ∧
      ∀ n ∈ newList, n ∈ (tlsListOf object).getD [] := by
  obtain ⟨stF, out, hw, hout, -, hlist⟩ :=
    DeleteTLSNode_walk cfg key object gateway secretObj index hsucc
  constructor
  · intro pre post l r hostname hwalk hh
    rw [hwalk] at hw
    obtain ⟨st₁, st₂, h₁, h₂, h₃⟩ := walkPairs_split _ _ _ _ _ _ hw
    have h₁' : DeleteTLSNode.walk cfg key object index pre = some st₁ := h₁
    have hstep : DeleteTLSNode.walk cfg key object index (pre ++ [(l, r)]) = some st₂ := by
      unfold DeleteTLSNode.walk at h₁' ⊢
      rw [walkPairs_append, h₁']
      simp only [Option.some_bind, walkPairs]
      rw [h₂]
    obtain ⟨tail, htail⟩ :=
      walkPairs_tlsNodes_append _ (DeleteTLSNode.deleteStep_append _ _ _) _ _ _ h₃
    refine ⟨st₁, st₂, tail, h₁', hstep, ?_, ?_, ?_⟩
    · rw [hout, Option.some_bind, hlist, htail]
    · intro hname
      cases hidx : st₁.encodedCertNameIndexMap (encodedKey cfg hostname r) with
      | none => rw [DeleteTLSNode.deleteStep_not_indexed _ _ _ _ _ _ _ _ hh hidx h₂]
      | some indexlist =>
        exact (DeleteTLSNode.deleteStep_indexed _ _ _ _ _ _ _ _ _ hh hidx h₂).2.1 hname
    · intro hname indexlist hidx
      exact (DeleteTLSNode.deleteStep_indexed _ _ _ _ _ _ _ _ _ hh hidx h₂).2.2 hname
  · refine ⟨stF.tlsNodes, by rw [hout, Option.some_bind, hlist], ?_⟩
    intro n hn
    rcases DeleteTLSNode.deleteWalk_mem _ _ _ _ _ _ hw n hn with hmem | hmem
    · simp at hmem
    · exact hmem

/-- A witness of `DeleteTLSNode_drops_deleted_keeps_indexed`: deleting the secret `c` from
under `exampleGatewayTLS` leaves the single node `b.com/d`, which is a node of the
previous list. -/
theorem DeleteTLSNode_drops_deleted_keeps_indexed_witness :
    (DeleteTLSNode exampleConfig "c" exampleGraph exampleGatewayTLS none exampleIndex).bind
        (fun out => tlsListOf out.1) = some [exampleNodeBD] ∧
    ∃ newList,
      (DeleteTLSNode exampleConfig "c" exampleGraph exampleGatewayTLS none exampleIndex).bind
        (fun out => tlsListOf out.1) = some newList ∧
      ∀ n ∈ newList, n ∈ (tlsListOf exampleGraph).getD [] :=
  ⟨by decide,
    (DeleteTLSNode_drops_deleted_keeps_indexed exampleConfig "c" exampleGraph
      exampleGatewayTLS none exampleIndex (by decide)).2⟩

/-! ## The index along a walk -/

/-- The update of the index on a hit is one consumption on the key. -/
theorem popIndex_eq_popAt (index : GoMap (List Int)) (k : String) (indexlist : List Int)
    (h : index k = some indexlist) : popIndex index k indexlist = popAt index k := by
  funext k'
  unfold popIndex popAt popEntry GoMap.set GoMap.delete
  by_cases hk : k' = k
  · subst hk
    by_cases hl : indexlist.length > 1 <;> simp [h, hl]
  · by_cases hl : indexlist.length > 1 <;> simp [hk, hl]

/-- A consumption on a key that is not in the index changes nothing. -/
theorem popAt_of_none (index : GoMap (List Int)) (k : String) (h : index k = none) :
    popAt index k = index := by
  funext k'
  unfold popAt popEntry
  by_cases hk : k' = k
  · subst hk
    simp [h]
  · simp [hk]

/-- A completed step of `AddTLSNode` is one consumption on the key of the reference. -/
theorem AddTLSNode.addStep_index (cfg : Config) (key secretName : String)
    (prev : List AviTLSKeyCertNode) (secretObj : Option Secret) (l : Listener)
    (r : SecretObjectReference) (st st' : TLSWalk)
    (hstep : AddTLSNode.certRef cfg key secretName prev secretObj l r st = some st') :
    st'.encodedCertNameIndexMap =
      popAt st.encodedCertNameIndexMap (encodedKey cfg (l.Hostname.getD "") r) := by
  obtain ⟨hostname, hh⟩ := AddTLSNode.addStep_hostname _ _ _ _ _ _ _ _ _ hstep
  rw [hh, Option.getD_some]
  cases hidx : st.encodedCertNameIndexMap (encodedKey cfg hostname r) with
  | none =>
    rw [popAt_of_none _ _ hidx]
    obtain ⟨h₁, h₂⟩ := AddTLSNode.addStep_not_indexed _ _ _ _ _ _ _ _ _ _ hh hidx hstep
    by_cases hname : r.Name = secretName
    · obtain ⟨secret, -, hst⟩ := h₁ hname
      rw [hst]
    · rw [h₂ hname]
  | some indexlist =>
    obtain ⟨position, node, -, -, hst⟩ :=
      AddTLSNode.addStep_indexed _ _ _ _ _ _ _ _ _ _ _ hh hidx hstep
    rw [hst, popIndex_eq_popAt _ _ _ hidx]

/-- A completed step of `DeleteTLSNode` is one consumption on the key of the reference. -/
theorem DeleteTLSNode.deleteStep_index (cfg : Config) (secretName : String)
    (prev : List AviTLSKeyCertNode) (l : Listener)
    (r : SecretObjectReference) (st st' : TLSWalk)
    (hstep : DeleteTLSNode.certRef cfg secretName prev l r st = some st') :
    st'.encodedCertNameIndexMap =
      popAt st.encodedCertNameIndexMap (encodedKey cfg (l.Hostname.getD "") r) := by
  obtain ⟨hostname, hh⟩ := DeleteTLSNode.deleteStep_hostname _ _ _ _ _ _ _ hstep
  rw [hh, Option.getD_some]
  cases hidx : st.encodedCertNameIndexMap (encodedKey cfg hostname r) with
  | none =>
    rw [popAt_of_none _ _ hidx, DeleteTLSNode.deleteStep_not_indexed _ _ _ _ _ _ _ _ hh hidx hstep]
  | some indexlist =>
    rw [(DeleteTLSNode.deleteStep_indexed _ _ _ _ _ _ _ _ _ hh hidx hstep).1,
      popIndex_eq_popAt _ _ _ hidx]

/-- The index after a completed walk, when every completed step is one consumption on the
key of its reference: each entry has undergone as many consumptions as there are
references with its key. -/
theorem walkPairs_index (cfg : Config)
    (body : Listener → SecretObjectReference → TLSWalk → Option TLSWalk)
    (hbody : ∀ l r st st', body l r st = some st' →
      st'.encodedCertNameIndexMap =
        popAt st.encodedCertNameIndexMap (encodedKey cfg (l.Hostname.getD "") r))
    (ps : List (Listener × SecretObjectReference)) (st st' : TLSWalk)
    (h : walkPairs body ps st = some st') (k : String) :
    st'.encodedCertNameIndexMap k =
      popEntry^[(walkKeys cfg ps).count k] (st.encodedCertNameIndexMap k) := by
  induction ps generalizing st with
  | nil =>
    simp only [walkPairs, Option.some.injEq] at h
    subst h
    simp [walkKeys]
  | cons p rest ih =>
    simp only [walkPairs] at h
    cases hb : body p.1 p.2 st with
    | none => simp [hb] at h
    | some st₂ =>
      simp only [hb] at h
      rw [ih st₂ h, hbody _ _ _ _ hb]
      simp only [walkKeys, List.map_cons, List.count_cons, popAt] at *
      by_cases hk : k = encodedKey cfg (p.1.Hostname.getD "") p.2
      · subst hk
        simp [Function.iterate_succ_apply]
      · have hk' : ¬ encodedKey cfg (p.1.Hostname.getD "") p.2 = k := fun e => hk e.symm
        simp [hk, hk']

/-- One consumption shortens the position list of an entry by one. -/
theorem popEntry_length (entry : Option (List Int)) :
    ((popEntry entry).getD []).length = (entry.getD []).length - 1 := by
  cases entry with
  | none => rfl
  | some positions =>
    unfold popEntry
    by_cases hl : positions.length > 1
    · simp [hl]
    · simp only [Option.some_bind, hl, if_false, Option.getD_none, List.length_nil,
        Option.getD_some]
      omega

/-- Consumptions shorten the position list of an entry by their number. -/
theorem popEntry_iterate_length (entry : Option (List Int)) (m : Nat) :
    ((popEntry^[m] entry).getD []).length = (entry.getD []).length - m := by
  induction m with
  | zero => simp
  | succ m ih =>
    rw [Function.iterate_succ_apply', popEntry_length, ih]
    omega

/-- A consumption never leaves a key with an empty position list. -/
theorem popEntry_ne_some_nil (entry : Option (List Int)) : popEntry entry ≠ some [] := by
  cases entry with
  | none => simp [popEntry]
  | some positions =>
    unfold popEntry
    by_cases hl : positions.length > 1
    · simp only [Option.some_bind, hl, if_true, ne_eq, Option.some.injEq]
      intro h
      have := congrArg List.length h
      simp at this
      omega
    · simp [hl]

/-- After at least one consumption a key is absent exactly when no more positions were
recorded for it than consumptions took place. -/
theorem popEntry_iterate_eq_none (entry : Option (List Int)) (m : Nat) (hm : 0 < m) :
    popEntry^[m] entry = none ↔ (entry.getD []).length ≤ m := by
  have hlen := popEntry_iterate_length entry m
  obtain ⟨m', rfl⟩ : ∃ m', m = m' + 1 := ⟨m - 1, by omega⟩
  rw [Function.iterate_succ_apply'] at hlen ⊢
  cases hres : popEntry (popEntry^[m'] entry) with
  | none =>
    rw [hres] at hlen
    simp only [Option.getD_none, List.length_nil] at hlen
    simp only [true_iff]
    omega
  | some positions =>
    rw [hres] at hlen
    simp only [Option.getD_some] at hlen
    have hne : positions ≠ [] := fun e => popEntry_ne_some_nil _ (e ▸ hres)
    have hpos : 0 < positions.length := List.length_pos.mpr hne
    simp only [false_iff, not_le, reduceCtorEq]
    omega

/-- The index after a completed walk, entry by entry, in terms of the number `m` of
references of the walk with the key. -/
theorem popEntry_iterate_facts (entry : Option (List Int)) (m : Nat) :
    ((popEntry^[m] entry).getD []).length = (entry.getD []).length - m ∧
    (m = 0 → popEntry^[m] entry = entry) ∧
    (0 < m → (popEntry^[m] entry = none ↔ (entry.getD []).length ≤ m)) :=
  ⟨popEntry_iterate_length entry m, fun h => by subst h; rfl,
    popEntry_iterate_eq_none entry m⟩

/-- C10 (as amended): a completed incremental pass (`AddTLSNode` or `DeleteTLSNode`)
consumes one recorded position per certificate reference: for every encoded key, with `m`
the number of the gateway's references sharing the key, the length of its position list
on exit is its length on entry minus `m`; a key shared by no reference keeps its entry;
and a key shared by at least one reference is absent on exit exactly when at most `m`
positions were recorded for it. -/
theorem incremental_pass_index_lengths (cfg : Config) (key : String)
    (object : AviObjectGraph) (gateway : Gateway) (secretObj : Option Secret)
    (index : GoMap (List Int)) :
    ((AddTLSNode cfg key object gateway secretObj index).isSome = true →
      ∃ out, AddTLSNode cfg key object gateway secretObj index = some out ∧
        ∀ k : String,
          ((out.2 k).getD []).length = ((index k).getD []).length -
            (walkKeys cfg (certRefWalk gateway.Spec.Listeners)).count k ∧
          ((walkKeys cfg (certRefWalk gateway.Spec.Listeners)).count k = 0 →
            out.2 k = index k) ∧
          (0 < (walkKeys cfg (certRefWalk gateway.Spec.Listeners)).count k →
            (out.2 k = none ↔ ((index k).getD []).length ≤
              (walkKeys cfg (certRefWalk gateway.Spec.Listeners)).count k))) ∧
    ((DeleteTLSNode cfg key object gateway secretObj index).isSome = true →
      ∃ out, DeleteTLSNode cfg key object gateway secretObj index = some out ∧
        ∀ k : String,
          ((out.2 k).getD []).length = ((index k).getD []).length -
            (walkKeys cfg (certRefWalk gateway.Spec.Listeners)).count k ∧
          ((walkKeys cfg (certRefWalk gateway.Spec.Listeners)).count k = 0 →
            out.2 k = index k) ∧
          (0 < (walkKeys cfg (certRefWalk gateway.Spec.Listeners)).count k →
            (out.2 k = none ↔ ((index k).getD []).length ≤
              (walkKeys cfg (certRefWalk gateway.Spec.Listeners)).count k))) := by
  constructor
  · intro hsucc
    obtain ⟨st, out, hw, hout, hidx, -⟩ :=
      AddTLSNode_walk cfg key object gateway secretObj index hsucc
    refine ⟨out, hout, fun k => ?_⟩
    have hk := walkPairs_index cfg _ (AddTLSNode.addStep_index cfg key _ _ secretObj) _ _ _ hw k
    rw [hidx, hk]
    exact popEntry_iterate_facts _ _
  · intro hsucc
    obtain ⟨st, out, hw, hout, hidx, -⟩ :=
      DeleteTLSNode_walk cfg key object gateway secretObj index hsucc
    refine ⟨out, hout, fun k => ?_⟩
    have hk := walkPairs_index cfg _ (DeleteTLSNode.deleteStep_index cfg _ _) _ _ _ hw k
    rw [hidx, hk]
    exact popEntry_iterate_facts _ _

/-- A witness of `incremental_pass_index_lengths`: deleting the secret `c` from under
`exampleGatewayTLS` leaves an index in which `a.com/c` and `b.com/d` (one reference, one
position each) are absent and `old.com/x` (no reference) keeps its position. -/
theorem incremental_pass_index_lengths_witness :
    ∃ out, DeleteTLSNode exampleConfig "c" exampleGraphStale exampleGatewayTLS none
        exampleIndexStale = some out ∧
      out.2 "a.com/c" = none ∧ out.2 "b.com/d" = none ∧ out.2 "old.com/x" = some [2] := by
  obtain ⟨out, hout, h⟩ :=
    (incremental_pass_index_lengths exampleConfig "c" exampleGraphStale exampleGatewayTLS
      none exampleIndexStale).2 (by decide)
  refine ⟨out, hout, ?_, ?_, ?_⟩
  · exact ((h "a.com/c").2.2 (by decide)).mpr (by decide)
  · exact ((h "b.com/d").2.2 (by decide)).mpr (by decide)
  · rw [(h "old.com/x").2.1 (by decide)]
    decide

/-- C10 (counterexample): after `DeleteTLSNode` for the secret `c` on `exampleGatewayTLS`,
the key `b.com/d` is absent from the index although one surviving reference has it, and
the key `old.com/x` is still in the index although no reference has it; after
`AddTLSNode` for the secret `missing` the same holds. -/
theorem index_after_pass_is_not_reference_count :
    ((certRefWalk exampleGatewayTLS.Spec.Listeners).filter fun p =>
        p.2.Name ≠ "c" ∧ encodedKey exampleConfig (p.1.Hostname.getD "") p.2 = "b.com/d").length
      = 1 ∧
    ((certRefWalk exampleGatewayTLS.Spec.Listeners).filter fun p =>
        encodedKey exampleConfig (p.1.Hostname.getD "") p.2 = "old.com/x").length = 0 ∧
    (DeleteTLSNode exampleConfig "c" exampleGraphStale exampleGatewayTLS none
        exampleIndexStale).map (fun out => (out.2 "b.com/d", out.2 "old.com/x")) =
      some (none, some [2]) ∧
    (AddTLSNode exampleConfig "missing" exampleGraphStale exampleGatewayTLS
        (some exampleMissingSecret) exampleIndexStale).map
        (fun out => (out.2 "b.com/d", out.2 "old.com/x")) =
      some (none, some [2]) := by
  decide

/-! ## The positions taken along a walk -/

/-- Reading the `c`-th position after one consumption is reading the `c+1`-st before it. -/
theorem popEntry_bind_getElem? (entry : Option (List Int)) (c : Nat) :
    ((popEntry entry).bind fun positions => positions[c]?) =
      entry.bind fun positions => positions[c + 1]? := by
  cases entry with
  | none => rfl
  | some positions =>
    unfold popEntry
    by_cases hl : positions.length > 1
    · simp [hl, List.getElem?_drop, Nat.add_comm]
    · simp only [Option.some_bind, hl, if_false, Option.none_bind]
      exact (List.getElem?_eq_none (by omega)).symm

/-- The position taken by a later reference, seen from the index after the first step. -/
theorem takenPosition_succ (index : GoMap (List Int)) (k : String) (ks : List String)
    (j : Nat) :
    takenPosition index (k :: ks) (j + 1) = takenPosition (popAt index k) ks j := by
  unfold takenPosition
  simp only [List.getElem?_cons_succ, List.take_succ_cons]
  cases hk : ks[j]? with
  | none => rfl
  | some k' =>
    simp only [List.count_cons, popAt]
    by_cases he : k' = k
    · subst he
      simp [popEntry_bind_getElem?]
    · have he' : ¬ k = k' := fun e => he e.symm
      simp [he, he']

/-- The positions taken along a walk, step by step: the first reference takes the first
position recorded for its key, the others take theirs from the index after that step. -/
theorem takenPositions_cons (index : GoMap (List Int)) (k : String) (ks : List String) :
    takenPositions index (k :: ks) =
      (index k).bind List.head? :: takenPositions (popAt index k) ks := by
  unfold takenPositions
  rw [List.length_cons, List.range_succ_eq_map, List.map_cons, List.map_map]
  congr 1
  · simp [takenPosition, List.head?_eq_getElem?]
  · apply List.map_congr_left
    intro j _
    exact takenPosition_succ index k ks j

/-- The nodes read from a slice at increasing positions form a sublist of the slice. -/
theorem filterMap_sliceAt_sublist {α : Type} (xs : List α) (ps : List Int)
    (h : ps.Pairwise (· < ·)) : (ps.filterMap (sliceAt xs)).Sublist xs := by
  let f : Int → Option (Fin xs.length) := fun i =>
    if h : 0 ≤ i ∧ i.toNat < xs.length then some ⟨i.toNat, h.2⟩ else none
  have hf : ∀ i, sliceAt xs i = (f i).map (fun n => xs[n]) := by
    intro i
    simp only [sliceAt, f]
    by_cases h0 : i < 0
    · have : ¬ (0 ≤ i ∧ i.toNat < xs.length) := fun hh => by omega
      simp [h0, this]
    · by_cases h1 : i.toNat < xs.length
      · have : 0 ≤ i ∧ i.toNat < xs.length := ⟨by omega, h1⟩
        simp [h0, this, List.getElem?_eq_getElem h1]
      · have : ¬ (0 ≤ i ∧ i.toNat < xs.length) := fun hh => h1 hh.2
        simp [h0, this, List.getElem?_eq_none (Nat.le_of_not_lt h1)]
  have hmap : ps.filterMap (sliceAt xs) = (ps.filterMap f).map (fun n => xs[n]) := by
    rw [List.map_filterMap]
    exact List.filterMap_congr (fun i _ => hf i)
  rw [hmap]
  apply List.map_getElem_sublist
  refine List.Pairwise.filterMap f ?_ h
  intro a a' haa' b hb b' hb'
  simp only [f, Option.mem_def] at hb hb'
  split at hb
  · split at hb'
    · simp only [Option.some.injEq] at hb hb'
      subst hb hb'
      rename_i h₁ h₂
      show a.toNat < a'.toNat
      omega
    · simp at hb'
  · simp at hb

/-- The positions kept by `DeleteTLSNode`, step by step. -/
theorem keptPositions_cons (cfg : Config) (secretName : String) (index : GoMap (List Int))
    (p : Listener × SecretObjectReference) (rest : List (Listener × SecretObjectReference)) :
    keptPositions cfg secretName index (p :: rest) =
      (if p.2.Name ≠ secretName then
          (index (encodedKey cfg (p.1.Hostname.getD "") p.2)).bind List.head?
        else none).toList ++
        keptPositions cfg secretName
          (popAt index (encodedKey cfg (p.1.Hostname.getD "") p.2)) rest := by
  unfold keptPositions
  simp only [walkKeys, List.map_cons, takenPositions_cons, List.zip_cons_cons,
    List.filterMap_cons]
  cases hpos : (if p.2.Name ≠ secretName then
      (index (encodedKey cfg (p.1.Hostname.getD "") p.2)).bind List.head? else none) with
  | none => simp
  | some i => simp

/-- The node list of a completed walk of `DeleteTLSNode`: the nodes at the kept positions
are appended, in walk order, and each kept position is a position of the previous list. -/
theorem DeleteTLSNode.deleteWalk_tlsNodes (cfg : Config) (secretName : String)
    (prev : List AviTLSKeyCertNode) (ps : List (Listener × SecretObjectReference))
    (st st' : TLSWalk)
    (h : walkPairs (DeleteTLSNode.certRef cfg secretName prev) ps st = some st') :
    st'.tlsNodes = st.tlsNodes ++
      (keptPositions cfg secretName st.encodedCertNameIndexMap ps).filterMap (sliceAt prev) ∧
    ∀ i ∈ keptPositions cfg secretName st.encodedCertNameIndexMap ps,
      (sliceAt prev i).isSome = true := by
  induction ps generalizing st with
  | nil =>
    simp only [walkPairs, Option.some.injEq] at h
    subst h
    simp [keptPositions]
  | cons p rest ih =>
    simp only [walkPairs] at h
    cases hb : DeleteTLSNode.certRef cfg secretName prev p.1 p.2 st with
    | none => simp [hb] at h
    | some st₂ =>
      simp only [hb] at h
      obtain ⟨ih₁, ih₂⟩ := ih st₂ h
      have hindex := DeleteTLSNode.deleteStep_index _ _ _ _ _ _ _ hb
      obtain ⟨hostname, hh⟩ := DeleteTLSNode.deleteStep_hostname _ _ _ _ _ _ _ hb
      have hkey : encodedKey cfg (p.1.Hostname.getD "") p.2 = encodedKey cfg hostname p.2 := by
        rw [hh, Option.getD_some]
      rw [hindex, hkey] at ih₁ ih₂
      rw [keptPositions_cons, ih₁, hkey]
      cases hidx : st.encodedCertNameIndexMap (encodedKey cfg hostname p.2) with
      | none =>
        have hst₂ := DeleteTLSNode.deleteStep_not_indexed _ _ _ _ _ _ _ _ hh hidx hb
        have hnone : (if p.2.Name ≠ secretName then (none : Option (List Int)).bind List.head?
            else none) = none := by split <;> rfl
        rw [hst₂, hnone]
        exact ⟨by simp, by simpa using ih₂⟩
      | some indexlist =>
        obtain ⟨-, hsame, hkeep⟩ :=
          DeleteTLSNode.deleteStep_indexed _ _ _ _ _ _ _ _ _ hh hidx hb
        by_cases hname : p.2.Name = secretName
        · rw [hsame hname]
          simp only [ne_eq, hname, not_true_eq_false, if_false, Option.toList_none,
            List.nil_append]
          exact ⟨trivial, ih₂⟩
        · obtain ⟨position, node, hp, hnode, hst₂⟩ := hkeep hname
          rw [hst₂]
          simp only [ne_eq, hname, not_false_eq_true, if_true, Option.some_bind, hp,
            Option.toList_some, List.singleton_append, List.filterMap_cons, hnode,
            List.append_assoc, true_and, List.mem_cons, forall_eq_or_imp, Option.isSome_some]
          exact ih₂

/-- The node list of a completed walk of `AddTLSNode`: the nodes at the taken positions
appear among the appended nodes in walk order, and each taken position is a position of
the previous list. -/
theorem AddTLSNode.addWalk_tlsNodes (cfg : Config) (key secretName : String)
    (prev : List AviTLSKeyCertNode) (secretObj : Option Secret)
    (ps : List (Listener × SecretObjectReference)) (st st' : TLSWalk)
    (h : walkPairs (AddTLSNode.certRef cfg key secretName prev secretObj) ps st = some st') :
    ∃ t, st'.tlsNodes = st.tlsNodes ++ t ∧
      (((takenPositions st.encodedCertNameIndexMap (walkKeys cfg ps)).reduceOption).filterMap
        (sliceAt prev)).Sublist t ∧
      ∀ i ∈ (takenPositions st.encodedCertNameIndexMap (walkKeys cfg ps)).reduceOption,
        (sliceAt prev i).isSome = true := by
  induction ps generalizing st with
  | nil =>
    simp only [walkPairs, Option.some.injEq] at h
    subst h
    exact ⟨[], by simp [walkKeys, takenPositions]⟩
  | cons p rest ih =>
    simp only [walkPairs] at h
    cases hb : AddTLSNode.certRef cfg key secretName prev secretObj p.1 p.2 st with
    | none => simp [hb] at h
    | some st₂ =>
      simp only [hb] at h
      obtain ⟨t, ih₁, ih₂, ih₃⟩ := ih st₂ h
      have hindex := AddTLSNode.addStep_index _ _ _ _ _ _ _ _ _ hb
      obtain ⟨hostname, hh⟩ := AddTLSNode.addStep_hostname _ _ _ _ _ _ _ _ _ hb
      have hkey : encodedKey cfg (p.1.Hostname.getD "") p.2 = encodedKey cfg hostname p.2 := by
        rw [hh, Option.getD_some]
      rw [hindex, hkey] at ih₂ ih₃
      simp only [walkKeys, List.map_cons, takenPositions_cons, hkey] at ih₂ ih₃ ⊢
      cases hidx : st.encodedCertNameIndexMap (encodedKey cfg hostname p.2) with
      | none =>
        obtain ⟨t₀, ht₀⟩ := AddTLSNode.addStep_append _ _ _ _ _ _ _ _ _ hb
        refine ⟨t₀ ++ t, by rw [ih₁, ht₀, List.append_assoc], ?_, ?_⟩
        · simp only [Option.none_bind, List.reduceOption_cons_of_none]
          exact ih₂.trans (List.sublist_append_right _ _)
        · simpa using ih₃
      | some indexlist =>
        obtain ⟨position, node, hp, hnode, hst₂⟩ :=
          AddTLSNode.addStep_indexed _ _ _ _ _ _ _ _ _ _ _ hh hidx hb
        refine ⟨node :: t, by rw [ih₁, hst₂]; simp, ?_, ?_⟩
        · simp only [Option.some_bind, hp, List.reduceOption_cons_of_some,
            List.filterMap_cons, hnode]
          exact ih₂.cons₂ node
        · simp only [Option.some_bind, hp, List.reduceOption_cons_of_some, List.mem_cons,
            forall_eq_or_imp, hnode, Option.isSome_some, true_and]
          exact ih₃

/-! ## Order of the nodes taken over from the previous list -/

/-- C9 (as amended): a completed incremental pass places the nodes it takes over from the
previous TLS list in walk order, the `i`-th reference with a given key taking the `i`-th
position recorded for that key. After `AddTLSNode` the nodes at the taken positions form a
sublist of the new list, and after `DeleteTLSNode` the new list consists of the nodes at
the kept positions; whenever these positions are increasing in walk order, the nodes taken
over also form a sublist of the previous list, that is, they keep their relative order. -/
theorem incremental_pass_order_of_kept_nodes (cfg : Config) (key : String)
    (object : AviObjectGraph) (gateway : Gateway) (secretObj : Option Secret)
    (index : GoMap (List Int)) :
    ((AddTLSNode cfg key object gateway secretObj index).isSome = true →
      ∃ newList,
        (AddTLSNode cfg key object gateway secretObj index).bind
          (fun out => tlsListOf out.1) = some newList ∧
        (∀ i ∈ (takenPositions index
            (walkKeys cfg (certRefWalk gateway.Spec.Listeners))).reduceOption,
          (sliceAt ((tlsListOf object).getD []) i).isSome = true) ∧
        (((takenPositions index
            (walkKeys cfg (certRefWalk gateway.Spec.Listeners))).reduceOption).filterMap
          (sliceAt ((tlsListOf object).getD []))).Sublist newList ∧
        (((takenPositions index
            (walkKeys cfg (certRefWalk gateway.Spec.Listeners))).reduceOption).Pairwise
            (· < ·) →
          (((takenPositions index
              (walkKeys cfg (certRefWalk gateway.Spec.Listeners))).reduceOption).filterMap
            (sliceAt ((tlsListOf object).getD []))).Sublist ((tlsListOf object).getD []))) ∧
    ((DeleteTLSNode cfg key object gateway secretObj index).isSome = true →
      ∃ newList,
        (DeleteTLSNode cfg key object gateway secretObj index).bind
          (fun out => tlsListOf out.1) = some newList ∧
        (∀ i ∈ keptPositions cfg (secretNameOf cfg key) index
            (certRefWalk gateway.Spec.Listeners),
          (sliceAt ((tlsListOf object).getD []) i).isSome = true) ∧
        newList = (keptPositions cfg (secretNameOf cfg key) index
            (certRefWalk gateway.Spec.Listeners)).filterMap
          (sliceAt ((tlsListOf object).getD [])) ∧
        ((keptPositions cfg (secretNameOf cfg key) index
            (certRefWalk gateway.Spec.Listeners)).Pairwise (· < ·) →
          newList.Sublist ((tlsListOf object).getD []))) := by
  constructor
  · intro hsucc
    obtain ⟨st, out, hw, hout, -, hlist⟩ :=
      AddTLSNode_walk cfg key object gateway secretObj index hsucc
    obtain ⟨t, ht, hsub, hvalid⟩ := AddTLSNode.addWalk_tlsNodes _ _ _ _ _ _ _ _ hw
    simp only [List.nil_append] at ht
    refine ⟨st.tlsNodes, by rw [hout, Option.some_bind, hlist], hvalid, ht ▸ hsub, ?_⟩
    intro hinc
    exact filterMap_sliceAt_sublist _ _ hinc
  · intro hsucc
    obtain ⟨st, out, hw, hout, -, hlist⟩ :=
      DeleteTLSNode_walk cfg key object gateway secretObj index hsucc
    obtain ⟨ht, hvalid⟩ := DeleteTLSNode.deleteWalk_tlsNodes _ _ _ _ _ _ hw
    simp only [List.nil_append] at ht
    refine ⟨st.tlsNodes, by rw [hout, Option.some_bind, hlist], hvalid, ht, ?_⟩
    intro hinc
    rw [ht]
    exact filterMap_sliceAt_sublist _ _ hinc

/-- A witness of `incremental_pass_order_of_kept_nodes`: on `exampleGatewayTLS` with the
index of its full build, the positions taken are increasing, so the list left by
`DeleteTLSNode` for the secret `c` is a sublist of the previous list, and the nodes taken
over by `AddTLSNode` for the secret `missing` form a sublist of it too. -/
theorem incremental_pass_order_of_kept_nodes_witness :
    (∃ newList,
      (DeleteTLSNode exampleConfig "c" exampleGraph exampleGatewayTLS none exampleIndex).bind
        (fun out => tlsListOf out.1) = some newList ∧
      newList.Sublist ((tlsListOf exampleGraph).getD [])) ∧
    (((takenPositions exampleIndex
        (walkKeys exampleConfig (certRefWalk exampleGatewayTLS.Spec.Listeners))).reduceOption
        ).filterMap (sliceAt ((tlsListOf exampleGraph).getD []))).Sublist
      ((tlsListOf exampleGraph).getD []) := by
  have h := incremental_pass_order_of_kept_nodes exampleConfig "c" exampleGraph
    exampleGatewayTLS none exampleIndex
  have h' := incremental_pass_order_of_kept_nodes exampleConfig "missing" exampleGraph
    exampleGatewayTLS (some exampleMissingSecret) exampleIndex
  obtain ⟨newList, hnew, -, -, hsub⟩ := h.2 (by decide)
  obtain ⟨newList', -, -, -, hsub'⟩ := h'.1 (by decide)
  exact ⟨⟨newList, hnew, hsub (by decide)⟩, hsub' (by decide)⟩

/-- C9 (counterexample): the TLS list `[a.com/d, a.com/c]` and its index are those of the
full build of `exampleGatewayDup`; `AddTLSNode` for the secret `e` leaves
`[a.com/c, a.com/d, a.com/e]` and `DeleteTLSNode` for the secret `e` leaves
`[a.com/c, a.com/d]`: the two previous nodes, neither of which has the key of the changed
certificate, both survive and change places. -/
theorem incremental_pass_reorders_kept_nodes :
    (BuildTLSNodesForGateway exampleConfig exampleSecrets exampleGatewayDup "k").tlsNodes =
      [exampleNodeAD, exampleNodeAC] ∧
    tlsListOf exampleGraphDup = some [exampleNodeAD, exampleNodeAC] ∧
    (exampleIndexDup exampleNodeAD.Name, exampleIndexDup exampleNodeAC.Name) =
      (some [0], some [1]) ∧
    (AddTLSNode exampleConfig "e" exampleGraphDup exampleGatewayDup (some exampleSecretE)
        exampleIndexDup).bind (fun out => tlsListOf out.1) =
      some [exampleNodeAC, exampleNodeAD, exampleNodeAE] ∧
    (DeleteTLSNode exampleConfig "e" exampleGraphDup exampleGatewayDup none
        exampleIndexDup).bind (fun out => tlsListOf out.1) =
      some [exampleNodeAC, exampleNodeAD] ∧
    ¬ [exampleNodeAD, exampleNodeAC].Sublist [exampleNodeAC, exampleNodeAD, exampleNodeAE] ∧
    ¬ [exampleNodeAD, exampleNodeAC].Sublist [exampleNodeAC, exampleNodeAD] := by
  decide

/-! ## One position per occurrence of a key -/

/-- The entry of a key with the non-empty position list `L` after `m` consumptions: `L`
without its first `m` positions while some remain, no entry afterwards. -/
theorem popEntry_iterate_some (L : List Int) (hL : L ≠ []) (m : Nat) :
    popEntry^[m] (some L) = if m < L.length then some (L.drop m) else none := by
  induction m with
  | zero => simp [List.length_pos.mpr hL]
  | succ m ih =>
    rw [Function.iterate_succ_apply', ih]
    by_cases hm : m < L.length
    · simp only [hm, if_true, popEntry, Option.some_bind, List.length_drop, List.drop_drop]
      by_cases hm' : m + 1 < L.length
      · have : L.length - m > 1 := by omega
        simp [this, hm', Nat.add_comm]
      · have : ¬ L.length - m > 1 := by omega
        simp [this, hm']
    · have hm' : ¬ m + 1 < L.length := by omega
      simp [hm, hm', popEntry]

/-- The first position of what is left of a list after dropping `c` positions. -/
theorem head?_drop_eq_getElem? (L : List Int) (c : Nat) : (L.drop c).head? = L[c]? := by
  rw [List.head?_eq_getElem?, List.getElem?_drop]
  simp

/-- In a completed walk whose steps are consumptions on the key of their reference, the
reference `p` that comes after the references `pre` and is the `c+1`-st with its key
finds, when the key had a non-empty list `L` with more than `c` positions at the start,
the entry `L.drop c`, and leaves `L.drop (c+1)`, or no entry when that would be empty. -/
theorem walkPairs_occurrence (cfg : Config)
    (body : Listener → SecretObjectReference → TLSWalk → Option TLSWalk)
    (hbody : ∀ l r st st', body l r st = some st' →
      st'.encodedCertNameIndexMap =
        popAt st.encodedCertNameIndexMap (encodedKey cfg (l.Hostname.getD "") r))
    (pre post : List (Listener × SecretObjectReference)) (p : Listener × SecretObjectReference)
    (st stF : TLSWalk) (h : walkPairs body (pre ++ p :: post) st = some stF)
    (L : List Int)
    (hidx : st.encodedCertNameIndexMap (encodedKey cfg (p.1.Hostname.getD "") p.2) = some L)
    (hL : L ≠ [])
    (hc : (walkKeys cfg pre).count (encodedKey cfg (p.1.Hostname.getD "") p.2) < L.length) :
    ∃ st₁ st₂, walkPairs body pre st = some st₁ ∧ body p.1 p.2 st₁ = some st₂ ∧
      walkPairs body (pre ++ [p]) st = some st₂ ∧
      st₁.encodedCertNameIndexMap (encodedKey cfg (p.1.Hostname.getD "") p.2) =
        some (L.drop ((walkKeys cfg pre).count (encodedKey cfg (p.1.Hostname.getD "") p.2))) ∧
      st₂.encodedCertNameIndexMap (encodedKey cfg (p.1.Hostname.getD "") p.2) =
        (if (walkKeys cfg pre).count (encodedKey cfg (p.1.Hostname.getD "") p.2) + 1 < L.length
          then some (L.drop
            ((walkKeys cfg pre).count (encodedKey cfg (p.1.Hostname.getD "") p.2) + 1))
          else none) := by
  obtain ⟨st₁, st₂, h₁, h₂, -⟩ := walkPairs_split _ _ _ _ _ _ h
  have hstep : walkPairs body (pre ++ [p]) st = some st₂ := by
    rw [walkPairs_append, h₁]
    simp only [Option.some_bind, walkPairs]
    rw [h₂]
  refine ⟨st₁, st₂, h₁, h₂, hstep, ?_, ?_⟩
  · rw [walkPairs_index cfg body hbody _ _ _ h₁, hidx, popEntry_iterate_some L hL, if_pos hc]
  · rw [walkPairs_index cfg body hbody _ _ _ hstep, hidx, popEntry_iterate_some L hL]
    simp [walkKeys, List.count_append]

/-- The index after a completed walk whose steps are consumptions, key by key, with `m`
the number of references with the key: a non-empty list loses its first `m` positions and
the key its entry when none would remain; a key without entry gets none; and only an
empty list that no reference touched is still there as an empty list. -/
theorem walkPairs_index_exit (cfg : Config)
    (body : Listener → SecretObjectReference → TLSWalk → Option TLSWalk)
    (hbody : ∀ l r st st', body l r st = some st' →
      st'.encodedCertNameIndexMap =
        popAt st.encodedCertNameIndexMap (encodedKey cfg (l.Hostname.getD "") r))
    (ps : List (Listener × SecretObjectReference)) (st st' : TLSWalk)
    (h : walkPairs body ps st = some st') :
    (∀ k L, st.encodedCertNameIndexMap k = some L → L ≠ [] →
      ((walkKeys cfg ps).count k < L.length →
        st'.encodedCertNameIndexMap k = some (L.drop ((walkKeys cfg ps).count k))) ∧
      (L.length ≤ (walkKeys cfg ps).count k → st'.encodedCertNameIndexMap k = none)) ∧
    (∀ k, st.encodedCertNameIndexMap k = none → st'.encodedCertNameIndexMap k = none) ∧
    (∀ k, st'.encodedCertNameIndexMap k = some [] →
      st.encodedCertNameIndexMap k = some [] ∧ (walkKeys cfg ps).count k = 0) := by
  have hidx := walkPairs_index cfg body hbody ps st st' h
  have hnone : ∀ m : Nat, popEntry^[m] none = none :=
    fun m => Function.iterate_fixed (f := popEntry) rfl m
  refine ⟨?_, ?_, ?_⟩
  · intro k L hk hL
    rw [hidx k, hk, popEntry_iterate_some L hL]
    exact ⟨fun hlt => by rw [if_pos hlt], fun hle => by rw [if_neg (by omega)]⟩
  · intro k hk
    rw [hidx k, hk, hnone]
  · intro k hk
    rw [hidx k] at hk
    cases hm : (walkKeys cfg ps).count k with
    | zero =>
      rw [hm] at hk
      exact ⟨hk, rfl⟩
    | succ m =>
      rw [hm, Function.iterate_succ_apply'] at hk
      exact absurd hk (popEntry_ne_some_nil _)

/-- C11 (as amended): a completed incremental pass consumes one position per occurrence of
a key. If a key has the non-empty position list `L` on entry and `m` of the gateway's
certificate references have the key, then the occurrence that comes after `c < |L|`
earlier ones finds `L.drop c` in the index, takes its first position `L[c]` (whose node it
appends, unless `DeleteTLSNode` meets the deleted secret) and leaves `L.drop (c+1)` or no
entry; on exit the key maps to `L.drop m` when `m < |L|` and is absent when `m ≥ |L|`;
keys absent on entry stay absent; and a key is mapped to an empty list on exit only when
it was on entry and no reference has it. -/
theorem incremental_pass_one_position_per_occurrence (cfg : Config) (key : String)
    (object : AviObjectGraph) (gateway : Gateway) (secretObj : Option Secret)
    (index : GoMap (List Int)) :
    ((AddTLSNode cfg key object gateway secretObj index).isSome = true →
      ∃ out, AddTLSNode cfg key object gateway secretObj index = some out ∧
        (∀ k L, index k = some L → L ≠ [] →
          ((walkKeys cfg (certRefWalk gateway.Spec.Listeners)).count k < L.length →
            out.2 k = some (L.drop ((walkKeys cfg (certRefWalk gateway.Spec.Listeners)).count k)))
          ∧ (L.length ≤ (walkKeys cfg (certRefWalk gateway.Spec.Listeners)).count k →
            out.2 k = none)) ∧
        (∀ k, index k = none → out.2 k = none) ∧
        (∀ k, out.2 k = some [] →
          index k = some [] ∧ (walkKeys cfg (certRefWalk gateway.Spec.Listeners)).count k = 0) ∧
        ∀ pre post l r hostname L,
          certRefWalk gateway.Spec.Listeners = pre ++ (l, r) :: post →
          l.Hostname = some hostname →
          index (encodedKey cfg hostname r) = some L →
          (walkKeys cfg pre).count (encodedKey cfg hostname r) < L.length →
          ∃ st₁ st₂ position node,
            AddTLSNode.walk cfg key object secretObj index pre = some st₁ ∧
            AddTLSNode.walk cfg key object secretObj index (pre ++ [(l, r)]) = some st₂ ∧
            st₁.encodedCertNameIndexMap (encodedKey cfg hostname r) =
              some (L.drop ((walkKeys cfg pre).count (encodedKey cfg hostname r))) ∧
            L[(walkKeys cfg pre).count (encodedKey cfg hostname r)]? = some position ∧
            sliceAt ((tlsListOf object).getD []) position = some node ∧
            st₂.tlsNodes = st₁.tlsNodes ++ [node] ∧
            st₂.encodedCertNameIndexMap (encodedKey cfg hostname r) =
              (if (walkKeys cfg pre).count (encodedKey cfg hostname r) + 1 < L.length then
                some (L.drop ((walkKeys cfg pre).count (encodedKey cfg hostname r) + 1))
              else none)) ∧
    ((DeleteTLSNode cfg key object gateway secretObj index).isSome = true →
      ∃ out, DeleteTLSNode cfg key object gateway secretObj index = some out ∧
        (∀ k L, index k = some L → L ≠ [] →
          ((walkKeys cfg (certRefWalk gateway.Spec.Listeners)).count k < L.length →
            out.2 k = some (L.drop ((walkKeys cfg (certRefWalk gateway.Spec.Listeners)).count k)))
          ∧ (L.length ≤ (walkKeys cfg (certRefWalk gateway.Spec.Listeners)).count k →
            out.2 k = none)) ∧
        (∀ k, index k = none → out.2 k = none) ∧
        (∀ k, out.2 k = some [] →
          index k = some [] ∧ (walkKeys cfg (certRefWalk gateway.Spec.Listeners)).count k = 0) ∧
        ∀ pre post l r hostname L,
          certRefWalk gateway.Spec.Listeners = pre ++ (l, r) :: post →
          l.Hostname = some hostname →
          index (encodedKey cfg hostname r) = some L →
          (walkKeys cfg pre).count (encodedKey cfg hostname r) < L.length →
          ∃ st₁ st₂ position,
            DeleteTLSNode.walk cfg key object index pre = some st₁ ∧
            DeleteTLSNode.walk cfg key object index (pre ++ [(l, r)]) = some st₂ ∧
            st₁.encodedCertNameIndexMap (encodedKey cfg hostname r) =
              some (L.drop ((walkKeys cfg pre).count (encodedKey cfg hostname r))) ∧
            L[(walkKeys cfg pre).count (encodedKey cfg hostname r)]? = some position ∧
            (r.Name = secretNameOf cfg key → st₂.tlsNodes = st₁.tlsNodes) ∧
            (r.Name ≠ secretNameOf cfg key →
              ∃ node, sliceAt ((tlsListOf object).getD []) position = some node ∧
                st₂.tlsNodes = st₁.tlsNodes ++ [node]) ∧
            st₂.encodedCertNameIndexMap (encodedKey cfg hostname r) =
              (if (walkKeys cfg pre).count (encodedKey cfg hostname r) + 1 < L.length then
                some (L.drop ((walkKeys cfg pre).count (encodedKey cfg hostname r) + 1))
              else none)) := by
  constructor
  · intro hsucc
    obtain ⟨st, out, hw, hout, hidx, -⟩ :=
      AddTLSNode_walk cfg key object gateway secretObj index hsucc
    have hbody := AddTLSNode.addStep_index cfg key (secretNameOf cfg key)
      ((tlsListOf object).getD []) secretObj
    obtain ⟨h₁, h₂, h₃⟩ := walkPairs_index_exit cfg _ hbody _ _ _ hw
    refine ⟨out, hout, by rw [hidx]; exact h₁, by rw [hidx]; exact h₂,
      by rw [hidx]; exact h₃, ?_⟩
    intro pre post l r hostname L hwalk hh hL hc
    have hne : L ≠ [] := fun e => by simp [e] at hc
    have hkey : encodedKey cfg ((l, r).1.Hostname.getD "") (l, r).2 =
        encodedKey cfg hostname r := by simp [hh]
    unfold AddTLSNode.walk at hw ⊢
    rw [hwalk] at hw
    obtain ⟨st₁, st₂, hpre, hstep, hpre', hidx₁, hidx₂⟩ :=
      walkPairs_occurrence cfg _ hbody pre post (l, r) _ _ hw L (by rw [hkey]; exact hL)
        hne (by rw [hkey]; exact hc)
    rw [hkey] at hidx₁ hidx₂
    obtain ⟨position, node, hp, hnode, hst₂⟩ :=
      AddTLSNode.addStep_indexed _ _ _ _ _ _ _ _ _ _ _ hh hidx₁ hstep
    rw [head?_drop_eq_getElem?] at hp
    exact ⟨st₁, st₂, position, node, hpre, hpre', hidx₁, hp, hnode, by rw [hst₂], hidx₂⟩
  · intro hsucc
    obtain ⟨st, out, hw, hout, hidx, -⟩ :=
      DeleteTLSNode_walk cfg key object gateway secretObj index hsucc
    have hbody := DeleteTLSNode.deleteStep_index cfg (secretNameOf cfg key)
      ((tlsListOf object).getD [])
    obtain ⟨h₁, h₂, h₃⟩ := walkPairs_index_exit cfg _ hbody _ _ _ hw
    refine ⟨out, hout, by rw [hidx]; exact h₁, by rw [hidx]; exact h₂,
      by rw [hidx]; exact h₃, ?_⟩
    intro pre post l r hostname L hwalk hh hL hc
    have hne : L ≠ [] := fun e => by simp [e] at hc
    have hkey : encodedKey cfg ((l, r).1.Hostname.getD "") (l, r).2 =
        encodedKey cfg hostname r := by simp [hh]
    unfold DeleteTLSNode.walk at hw ⊢
    rw [hwalk] at hw
    obtain ⟨st₁, st₂, hpre, hstep, hpre', hidx₁, hidx₂⟩ :=
      walkPairs_occurrence cfg _ hbody pre post (l, r) _ _ hw L (by rw [hkey]; exact hL)
        hne (by rw [hkey]; exact hc)
    rw [hkey] at hidx₁ hidx₂
    obtain ⟨-, hsame, hkeep⟩ :=
      DeleteTLSNode.deleteStep_indexed _ _ _ _ _ _ _ _ _ hh hidx₁ hstep
    have hpos : ∃ position,
        L[(walkKeys cfg pre).count (encodedKey cfg hostname r)]? = some position :=
      ⟨L[(walkKeys cfg pre).count (encodedKey cfg hostname r)], List.getElem?_eq_getElem hc⟩
    obtain ⟨position, hposition⟩ := hpos
    refine ⟨st₁, st₂, position, hpre, hpre', hidx₁, hposition, hsame, ?_, hidx₂⟩
    intro hname
    obtain ⟨position', node, hp, hnode, hst₂⟩ := hkeep hname
    rw [head?_drop_eq_getElem?, hposition, Option.some.injEq] at hp
    subst hp
    exact ⟨node, hnode, hst₂⟩

/-- A witness of `incremental_pass_one_position_per_occurrence`: on `exampleGatewayShared`
the key `a.com/c` has the positions `[0, 1, 3]` and two references, the key `a.com/d` one
position and one reference; `DeleteTLSNode` for the secret `d` leaves `a.com/c` mapped to
`[3]` and `a.com/d` absent. -/
theorem incremental_pass_one_position_per_occurrence_witness :
    ∃ out, DeleteTLSNode exampleConfig "d" exampleGraphShared exampleGatewayShared none
        exampleIndexShared = some out ∧
      out.2 "a.com/c" = some [3] ∧ out.2 "a.com/d" = none := by
  obtain ⟨out, hout, hexit, -, -, -⟩ :=
    (incremental_pass_one_position_per_occurrence exampleConfig "d" exampleGraphShared
      exampleGatewayShared none exampleIndexShared).2 (by decide)
  refine ⟨out, hout, ?_, ?_⟩
  · have h := (hexit "a.com/c" [0, 1, 3] (by decide) (by decide)).1 (by decide)
    rw [h]
    decide
  · exact (hexit "a.com/d" [2] (by decide) (by decide)).2 (by decide)

/-- C11 (counterexample): `DeleteTLSNode` for the secret `c` on `exampleGatewayTLS`, started
on the index of `exampleGraph` with the further key `gone.com/x` mapped to the empty list,
completes and leaves `gone.com/x` mapped to the empty list, although no reference has the
key (`m = 0 ≥ |L| = 0`). -/
theorem incremental_pass_leaves_untouched_empty_list :
    (exampleIndex.set "gone.com/x" []) "gone.com/x" = some [] ∧
    (walkKeys exampleConfig (certRefWalk exampleGatewayTLS.Spec.Listeners)).count "gone.com/x"
      = 0 ∧
    (DeleteTLSNode exampleConfig "c" exampleGraph exampleGatewayTLS none
        (exampleIndex.set "gone.com/x" [])).map (fun out => out.2 "gone.com/x") =
      some (some []) ∧
    (AddTLSNode exampleConfig "missing" exampleGraph exampleGatewayTLS
        (some exampleMissingSecret) (exampleIndex.set "gone.com/x" [])).map
        (fun out => out.2 "gone.com/x") =
      some (some []) := by
  decide

/-! # Theorems on the gateway status -/

/-! ## isStatusEqual -/

/-- Overwriting the transition times twice is overwriting them with the second time. -/
theorem setTransitionTimes_setTransitionTimes (t t' : Int) (status : GatewayStatus) :
    setTransitionTimes t (setTransitionTimes t' status) = setTransitionTimes t status := by
  cases status with
  | mk addresses conditions listeners =>
    simp only [setTransitionTimes, Option.map_map, GatewayStatus.mk.injEq, true_and]
    constructor
    · congr 1
      funext l
      simp [List.map_map, Function.comp_def]
    · congr 1
      funext l
      simp only [Function.comp_apply, List.map_map]
      congr 1
      funext listener
      simp [Option.map_map, Function.comp_def, List.map_map]

/-- The result of `isStatusEqual` does not depend on its reading of the clock: it is true
exactly when the two statuses are equal once every `LastTransitionTime` is ignored. -/
theorem isStatusEqual_iff (currentTime : Int) (old new : GatewayStatus) :
    isStatusEqual currentTime old new = true ↔
      withoutTransitionTimes old = withoutTransitionTimes new := by
  unfold isStatusEqual withoutTransitionTimes
  rw [decide_eq_true_iff]
  constructor
  · intro h
    have := congrArg (setTransitionTimes 0) h
    simpa only [setTransitionTimes_setTransitionTimes] using this
  · intro h
    have := congrArg (setTransitionTimes currentTime) h
    simpa only [setTransitionTimes_setTransitionTimes] using this

/-! ## Patch -/

/-- The body of `Patch`, one call deep. -/
theorem Patch_eq (env : StatusEnv) (key : String) (gw : Gateway) (status : GatewayStatus)
    (retryNum : List Int) :
    Patch env key gw status retryNum =
      if retryNum.length > 0 ∧ retryNum.headD 0 ≥ 5 then []
      else if isStatusEqual (env.Now (retryNum.headD 0).toNat) gw.Status status then []
      else if env.patchFails (retryNum.headD 0) then
        match env.refetch (retryNum.headD 0) gw.Namespace gw.Name with
        | none => [.patch gw.Namespace gw.Name status, .get gw.Namespace gw.Name]
        | some updatedGW =>
          .patch gw.Namespace gw.Name status :: .get gw.Namespace gw.Name ::
            Patch env key updatedGW status [retryNum.headD 0 + 1]
      else [.patch gw.Namespace gw.Name status] := by
  rw [Patch]

/-- A call of `Patch` on a gateway whose stored status equals the desired status once
transition times are ignored makes no call to the store. -/
theorem Patch_no_call_when_equal_aux (env : StatusEnv) (key : String) (gw : Gateway)
    (status : GatewayStatus) (retryNum : List Int)
    (h : withoutTransitionTimes gw.Status = withoutTransitionTimes status) :
    Patch env key gw status retryNum = [] := by
  rw [Patch_eq]
  have heq := (isStatusEqual_iff (env.Now (retryNum.headD 0).toNat) gw.Status status).mpr h
  rw [if_pos heq, ite_self]

/-- C12: when the stored status of the gateway and the desired status are equal once every
`LastTransitionTime` (of the object-level conditions and of the conditions of every
listener entry) is ignored, `Patch` makes no call to the store: no patch call and no
re-fetch. -/
theorem Patch_no_call_when_status_equal (env : StatusEnv) (key : String) (gw : Gateway)
    (status : GatewayStatus) (retryNum : List Int)
    (h : withoutTransitionTimes gw.Status = withoutTransitionTimes status) :
    Patch env key gw status retryNum = [] := by
  rw [Patch_eq]
  have heq := (isStatusEqual_iff (env.Now (retryNum.headD 0).toNat) gw.Status status).mpr h
  rw [if_pos heq, ite_self]

/-- A witness of `Patch_no_call_when_status_equal`: the stored status of
`exampleStoredGateway` and `exampleStatusLater` differ in transition times only. -/
theorem Patch_no_call_when_status_equal_witness :
    withoutTransitionTimes exampleStoredGateway.Status =
        withoutTransitionTimes exampleStatusLater ∧
    Patch exampleStatusEnv "k" exampleStoredGateway exampleStatusLater [] = [] :=
  ⟨by decide,
    Patch_no_call_when_status_equal exampleStatusEnv "k" exampleStoredGateway
      exampleStatusLater [] (by decide)⟩

/-- The patch calls among the events after a patch call. -/
theorem patchCalls_patch (ns name : String) (status : GatewayStatus)
    (events : List StatusEvent) :
    patchCalls (.patch ns name status :: events) = patchCalls events + 1 := by
  simp [patchCalls, StatusEvent.isPatch]

/-- The patch calls among the events after a lookup. -/
theorem patchCalls_get (ns name : String) (events : List StatusEvent) :
    patchCalls (.get ns name :: events) = patchCalls events := by
  simp [patchCalls, StatusEvent.isPatch]

/-- The number of patch calls of `Patch` is bounded by what is left of five attempts. -/
theorem Patch_patchCalls_le (env : StatusEnv) (key : String) (status : GatewayStatus)
    (n : Nat) :
    ∀ (gw : Gateway) (retryNum : List Int), (5 - retryNum.headD 0).toNat = n →
      patchCalls (Patch env key gw status retryNum) ≤ n := by
  induction n with
  | zero =>
    intro gw retryNum hn
    rw [Patch_eq]
    have habort : retryNum.length > 0 ∧ retryNum.headD 0 ≥ 5 := by
      cases retryNum with
      | nil => simp at hn
      | cons r rest =>
        simp only [List.headD_cons] at hn ⊢
        exact ⟨by simp, by omega⟩
    rw [if_pos habort]
    simp [patchCalls]
  | succ m ih =>
    intro gw retryNum hn
    rw [Patch_eq]
    split
    · simp [patchCalls]
    · split
      · simp [patchCalls]
      · split
        · split
          · simp only [patchCalls_patch, patchCalls_get]
            simp [patchCalls]
          · rename_i updatedGW _
            simp only [patchCalls_patch, patchCalls_get]
            have := ih updatedGW [retryNum.headD 0 + 1] (by
              simp only [List.headD_cons]
              omega)
            omega
        · simp only [patchCalls_patch]
          simp [patchCalls]

/-- The number of patch calls of `Patch` against a store that rejects every patch call
and never holds the desired status: all the attempts that are left are made. -/
theorem Patch_patchCalls_of_rejecting (env : StatusEnv) (key : String)
    (status : GatewayStatus)
    (hfail : ∀ retry, env.patchFails retry = true)
    (hget : ∀ retry ns name, ∃ g, env.refetch retry ns name = some g ∧
      withoutTransitionTimes g.Status ≠ withoutTransitionTimes status)
    (n : Nat) :
    ∀ (gw : Gateway) (retry : Int),
      withoutTransitionTimes gw.Status ≠ withoutTransitionTimes status →
      (5 - retry).toNat = n →
      patchCalls (Patch env key gw status [retry]) = n := by
  induction n with
  | zero =>
    intro gw retry _ hn
    rw [Patch_eq]
    have habort : [retry].length > 0 ∧ [retry].headD 0 ≥ 5 := by
      simp only [List.headD_cons]
      exact ⟨by simp, by omega⟩
    rw [if_pos habort]
    simp [patchCalls]
  | succ m ih =>
    intro gw retry hne hn
    rw [Patch_eq]
    have hnot : ¬ ([retry].length > 0 ∧ [retry].headD 0 ≥ 5) := by
      simp only [List.headD_cons]
      intro h
      omega
    have hneq : ¬ isStatusEqual (env.Now ([retry].headD 0).toNat) gw.Status status = true :=
      fun h => hne ((isStatusEqual_iff _ _ _).mp h)
    rw [if_neg hnot, if_neg hneq, if_pos (hfail _)]
    obtain ⟨g, hg, hgne⟩ := hget ([retry].headD 0) gw.Namespace gw.Name
    rw [hg]
    simp only [patchCalls_patch, patchCalls_get, List.headD_cons]
    rw [ih g (retry + 1) hgne (by omega)]

/-- C13: whatever the outcomes of the patch calls and of the re-fetches, `Patch` invoked
without a retry count makes at most 5 patch calls; against a store that rejects every
patch call and never holds the desired status it makes exactly 5 and then gives up. -/
theorem Patch_at_most_five_patch_calls (env : StatusEnv) (key : String) (gw : Gateway)
    (status : GatewayStatus) :
    patchCalls (Patch env key gw status []) ≤ 5 ∧
    ((∀ retry, env.patchFails retry = true) →
      (∀ retry ns name, ∃ g, env.refetch retry ns name = some g ∧
        withoutTransitionTimes g.Status ≠ withoutTransitionTimes status) →
      withoutTransitionTimes gw.Status ≠ withoutTransitionTimes status →
      patchCalls (Patch env key gw status []) = 5) := by
  refine ⟨Patch_patchCalls_le env key status 5 gw [] (by simp), ?_⟩
  intro hfail hget hne
  rw [Patch_eq]
  have hnot : ¬ (([] : List Int).length > 0 ∧ ([] : List Int).headD 0 ≥ 5) := by simp
  have hneq : ¬ isStatusEqual (env.Now (([] : List Int).headD 0).toNat) gw.Status status
      = true := fun h => hne ((isStatusEqual_iff _ _ _).mp h)
  rw [if_neg hnot, if_neg hneq, if_pos (hfail _)]
  obtain ⟨g, hg, hgne⟩ := hget (([] : List Int).headD 0) gw.Namespace gw.Name
  rw [hg]
  simp only [patchCalls_patch, patchCalls_get, List.headD_nil]
  rw [Patch_patchCalls_of_rejecting env key status hfail hget 4 g (0 + 1) hgne (by simp)]

/-- A witness of `Patch_at_most_five_patch_calls`: against `exampleRejectingEnv`, the patch
of a new status to `exampleStoredGateway` is attempted exactly 5 times. -/
theorem Patch_at_most_five_patch_calls_witness :
    patchCalls (Patch exampleRejectingEnv "k" exampleStoredGateway {} []) = 5 :=
  (Patch_at_most_five_patch_calls exampleRejectingEnv "k" exampleStoredGateway {}).2
    (fun _ => rfl) (fun _ _ _ => ⟨exampleStoredGateway, rfl, by decide⟩) (by decide)

/-- C14: a call of `Patch` that is within its attempts and finds the stored status
different from the desired one issues a patch call. If that call succeeds, nothing else
happens. If it fails, the gateway is re-fetched: when the re-fetch fails no further call
is made; otherwise `Patch` goes on with the re-fetched gateway and the next retry count,
and makes no further call when the status of the re-fetched gateway already equals the
desired status once transition times are ignored. -/
theorem Patch_retries_against_refetched (env : StatusEnv) (key : String) (gw : Gateway)
    (status : GatewayStatus) (retryNum : List Int)
    (hretry : retryNum = [] ∨ retryNum.headD 0 < 5)
    (hne : withoutTransitionTimes gw.Status ≠ withoutTransitionTimes status) :
    (env.patchFails (retryNum.headD 0) = false →
      Patch env key gw status retryNum = [.patch gw.Namespace gw.Name status]) ∧
    (env.patchFails (retryNum.headD 0) = true →
      (env.refetch (retryNum.headD 0) gw.Namespace gw.Name = none →
        Patch env key gw status retryNum =
          [.patch gw.Namespace gw.Name status, .get gw.Namespace gw.Name]) ∧
      (∀ updatedGW, env.refetch (retryNum.headD 0) gw.Namespace gw.Name = some updatedGW →
        Patch env key gw status retryNum =
          .patch gw.Namespace gw.Name status :: .get gw.Namespace gw.Name ::
            Patch env key updatedGW status [retryNum.headD 0 + 1] ∧
        (withoutTransitionTimes updatedGW.Status = withoutTransitionTimes status →
          Patch env key gw status retryNum =
            [.patch gw.Namespace gw.Name status, .get gw.Namespace gw.Name]))) := by
  have hnot : ¬ (retryNum.length > 0 ∧ retryNum.headD 0 ≥ 5) := by
    rcases hretry with h | h
    · subst h
      simp
    · intro hc
      omega
  have hneq : ¬ isStatusEqual (env.Now (retryNum.headD 0).toNat) gw.Status status = true :=
    fun h => hne ((isStatusEqual_iff _ _ _).mp h)
  have hbody := Patch_eq env key gw status retryNum
  rw [if_neg hnot, if_neg hneq] at hbody
  refine ⟨?_, ?_⟩
  · intro hok
    rw [hbody, hok]
    simp
  · intro hfail
    rw [if_pos hfail] at hbody
    refine ⟨?_, ?_⟩
    · intro hget
      rw [hbody, hget]
    · intro updatedGW hget
      rw [hget] at hbody
      simp only [] at hbody
      refine ⟨hbody, ?_⟩
      intro heq
      rw [hbody, Patch_no_call_when_equal_aux env key updatedGW status _ heq]

/-- A witness of `Patch_retries_against_refetched`: the patch of `exampleStatusLater` to
`exampleForeignGateway` is rejected, the re-fetch returns `exampleStoredGateway`, whose
status already equals the desired one up to transition times, and nothing else is done. -/
theorem Patch_retries_against_refetched_witness :
    Patch exampleRejectingEnv "k" exampleForeignGateway exampleStatusLater [] =
      [.patch "default" "foreign" exampleStatusLater, .get "default" "foreign"] :=
  ((((Patch_retries_against_refetched exampleRejectingEnv "k" exampleForeignGateway
    exampleStatusLater [] (Or.inl rfl) (by decide)).2 rfl).2
    exampleStoredGateway rfl).2 (by decide))

/-! ## SetStatusCondition -/

/-- The in-place update keeps the types of the conditions. -/
theorem updateFirstOfType_types (now : Int) (newCondition : Condition)
    (conditions : List Condition) :
    (updateFirstOfType now newCondition conditions).map (fun c => c.Type_) =
      conditions.map fun c => c.Type_ := by
  induction conditions with
  | nil => rfl
  | cons c rest ih =>
    unfold updateFirstOfType
    split
    · simp
    · simp [ih]

/-- The in-place update leaves the conditions of the other types as they are. -/
theorem updateFirstOfType_others (now : Int) (newCondition : Condition)
    (conditions : List Condition) :
    (updateFirstOfType now newCondition conditions).filter
        (fun c => decide (c.Type_ ≠ newCondition.Type_)) =
      conditions.filter fun c => decide (c.Type_ ≠ newCondition.Type_) := by
  induction conditions with
  | nil => rfl
  | cons c rest ih =>
    unfold updateFirstOfType
    by_cases h : c.Type_ = newCondition.Type_
    · simp [h, List.filter_cons]
    · rw [if_neg h]
      simp only [List.filter_cons]
      rw [ih]

/-- After the in-place update of a list that has a condition of the type, the first
condition of the type carries the status, reason, message and observed generation of the
new condition. -/
theorem updateFirstOfType_find (now : Int) (newCondition : Condition)
    (conditions : List Condition) (existing : Condition)
    (h : FindStatusCondition conditions newCondition.Type_ = some existing) :
    ∃ c, FindStatusCondition (updateFirstOfType now newCondition conditions)
        newCondition.Type_ = some c ∧
      c.Type_ = newCondition.Type_ ∧ c.Status = newCondition.Status ∧
      c.Reason = newCondition.Reason ∧ c.Message = newCondition.Message ∧
      c.ObservedGeneration = newCondition.ObservedGeneration := by
  induction conditions with
  | nil => simp [FindStatusCondition] at h
  | cons c rest ih =>
    unfold updateFirstOfType
    by_cases hc : c.Type_ = newCondition.Type_
    · rw [if_pos hc]
      have hhead : ∀ u : Condition, u.Type_ = newCondition.Type_ →
          FindStatusCondition (u :: rest) newCondition.Type_ = some u := by
        intro u hu
        simp [FindStatusCondition, hu]
      refine ⟨_, hhead _ ?_, ?_, ?_, ?_, ?_, ?_⟩ <;> first | rfl | exact hc
    · simp only [hc, if_false]
      have h' : FindStatusCondition rest newCondition.Type_ = some existing := by
        simpa [FindStatusCondition, List.find?_cons, hc] using h
      obtain ⟨c', hfind, hrest⟩ := ih h'
      exact ⟨c', by simpa [FindStatusCondition, List.find?_cons, hc] using hfind, hrest⟩

/-- After `SetStatusCondition` the first condition of the type of the new condition
carries its status, reason, message and observed generation. -/
theorem SetStatusCondition_find (now : Int) (conditions : Slice Condition)
    (newCondition : Condition) :
    ∃ c, FindStatusCondition (SetStatusCondition now conditions newCondition).toList
        newCondition.Type_ = some c ∧
      c.Type_ = newCondition.Type_ ∧ c.Status = newCondition.Status ∧
      c.Reason = newCondition.Reason ∧ c.Message = newCondition.Message ∧
      c.ObservedGeneration = newCondition.ObservedGeneration := by
  unfold SetStatusCondition
  cases hfind : FindStatusCondition conditions.toList newCondition.Type_ with
  | none =>
    simp only [Slice.append, Slice.toList, Option.getD_some]
    have hnone : conditions.toList.find? (fun c => decide (c.Type_ = newCondition.Type_))
        = none := hfind
    by_cases hz : newCondition.LastTransitionTime = 0
    · refine ⟨{ newCondition with LastTransitionTime := now }, ?_, rfl, rfl, rfl, rfl, rfl⟩
      simp only [hz, if_true, FindStatusCondition, List.find?_append, Slice.toList] at hnone ⊢
      rw [hnone]
      simp
    · refine ⟨newCondition, ?_, rfl, rfl, rfl, rfl, rfl⟩
      simp only [hz, if_false, FindStatusCondition, List.find?_append, Slice.toList] at hnone ⊢
      rw [hnone]
      simp
  | some existing =>
    cases conditions with
    | none => simp [FindStatusCondition, Slice.toList] at hfind
    | some l =>
      simp only [Slice.toList, Option.getD_some, Option.map_some'] at hfind ⊢
      exact updateFirstOfType_find now newCondition l existing hfind

/-- The types of the conditions after `SetStatusCondition`: the same as before when a
condition of the type existed, with the new type at the end otherwise. -/
theorem SetStatusCondition_types (now : Int) (conditions : Slice Condition)
    (newCondition : Condition) :
    (SetStatusCondition now conditions newCondition).toList.map (fun c => c.Type_) =
      if newCondition.Type_ ∈ conditions.toList.map (fun c => c.Type_) then
        conditions.toList.map fun c => c.Type_
      else conditions.toList.map (fun c => c.Type_) ++ [newCondition.Type_] := by
  unfold SetStatusCondition
  cases hfind : FindStatusCondition conditions.toList newCondition.Type_ with
  | none =>
    have hnot : newCondition.Type_ ∉ conditions.toList.map (fun c => c.Type_) := by
      intro hmem
      obtain ⟨c, hc, hct⟩ := List.mem_map.mp hmem
      have := List.find?_eq_none.mp hfind c hc
      simp [hct] at this
    rw [if_neg hnot]
    by_cases hz : newCondition.LastTransitionTime = 0 <;>
      simp [hz, Slice.append, Slice.toList]
  | some existing =>
    have hmem : newCondition.Type_ ∈ conditions.toList.map (fun c => c.Type_) := by
      have h₁ := List.mem_of_find?_eq_some hfind
      have h₂ := List.find?_some hfind
      exact List.mem_map.mpr ⟨existing, h₁, by simpa using h₂⟩
    rw [if_pos hmem]
    cases conditions with
    | none => simp [FindStatusCondition, Slice.toList] at hfind
    | some l =>
      simp only [Slice.toList, Option.getD_some, Option.map_some']
      exact updateFirstOfType_types now newCondition l

/-- `SetStatusCondition` leaves the conditions of the other types as they are. -/
theorem SetStatusCondition_others (now : Int) (conditions : Slice Condition)
    (newCondition : Condition) :
    (SetStatusCondition now conditions newCondition).toList.filter
        (fun c => decide (c.Type_ ≠ newCondition.Type_)) =
      conditions.toList.filter fun c => decide (c.Type_ ≠ newCondition.Type_) := by
  unfold SetStatusCondition
  cases hfind : FindStatusCondition conditions.toList newCondition.Type_ with
  | none =>
    by_cases hz : newCondition.LastTransitionTime = 0 <;>
      simp [hz, Slice.append, Slice.toList, List.filter_append]
  | some existing =>
    cases conditions with
    | none => simp [FindStatusCondition, Slice.toList] at hfind
    | some l =>
      simp only [Slice.toList, Option.getD_some, Option.map_some']
      exact updateFirstOfType_others now newCondition l

/-- The condition stored by the builder is found as the first condition of its type. -/
theorem NewConditionSetIn_find (now : Int) (conditionType status reason : String)
    (observedGeneration : Int) (message : String) (conditions : Slice Condition) :
    ∃ c, FindStatusCondition
        (NewConditionSetIn now conditionType status reason observedGeneration message
          conditions).toList conditionType = some c ∧
      c.Type_ = conditionType ∧ c.Status = status ∧ c.Reason = reason ∧
      c.Message = message ∧ c.ObservedGeneration = observedGeneration :=
  SetStatusCondition_find now conditions
    { Type_ := conditionType, Status := status, Reason := reason,
      ObservedGeneration := observedGeneration, Message := message,
      LastTransitionTime := now }

/-- The number of conditions of a type is the number of occurrences of the type among the
types of the conditions. -/
theorem filter_type_length (conditions : List Condition) (conditionType : String) :
    (conditions.filter fun c => decide (c.Type_ = conditionType)).length =
      (conditions.map fun c => c.Type_).count conditionType := by
  induction conditions with
  | nil => rfl
  | cons c rest ih =>
    by_cases h : c.Type_ = conditionType
    · simp [List.filter_cons, h, ih]
    · simp [List.filter_cons, List.count_cons, h, ih]

/-- The builder applied to conditions with at most one condition per type leaves exactly
one condition of its type and the conditions of the other types as they were. -/
theorem NewConditionSetIn_keeps (now : Int) (status reason : String)
    (observedGeneration : Int) (message : String) (conditions : Slice Condition)
    (hnodup : (conditions.toList.map fun c => c.Type_).Nodup) :
    KeepsConditions conditions.toList
      (NewConditionSetIn now GatewayConditionProgrammed status reason observedGeneration
        message conditions).toList := by
  unfold KeepsConditions NewConditionSetIn
  refine ⟨?_, SetStatusCondition_others now conditions
    { Type_ := GatewayConditionProgrammed, Status := status, Reason := reason,
      ObservedGeneration := observedGeneration, Message := message,
      LastTransitionTime := now }⟩
  rw [filter_type_length, SetStatusCondition_types]
  split
  · rename_i hmem
    exact List.count_eq_one_of_mem hnodup hmem
  · rename_i hnot
    rw [List.count_append, List.count_eq_zero_of_not_mem hnot]
    simp

/-! ## Delete and Update -/

/-- Every listener entry that leaves the loop of `Delete` has the `Programmed` condition
of a deleted virtual service. -/
theorem Delete.deleteListeners_programmed (env : StatusEnv) (gw : Gateway) (i : Nat)
    (ls : List ListenerStatus) :
    ∀ l ∈ Delete.listeners env gw i ls,
      ∃ c, FindStatusCondition l.Conditions.toList GatewayConditionProgrammed = some c ∧
        IsProgrammedCondition c ConditionUnknown GatewayReasonPending
          "Virtual service has been deleted" gw.Generation := by
  induction ls generalizing i with
  | nil => simp [Delete.listeners]
  | cons l rest ih =>
    intro l' hl'
    simp only [Delete.listeners, List.mem_cons] at hl'
    rcases hl' with h | h
    · subst h
      exact NewConditionSetIn_find _ _ _ _ _ _ _
    · exact ih (i + 1) l' h

/-- Every listener entry that leaves the loop of `Update` has the `Programmed` condition
of a configured virtual service. -/
theorem Update.updateListeners_programmed (env : StatusEnv) (gw : Gateway) (i : Nat)
    (ls : List ListenerStatus) :
    ∀ l ∈ Update.listeners env gw i ls,
      ∃ c, FindStatusCondition l.Conditions.toList GatewayConditionProgrammed = some c ∧
        IsProgrammedCondition c ConditionTrue GatewayReasonProgrammed
          "Virtual service configured/updated" gw.Generation := by
  induction ls generalizing i with
  | nil => simp [Update.listeners]
  | cons l rest ih =>
    intro l' hl'
    simp only [Update.listeners, List.mem_cons] at hl'
    rcases hl' with h | h
    · subst h
      exact NewConditionSetIn_find _ _ _ _ _ _ _
    · exact ih (i + 1) l' h

/-- The loop of `Delete` keeps the listener entries, in number and order, and the
condition set of each. -/
theorem Delete.deleteListeners_keeps (env : StatusEnv) (gw : Gateway) (i : Nat)
    (ls : List ListenerStatus)
    (hnodup : ∀ l ∈ ls, (l.Conditions.toList.map fun c => c.Type_).Nodup) :
    List.Forall₂
      (fun l l' => l'.Name = l.Name ∧ l'.SupportedKinds = l.SupportedKinds ∧
        l'.AttachedRoutes = l.AttachedRoutes ∧
        KeepsConditions l.Conditions.toList l'.Conditions.toList)
      ls (Delete.listeners env gw i ls) := by
  induction ls generalizing i with
  | nil => exact List.Forall₂.nil
  | cons l rest ih =>
    refine List.Forall₂.cons ⟨rfl, rfl, rfl, ?_⟩
      (ih (i + 1) fun l' hl' => hnodup l' (List.mem_cons_of_mem _ hl'))
    exact NewConditionSetIn_keeps _ _ _ _ _ _ (hnodup l (List.mem_cons_self _ _))

/-- The loop of `Update` keeps the listener entries, in number and order, and the
condition set of each. -/
theorem Update.updateListeners_keeps (env : StatusEnv) (gw : Gateway) (i : Nat)
    (ls : List ListenerStatus)
    (hnodup : ∀ l ∈ ls, (l.Conditions.toList.map fun c => c.Type_).Nodup) :
    List.Forall₂
      (fun l l' => l'.Name = l.Name ∧ l'.SupportedKinds = l.SupportedKinds ∧
        l'.AttachedRoutes = l.AttachedRoutes ∧
        KeepsConditions l.Conditions.toList l'.Conditions.toList)
      ls (Update.listeners env gw i ls) := by
  induction ls generalizing i with
  | nil => exact List.Forall₂.nil
  | cons l rest ih =>
    refine List.Forall₂.cons ⟨rfl, rfl, rfl, ?_⟩
      (ih (i + 1) fun l' hl' => hnodup l' (List.mem_cons_of_mem _ hl'))
    exact NewConditionSetIn_keeps _ _ _ _ _ _ (hnodup l (List.mem_cons_self _ _))

/-- The elements of a slice after a function has been applied to its list. -/
theorem Slice.toList_map {α : Type} (f : List α → List α) (s : Slice α) (hf : f [] = []) :
    Slice.toList (s.map f) = f s.toList := by
  cases s with
  | none => simp [Slice.toList, hf]
  | some l => simp [Slice.toList]

/-- C15: for a gateway that can be fetched and whose stored status has a first address
with a non-empty value, `Delete` hands to `Patch` a desired status without addresses whose
`Programmed` condition, at object level and in every listener entry, has status
`Unknown`, reason `Pending`, message "Virtual service has been deleted" and the
generation of the gateway as observed generation. -/
theorem Delete_desired_status (env : StatusEnv) (key : String) (option : StatusOptions)
    (gw : Gateway) (a : GatewayStatusAddress) (rest : List GatewayStatusAddress)
    (hget : Get env key option = some gw)
    (haddr : gw.Status.Addresses.toList = a :: rest) (hval : a.Value ≠ "") :
    Delete env key option = Patch env key gw (Delete.status env gw) [] ∧
    (Delete.status env gw).Addresses.toList = [] ∧
    (∃ c, FindStatusCondition (Delete.status env gw).Conditions.toList
        GatewayConditionProgrammed = some c ∧
      IsProgrammedCondition c ConditionUnknown GatewayReasonPending
        "Virtual service has been deleted" gw.Generation) ∧
    ∀ l ∈ (Delete.status env gw).Listeners.toList,
      ∃ c, FindStatusCondition l.Conditions.toList GatewayConditionProgrammed = some c ∧
        IsProgrammedCondition c ConditionUnknown GatewayReasonPending
          "Virtual service has been deleted" gw.Generation := by
  refine ⟨?_, rfl, NewConditionSetIn_find _ _ _ _ _ _ _, ?_⟩
  · simp [Delete, hget, haddr, hval]
  · intro l hl
    simp only [Delete.status] at hl
    rw [Slice.toList_map _ _ (by simp [Delete.listeners])] at hl
    exact Delete.deleteListeners_programmed env gw 0 _ l hl

/-- C16: `Delete` makes no call to the store when the gateway cannot be fetched, when its
stored status has no address, and when its first stored address has an empty value. -/
theorem Delete_no_call (env : StatusEnv) (key : String) (option : StatusOptions) :
    (Get env key option = none → Delete env key option = []) ∧
    (∀ gw, Get env key option = some gw → gw.Status.Addresses.toList = [] →
      Delete env key option = []) ∧
    (∀ gw a rest, Get env key option = some gw → gw.Status.Addresses.toList = a :: rest →
      a.Value = "" → Delete env key option = []) := by
  refine ⟨?_, ?_, ?_⟩
  · intro hget
    simp [Delete, hget]
  · intro gw hget haddr
    simp [Delete, hget, haddr]
  · intro gw a rest hget haddr hval
    simp [Delete, hget, haddr, hval]

/-- C17: for a gateway that can be fetched and an option whose first VIP is `vip`,
`Update` hands to `Patch` a desired status that contains the address of type `IPAddress`
with value `vip` and whose `Programmed` condition, at object level and in every listener
entry, has status `True`, reason `Programmed`, message "Virtual service
configured/updated" and the generation of the gateway as observed generation. -/
theorem Update_desired_status (env : StatusEnv) (key : String) (option : StatusOptions)
    (gw : Gateway) (vip : String) (rest : List String)
    (hget : Get env key option = some gw) (hvip : option.Options.Vip = vip :: rest) :
    Update env key option =
      { events := Patch env key gw (Update.status env gw vip) [], faulted := false } ∧
    { Type_ := some IPAddressType, Value := vip } ∈
      (Update.status env gw vip).Addresses.toList ∧
    (∃ c, FindStatusCondition (Update.status env gw vip).Conditions.toList
        GatewayConditionProgrammed = some c ∧
      IsProgrammedCondition c ConditionTrue GatewayReasonProgrammed
        "Virtual service configured/updated" gw.Generation) ∧
    ∀ l ∈ (Update.status env gw vip).Listeners.toList,
      ∃ c, FindStatusCondition l.Conditions.toList GatewayConditionProgrammed = some c ∧
        IsProgrammedCondition c ConditionTrue GatewayReasonProgrammed
          "Virtual service configured/updated" gw.Generation := by
  refine ⟨?_, ?_, NewConditionSetIn_find _ _ _ _ _ _ _, ?_⟩
  · simp [Update, hget, hvip]
  · simp [Update.status, Slice.append, Slice.toList]
  · intro l hl
    simp only [Update.status] at hl
    rw [Slice.toList_map _ _ (by simp [Update.listeners])] at hl
    exact Update.updateListeners_programmed env gw 0 _ l hl

/-- C18: when the stored status of a gateway has at most one condition of each type at
object level and in every listener entry, the desired statuses that `Update` and `Delete`
compute have exactly one `Programmed` condition at object level and in every listener
entry, the same listener entries in number and order, and the conditions of the other
types carried over unchanged. -/
theorem Update_Delete_keep_condition_set (env : StatusEnv) (gw : Gateway) (vip : String)
    (hnodup : (gw.Status.Conditions.toList.map fun c => c.Type_).Nodup)
    (hlisteners : ∀ l ∈ gw.Status.Listeners.toList,
      (l.Conditions.toList.map fun c => c.Type_).Nodup) :
    KeepsConditionSet gw.Status (Update.status env gw vip) ∧
    KeepsConditionSet gw.Status (Delete.status env gw) := by
  constructor
  · refine ⟨NewConditionSetIn_keeps _ _ _ _ _ _ hnodup, ?_⟩
    simp only [Update.status]
    rw [Slice.toList_map _ _ (by simp [Update.listeners])]
    exact Update.updateListeners_keeps env gw 0 _ hlisteners
  · refine ⟨NewConditionSetIn_keeps _ _ _ _ _ _ hnodup, ?_⟩
    simp only [Delete.status]
    rw [Slice.toList_map _ _ (by simp [Delete.listeners])]
    exact Delete.deleteListeners_keeps env gw 0 _ hlisteners

/-- A witness of `Delete_desired_status`: for `exampleStoredGateway` (generation 3, address
`10.0.0.1`) the desired status has no address and a `Programmed` condition with status
`Unknown` and observed generation 3. -/
theorem Delete_desired_status_witness :
    (Delete.status exampleStatusEnv exampleStoredGateway).Addresses.toList = [] ∧
    ∃ c, FindStatusCondition (Delete.status exampleStatusEnv exampleStoredGateway).Conditions.toList
        GatewayConditionProgrammed = some c ∧
      IsProgrammedCondition c ConditionUnknown GatewayReasonPending
        "Virtual service has been deleted" 3 :=
  have h := Delete_desired_status exampleStatusEnv "k" exampleOption exampleStoredGateway
    { Type_ := some "IPAddress", Value := "10.0.0.1" } [] (by decide) (by decide) (by decide)
  ⟨h.2.1, h.2.2.1⟩

/-- A witness of `Delete_no_call`: an option with a malformed gateway name, and an option
for `exampleForeignGateway`, whose status has no address, cause no call. -/
theorem Delete_no_call_witness :
    Delete exampleStatusEnv "k" exampleOptionBadName = [] ∧
    Delete exampleStatusEnv "k" exampleOptionForeign = [] :=
  ⟨(Delete_no_call exampleStatusEnv "k" exampleOptionBadName).1 (by decide),
    (Delete_no_call exampleStatusEnv "k" exampleOptionForeign).2.1 exampleForeignGateway
      (by decide) (by decide)⟩

/-- A witness of `Update_desired_status`: for `exampleStoredGateway` and the VIP `10.0.0.1`
the desired status contains the address and a `Programmed` condition with status `True`
and observed generation 3. -/
theorem Update_desired_status_witness :
    { Type_ := some IPAddressType, Value := "10.0.0.1" } ∈
      (Update.status exampleStatusEnv exampleStoredGateway "10.0.0.1").Addresses.toList ∧
    ∃ c, FindStatusCondition
        (Update.status exampleStatusEnv exampleStoredGateway "10.0.0.1").Conditions.toList
        GatewayConditionProgrammed = some c ∧
      IsProgrammedCondition c ConditionTrue GatewayReasonProgrammed
        "Virtual service configured/updated" 3 :=
  have h := Update_desired_status exampleStatusEnv "k" exampleOption exampleStoredGateway
    "10.0.0.1" [] (by decide) (by decide)
  ⟨h.2.1, h.2.2.1⟩

/-- A witness of `Update_Delete_keep_condition_set`: the stored status of
`exampleStoredGateway` has one condition per type, so both desired statuses keep the
condition set. -/
theorem Update_Delete_keep_condition_set_witness :
    KeepsConditionSet exampleStoredGateway.Status
        (Update.status exampleStatusEnv exampleStoredGateway "10.0.0.1") ∧
    KeepsConditionSet exampleStoredGateway.Status
        (Delete.status exampleStatusEnv exampleStoredGateway) :=
  Update_Delete_keep_condition_set exampleStatusEnv exampleStoredGateway "10.0.0.1"
    (by decide) (by decide)

/-! ## GetAll and BulkUpdate -/

/-- The first loop of `GetAll`: a class name is in the set after the loop when it was in
it before or belongs to a listed class of this controller. -/
theorem GetAll.classes_isSome (env : StatusEnv) (classes : List GatewayClass)
    (acc : GoMap Unit) (n : String) :
    (GetAll.classes env classes acc n).isSome =
      ((acc n).isSome ||
        classes.any fun c => decide (c.ControllerName = env.GatewayController ∧ c.Name = n)) := by
  induction classes generalizing acc with
  | nil => simp [GetAll.classes]
  | cons c rest ih =>
    unfold GetAll.classes
    by_cases hc : c.ControllerName = env.GatewayController
    · rw [if_pos hc, ih]
      by_cases hn : n = c.Name
      · subst hn
        simp [GoMap.set, hc]
      · have hn' : ¬ c.Name = n := fun e => hn e.symm
        simp [GoMap.set, hn, hn', hc]
    · rw [if_neg hc, ih]
      simp [hc]

/-- The second loop of `GetAll`: a key maps to the last listed gateway of an owned class
that has the key, and to what it mapped to before when there is none. -/
theorem GetAll.gateways_eq (owned : GoMap Unit) (gws : List Gateway) (acc : GoMap Gateway)
    (k : String) :
    GetAll.gateways owned gws acc k =
      match (gws.filter fun g => (owned g.Spec.GatewayClassName).isSome).reverse.find?
          (fun g => decide (gatewayKey g = k)) with
      | some g => some g
      | none => acc k := by
  induction gws generalizing acc with
  | nil => simp [GetAll.gateways]
  | cons g rest ih =>
    unfold GetAll.gateways
    cases ho : owned g.Spec.GatewayClassName with
    | none =>
      simp only [ih, List.filter_cons, ho, Option.isSome_none, Bool.false_eq_true, if_false]
    | some u =>
      simp only [ih, List.filter_cons, ho, Option.isSome_some, if_true, List.reverse_cons,
        List.find?_append]
      cases hfind : (rest.filter fun g => (owned g.Spec.GatewayClassName).isSome).reverse.find?
          (fun g => decide (gatewayKey g = k)) with
      | some g' => simp
      | none =>
        by_cases hk : gatewayKey g = k
        · simp [GoMap.set, gatewayKey, hk.symm]
        · have hk' : ¬ k = g.Namespace ++ "/" ++ g.Name := fun e => hk (by rw [e, gatewayKey])
          simp [GoMap.set, hk, hk']

/-- The map of `GetAll` when both lists are returned. -/
theorem GetAll_eq (env : StatusEnv) (key : String) (classes : List GatewayClass)
    (gws : List Gateway) (hc : env.gatewayClassList = some classes)
    (hg : env.gatewayList = some gws) (k : String) :
    GetAll env key k =
      (gws.filter (ownedByController env classes)).reverse.find?
        (fun g => decide (gatewayKey g = k)) := by
  unfold GetAll
  rw [hc]
  by_cases hlen : classes.length = 0
  · have hnil : classes = [] := List.length_eq_zero.mp hlen
    subst hnil
    have hnone : gws.filter (ownedByController env []) = [] :=
      List.filter_eq_nil_iff.mpr fun g _ => by simp [ownedByController]
    simp [GoMap.empty, hnone]
  · simp only [hlen, if_false, hg, GetAll.gateways_eq]
    have hfilter : (gws.filter fun g =>
          (GetAll.classes env classes GoMap.empty g.Spec.GatewayClassName).isSome) =
        gws.filter (ownedByController env classes) := by
      apply List.filter_congr
      intro g _
      rw [GetAll.classes_isSome]
      simp [GoMap.empty, ownedByController]
    rw [hfilter]
    cases (gws.filter (ownedByController env classes)).reverse.find?
        (fun g => decide (gatewayKey g = k)) with
    | some g => rfl
    | none => rfl

/-- The loop of `BulkUpdate` passes over an option whose gateway is not in the map. -/
theorem BulkUpdate.options_skip (env : StatusEnv) (key : String) (gwMap : GoMap Gateway)
    (pre post : List StatusOptions) (o : StatusOptions) (run : StatusRun)
    (h : gwMap o.Options.ServiceMetadata.Gateway = none) :
    BulkUpdate.options env key gwMap (pre ++ o :: post) run =
      BulkUpdate.options env key gwMap (pre ++ post) run := by
  induction pre generalizing run with
  | nil => simp [BulkUpdate.options, h]
  | cons p rest ih =>
    simp only [List.cons_append, BulkUpdate.options]
    cases gwMap p.Options.ServiceMetadata.Gateway with
    | none => exact ih run
    | some gw =>
      cases p.Options.Vip.head? with
      | none => rfl
      | some vip => exact ih _

/-- C20: when the listers return the gateway classes `classes` and the gateways `gws`,
the map of `GetAll` holds exactly the listed gateways whose class is a listed class of
this controller, each under the key `namespace/name` (the last listed one when several
share a key), and nothing when no class is listed; and `BulkUpdate` passes over an option
whose gateway is not in that map without making a call. -/
theorem GetAll_owned_gateways (env : StatusEnv) (key : String)
    (classes : List GatewayClass) (gws : List Gateway)
    (hc : env.gatewayClassList = some classes) (hg : env.gatewayList = some gws) :
    (∀ k, GetAll env key k =
      (gws.filter (ownedByController env classes)).reverse.find?
        (fun g => decide (gatewayKey g = k))) ∧
    (∀ k gw, GetAll env key k = some gw →
      gw ∈ gws ∧ gatewayKey gw = k ∧
      ∃ c ∈ classes, c.ControllerName = env.GatewayController ∧
        c.Name = gw.Spec.GatewayClassName) ∧
    (∀ gw ∈ gws,
      (∃ c ∈ classes, c.ControllerName = env.GatewayController ∧
        c.Name = gw.Spec.GatewayClassName) →
      ∃ gw', GetAll env key (gatewayKey gw) = some gw' ∧ gatewayKey gw' = gatewayKey gw) ∧
    (classes = [] → ∀ k, GetAll env key k = none) ∧
    (∀ pre post o, GetAll env key o.Options.ServiceMetadata.Gateway = none →
      BulkUpdate env key (pre ++ o :: post) = BulkUpdate env key (pre ++ post)) := by
  have heq := GetAll_eq env key classes gws hc hg
  refine ⟨heq, ?_, ?_, ?_, ?_⟩
  · intro k gw hk
    rw [heq] at hk
    have hmem := List.mem_of_find?_eq_some hk
    have hkey := List.find?_some hk
    rw [List.mem_reverse, List.mem_filter] at hmem
    refine ⟨hmem.1, by simpa using hkey, ?_⟩
    have howned := hmem.2
    simp only [ownedByController, List.any_eq_true, decide_eq_true_eq] at howned
    exact howned
  · intro gw hgw hown
    have hmem : gw ∈ (gws.filter (ownedByController env classes)).reverse := by
      rw [List.mem_reverse, List.mem_filter]
      refine ⟨hgw, ?_⟩
      simp only [ownedByController, List.any_eq_true, decide_eq_true_eq]
      exact hown
    cases hfind : (gws.filter (ownedByController env classes)).reverse.find?
        (fun g => decide (gatewayKey g = gatewayKey gw)) with
    | none =>
      have := List.find?_eq_none.mp hfind gw hmem
      simp at this
    | some gw' =>
      refine ⟨gw', by rw [heq, hfind], ?_⟩
      simpa using List.find?_some hfind
  · intro hnil k
    subst hnil
    rw [heq]
    have hnone : gws.filter (ownedByController env []) = [] :=
      List.filter_eq_nil_iff.mpr fun g _ => by simp [ownedByController]
    simp [hnone]
  · intro pre post o ho
    unfold BulkUpdate
    exact BulkUpdate.options_skip env key _ pre post o {} ho

/-- A witness of `GetAll_owned_gateways`: with `exampleStatusEnv` the map holds
`exampleStoredGateway` under `default/gw` and nothing under `default/foreign`, whose class
belongs to another controller, and `BulkUpdate` makes no call for that gateway. -/
theorem GetAll_owned_gateways_witness :
    GetAll exampleStatusEnv "k" "default/gw" = some exampleStoredGateway ∧
    GetAll exampleStatusEnv "k" "default/foreign" = none ∧
    BulkUpdate exampleStatusEnv "k" [exampleOptionForeign] = {} := by
  have h := GetAll_owned_gateways exampleStatusEnv "k" _ _ rfl rfl
  refine ⟨by rw [h.1]; decide, by rw [h.1]; decide, ?_⟩
  have hskip := h.2.2.2.2 [] [] exampleOptionForeign (by rw [h.1]; decide)
  simp only [List.nil_append] at hskip
  rw [hskip]
  decide

/-- C19 (as amended): for a gateway `gw` of the map of `GetAll` and an option whose first
VIP is `vip`, `BulkUpdate` hands to `Patch` a status built from scratch: its only address
is the address of type `IPAddress` with value `vip`, which is the address that `Update`
appends to the stored ones; its only condition is a `Programmed` condition with status
`True`, reason `Programmed` and message "Virtual service configured/updated", as the
`Programmed` condition of the status that `Update` computes; and it has no listener
entries. -/
theorem BulkUpdate_desired_status (env : StatusEnv) (key : String) (option : StatusOptions)
    (gw : Gateway) (vip : String) (rest : List String)
    (hmap : GetAll env key option.Options.ServiceMetadata.Gateway = some gw)
    (hvip : option.Options.Vip = vip :: rest) :
    BulkUpdate env key [option] =
      { events := Patch env key gw (BulkUpdate.status env gw vip) [], faulted := false } ∧
    (BulkUpdate.status env gw vip).Addresses =
      some [{ Type_ := some IPAddressType, Value := vip }] ∧
    (Update.status env gw vip).Addresses.toList.getLast? =
      some { Type_ := some IPAddressType, Value := vip } ∧
    (BulkUpdate.status env gw vip).Listeners = none ∧
    (∃ c, (BulkUpdate.status env gw vip).Conditions = some [c] ∧
      c.Type_ = GatewayConditionProgrammed ∧ c.Status = ConditionTrue ∧
      c.Reason = GatewayReasonProgrammed ∧
      c.Message = "Virtual service configured/updated") ∧
    (∃ c, FindStatusCondition (Update.status env gw vip).Conditions.toList
        GatewayConditionProgrammed = some c ∧
      c.Type_ = GatewayConditionProgrammed ∧ c.Status = ConditionTrue ∧
      c.Reason = GatewayReasonProgrammed ∧
      c.Message = "Virtual service configured/updated") := by
  refine ⟨?_, rfl, ?_, rfl, ?_, ?_⟩
  · simp [BulkUpdate, BulkUpdate.options, hmap, hvip]
  · simp [Update.status, Slice.append, Slice.toList]
  · refine ⟨{ Type_ := GatewayConditionProgrammed, Status := ConditionTrue,
              ObservedGeneration := gw.Generation + 1, LastTransitionTime := env.Now 0,
              Reason := GatewayReasonProgrammed,
              Message := "Virtual service configured/updated" },
      ?_, rfl, rfl, rfl, rfl⟩
    simp [BulkUpdate.status, SetStatusCondition, FindStatusCondition, Slice.toList,
      Slice.append]
  · obtain ⟨c, hfind, htype, hstatus, hreason, hmessage, -⟩ :=
      NewConditionSetIn_find (env.Now 0) GatewayConditionProgrammed ConditionTrue
        GatewayReasonProgrammed gw.Generation "Virtual service configured/updated"
        gw.Status.Conditions
    exact ⟨c, hfind, htype, hstatus, hreason, hmessage⟩

/-- A witness of `BulkUpdate_desired_status`: for `exampleStoredGateway` and the VIP
`10.0.0.1` the status that `BulkUpdate` patches has the single address `10.0.0.1` and no
listener entries. -/
theorem BulkUpdate_desired_status_witness :
    (BulkUpdate.status exampleStatusEnv exampleStoredGateway "10.0.0.1").Addresses =
      some [{ Type_ := some IPAddressType, Value := "10.0.0.1" }] ∧
    (BulkUpdate.status exampleStatusEnv exampleStoredGateway "10.0.0.1").Listeners = none :=
  have h := BulkUpdate_desired_status exampleStatusEnv "k" exampleOption exampleStoredGateway
    "10.0.0.1" [] (by decide) (by decide)
  ⟨h.2.1, h.2.2.2.1⟩

/-- A first call of `Patch` that finds the stored status different from the desired one
and whose patch call succeeds makes that one call. -/
theorem Patch_single_call (env : StatusEnv) (key : String) (gw : Gateway)
    (status : GatewayStatus)
    (hne : withoutTransitionTimes gw.Status ≠ withoutTransitionTimes status)
    (hok : env.patchFails 0 = false) :
    Patch env key gw status [] = [.patch gw.Namespace gw.Name status] := by
  rw [Patch_eq]
  have hnot : ¬ (([] : List Int).length > 0 ∧ ([] : List Int).headD 0 ≥ 5) := by simp
  have hneq : ¬ isStatusEqual (env.Now (([] : List Int).headD 0).toNat) gw.Status status
      = true := fun h => hne ((isStatusEqual_iff _ _ _).mp h)
  rw [if_neg hnot, if_neg hneq]
  simp [hok]

/-- C19 (counterexample): for the same stored gateway `exampleStoredGateway` and the same
option, `Update` patches the stored addresses with `10.0.0.1` appended, the stored
`Accepted` condition with a `Programmed` condition of observed generation 3, and the
listener entry with its conditions, whereas `BulkUpdate` patches the single address, the
single `Programmed` condition of observed generation 4, and no listener entry. -/
theorem BulkUpdate_status_differs_from_Update :
    Get exampleStatusEnv "k" exampleOption = some exampleStoredGateway ∧
    GetAll exampleStatusEnv "k" exampleOption.Options.ServiceMetadata.Gateway =
      some exampleStoredGateway ∧
    Update exampleStatusEnv "k" exampleOption =
      { events := [.patch "default" "gw"
          (Update.status exampleStatusEnv exampleStoredGateway "10.0.0.1")] } ∧
    BulkUpdate exampleStatusEnv "k" [exampleOption] =
      { events := [.patch "default" "gw"
          (BulkUpdate.status exampleStatusEnv exampleStoredGateway "10.0.0.1")] } ∧
    Update.status exampleStatusEnv exampleStoredGateway "10.0.0.1" ≠
      BulkUpdate.status exampleStatusEnv exampleStoredGateway "10.0.0.1" ∧
    ((Update.status exampleStatusEnv exampleStoredGateway "10.0.0.1").Addresses.toList.map
        fun a => a.Value) = ["10.0.0.1", "10.0.0.1"] ∧
    ((BulkUpdate.status exampleStatusEnv exampleStoredGateway "10.0.0.1").Addresses.toList.map
        fun a => a.Value) = ["10.0.0.1"] ∧
    ((Update.status exampleStatusEnv exampleStoredGateway "10.0.0.1").Conditions.toList.map
        fun c => (c.Type_, c.ObservedGeneration)) = [("Accepted", 3), ("Programmed", 3)] ∧
    ((BulkUpdate.status exampleStatusEnv exampleStoredGateway "10.0.0.1").Conditions.toList.map
        fun c => (c.Type_, c.ObservedGeneration)) = [("Programmed", 4)] ∧
    ((Update.status exampleStatusEnv exampleStoredGateway "10.0.0.1").Listeners.toList.map
        fun l => (l.Name, l.Conditions.toList.map fun c => c.Type_)) =
      [("https", ["Accepted", "Programmed"])] ∧
    (BulkUpdate.status exampleStatusEnv exampleStoredGateway "10.0.0.1").Listeners.toList
      = [] := by
  have hget : Get exampleStatusEnv "k" exampleOption = some exampleStoredGateway := by decide
  have hmap : GetAll exampleStatusEnv "k" exampleOption.Options.ServiceMetadata.Gateway =
      some exampleStoredGateway := by decide
  refine ⟨hget, hmap, ?_, ?_, by decide, by decide, by decide, by decide, by decide,
    by decide, by decide⟩
  · have hp := Patch_single_call exampleStatusEnv "k" exampleStoredGateway
      (Update.status exampleStatusEnv exampleStoredGateway "10.0.0.1") (by decide) rfl
    simp only [Update, hget]
    rw [show exampleOption.Options.Vip.head? = some "10.0.0.1" from rfl]
    simp only [hp]
    rfl
  · have hp := Patch_single_call exampleStatusEnv "k" exampleStoredGateway
      (BulkUpdate.status exampleStatusEnv exampleStoredGateway "10.0.0.1") (by decide) rfl
    simp only [BulkUpdate, BulkUpdate.options, hmap]
    rw [show exampleOption.Options.Vip.head? = some "10.0.0.1" from rfl]
    simp only [hp]
    rfl

/-! # Theorems on determinism, placement and the incremental passes -/

/-! ## BuildGatewayParent -/

/-- The loop body of the full build reads the secret client only at the lookup of its
reference, and its result does not depend on the logging key. -/
theorem BuildTLSNodesForGateway.certRef_congr (cfg : Config) (cs cs' : SecretClient)
    (gateway : Gateway) (key key' : String) (l : Listener) (r : SecretObjectReference)
    (st : TLSBuild)
    (h : cs (resolutionNamespace gateway r) r.Name =
      cs' (resolutionNamespace gateway r) r.Name) :
    BuildTLSNodesForGateway.certRef cfg cs gateway key l r st =
      BuildTLSNodesForGateway.certRef cfg cs' gateway key' l r st := by
  have hres : resolveCertRef cs gateway r = resolveCertRef cs' gateway r := by
    unfold resolveCertRef
    simp only [h]
  rw [BuildTLSNodesForGateway.certRef_eq, BuildTLSNodesForGateway.certRef_eq, hres]
  rfl

/-- The inner loop of the full build under two clients that agree on its lookups. -/
theorem BuildTLSNodesForGateway.certRefs_congr (cfg : Config) (cs cs' : SecretClient)
    (gateway : Gateway) (key key' : String) (l : Listener) (rs : List SecretObjectReference)
    (st : TLSBuild)
    (h : ∀ r ∈ rs, cs (resolutionNamespace gateway r) r.Name =
      cs' (resolutionNamespace gateway r) r.Name) :
    BuildTLSNodesForGateway.certRefs cfg cs gateway key l rs st =
      BuildTLSNodesForGateway.certRefs cfg cs' gateway key' l rs st := by
  induction rs generalizing st with
  | nil => rfl
  | cons r rest ih =>
    rw [BuildTLSNodesForGateway.certRefs, BuildTLSNodesForGateway.certRefs,
      BuildTLSNodesForGateway.certRef_congr cfg cs cs' gateway key key' l r st
        (h r (List.mem_cons_self _ _)),
      ih _ fun r' hr' => h r' (List.mem_cons_of_mem _ hr')]

/-- The outer loop of the full build under two clients that agree on its lookups. -/
theorem BuildTLSNodesForGateway.listeners_congr (cfg : Config) (cs cs' : SecretClient)
    (gateway : Gateway) (key key' : String) (ls : List Listener) (st : TLSBuild)
    (h : ∀ p ∈ certRefWalk ls, cs (resolutionNamespace gateway p.2) p.2.Name =
      cs' (resolutionNamespace gateway p.2) p.2.Name) :
    BuildTLSNodesForGateway.listeners cfg cs gateway key ls st =
      BuildTLSNodesForGateway.listeners cfg cs' gateway key' ls st := by
  induction ls generalizing st with
  | nil => rfl
  | cons l rest ih =>
    have hrest : ∀ p ∈ certRefWalk rest, cs (resolutionNamespace gateway p.2) p.2.Name =
        cs' (resolutionNamespace gateway p.2) p.2.Name := by
      intro p hp
      apply h p
      simp only [certRefWalk, List.flatMap_cons, List.mem_append]
      exact Or.inr hp
    rw [BuildTLSNodesForGateway.listeners, BuildTLSNodesForGateway.listeners]
    cases hT : l.TLS with
    | none => simp only [ih _ hrest]
    | some tls =>
      have hl : ∀ r ∈ tls.CertificateRefs, cs (resolutionNamespace gateway r) r.Name =
          cs' (resolutionNamespace gateway r) r.Name := by
        intro r hr
        apply h (l, r)
        simp only [certRefWalk, List.flatMap_cons, List.mem_append, hT]
        exact Or.inl (List.mem_map.mpr ⟨r, hr, rfl⟩)
      simp only [BuildTLSNodesForGateway.certRefs_congr cfg cs cs' gateway key key' l _ st hl,
        ih _ hrest]

/-- The inner loop of the full build ends faulted when one of its references resolves
while the listener has no hostname. -/
theorem BuildTLSNodesForGateway.certRefs_faulted (cfg : Config) (cs : SecretClient)
    (gateway : Gateway) (key : String) (l : Listener) (rs : List SecretObjectReference)
    (st : TLSBuild)
    (h : st.faulted = true ∨
      ∃ r ∈ rs, (resolveCertRef cs gateway r).isSome = true ∧ l.Hostname = none) :
    (BuildTLSNodesForGateway.certRefs cfg cs gateway key l rs st).faulted = true := by
  induction rs generalizing st with
  | nil =>
    rcases h with h | ⟨r, hr, _⟩
    · exact h
    · cases hr
  | cons r rest ih =>
    rw [BuildTLSNodesForGateway.certRefs]
    by_cases hf : (BuildTLSNodesForGateway.certRef cfg cs gateway key l r st).faulted = true
    · simp only [hf, if_true]
    · simp only [hf, Bool.false_eq_true, if_false]
      apply ih
      rw [BuildTLSNodesForGateway.certRef_eq] at hf
      simp only [Bool.or_eq_true, Bool.and_eq_true, Option.isNone_iff_eq_none, not_or,
        not_and] at hf
      rcases h with h | ⟨r', hr', hres, hh⟩
      · exact absurd h hf.1
      · rcases List.mem_cons.mp hr' with rfl | hmem
        · exact absurd hh (hf.2 hres)
        · exact Or.inr ⟨r', hmem, hres, hh⟩

/-- The outer loop of the full build ends faulted when a resolving reference belongs to
a listener without hostname. -/
theorem BuildTLSNodesForGateway.listeners_faulted (cfg : Config) (cs : SecretClient)
    (gateway : Gateway) (key : String) (ls : List Listener) (st : TLSBuild)
    (h : st.faulted = true ∨
      ∃ p ∈ certRefWalk ls, (resolveCertRef cs gateway p.2).isSome = true ∧
        p.1.Hostname = none) :
    (BuildTLSNodesForGateway.listeners cfg cs gateway key ls st).faulted = true := by
  induction ls generalizing st with
  | nil =>
    rcases h with h | ⟨p, hp, _⟩
    · exact h
    · simp [certRefWalk] at hp
  | cons l rest ih =>
    rw [BuildTLSNodesForGateway.listeners]
    cases hT : l.TLS with
    | none =>
      simp only []
      by_cases hf : st.faulted = true
      · simp only [hf, if_true]
      · simp only [hf, Bool.false_eq_true, if_false]
        apply ih
        rcases h with h | ⟨p, hp, hres, hh⟩
        · exact absurd h hf
        · refine Or.inr ⟨p, ?_, hres, hh⟩
          simpa [certRefWalk, hT] using hp
    | some tls =>
      simp only []
      by_cases hf : (BuildTLSNodesForGateway.certRefs cfg cs gateway key l
          tls.CertificateRefs st).faulted = true
      · simp only [hf, if_true]
      · simp only [hf, Bool.false_eq_true, if_false]
        apply ih
        rcases h with h | ⟨p, hp, hres, hh⟩
        · exact absurd (BuildTLSNodesForGateway.certRefs_faulted cfg cs gateway key l _ st
            (Or.inl h)) hf
        · simp only [certRefWalk, List.flatMap_cons, List.mem_append, hT, List.mem_map] at hp
          rcases hp with ⟨r, hr, rfl⟩ | hp
          · exact absurd (BuildTLSNodesForGateway.certRefs_faulted cfg cs gateway key l _ st
              (Or.inr ⟨r, hr, hres, hh⟩)) hf
          · exact Or.inr ⟨p, hp, hres, hh⟩

/-- C21: graph construction is deterministic: two runs of `BuildGatewayParent` on the same
gateway with the same configuration and with secret clients that answer the lookups of
the gateway's certificate references alike return the same tree (or fault alike),
whatever the keys they are run under, hence the same value of any checksum of the tree;
and the tree's port/protocol list holds one entry per listener in listener order, its
TLS node list one node per resolving certificate reference in declared order. -/
theorem BuildGatewayParent_deterministic (cfg : Config) (cs cs' : SecretClient)
    (gateway : Gateway) (key key' : String)
    (hsame : ∀ p ∈ certRefWalk gateway.Spec.Listeners,
      cs (resolutionNamespace gateway p.2) p.2.Name =
        cs' (resolutionNamespace gateway p.2) p.2.Name) :
    BuildGatewayParent cfg cs gateway key = BuildGatewayParent cfg cs' gateway key' ∧
    (∀ checksum : AviEvhVsNode → Nat,
      (BuildGatewayParent cfg cs gateway key).map checksum =
        (BuildGatewayParent cfg cs' gateway key').map checksum) ∧
    ∀ tree, BuildGatewayParent cfg cs gateway key = some tree →
      tree.PortProto = gateway.Spec.Listeners.map (fun l =>
        { Port := l.Port, Protocol := l.Protocol,
          EnableSSL :=
            match l.TLS with
            | some tls => decide (tls.CertificateRefs.length > 0)
            | none => false }) ∧
      tree.SSLKeyCertRefs = (certRefWalk gateway.Spec.Listeners).filterMap fun p =>
        (resolveCertRef cs gateway p.2).map fun s =>
          TLSNodeFromSecret cfg s (p.1.Hostname.getD "") p.2.Name key := by
  have heq : BuildGatewayParent cfg cs gateway key =
      BuildGatewayParent cfg cs' gateway key' := by
    unfold BuildGatewayParent BuildTLSNodesForGateway
    rw [BuildTLSNodesForGateway.listeners_congr cfg cs cs' gateway key key' _ _ hsame]
    rfl
  refine ⟨heq, fun checksum => by rw [heq], ?_⟩
  intro tree htree
  have hhost : ∀ p ∈ certRefWalk gateway.Spec.Listeners,
      (resolveCertRef cs gateway p.2).isSome = true → p.1.Hostname ≠ none := by
    intro p hp hres hh
    have hf := BuildTLSNodesForGateway.listeners_faulted cfg cs gateway key
      gateway.Spec.Listeners {} (Or.inr ⟨p, hp, hres, hh⟩)
    simp [BuildGatewayParent, BuildTLSNodesForGateway, hf] at htree
  have hrun := BuildTLSNodesForGateway.listeners_eq cfg cs gateway key
    gateway.Spec.Listeners {} rfl hhost
  simp only [BuildGatewayParent, BuildTLSNodesForGateway, hrun, Bool.false_eq_true, if_false,
    Option.some.injEq] at htree
  subst htree
  constructor
  · simp only [BuildPortProtocols, BuildPortProtocols.loop_eq, List.nil_append]
    split <;> rfl
  · simp only [List.nil_append]
    split
    · rfl
    · rename_i hlen
      simp only [List.nil_append, gt_iff_lt, List.length_pos, ne_eq, not_not] at hlen
      simp only [hlen]

/-- Witness for C21: the example gateway built against two secret clients that differ
only on a secret it does not refer to, under two keys. -/
theorem BuildGatewayParent_deterministic_witness :
    (∀ p ∈ certRefWalk exampleGatewayTLS.Spec.Listeners,
      exampleSecrets (resolutionNamespace exampleGatewayTLS p.2) p.2.Name =
        exampleSecretsMore (resolutionNamespace exampleGatewayTLS p.2) p.2.Name) ∧
    BuildGatewayParent exampleConfig exampleSecrets exampleGatewayTLS "k1" =
      BuildGatewayParent exampleConfig exampleSecretsMore exampleGatewayTLS "k2" ∧
    (BuildGatewayParent exampleConfig exampleSecrets exampleGatewayTLS "k1").map
      (fun tree => tree.SSLKeyCertRefs) = some [exampleNodeAC, exampleNodeBD] := by
  have hsame : ∀ p ∈ certRefWalk exampleGatewayTLS.Spec.Listeners,
      exampleSecrets (resolutionNamespace exampleGatewayTLS p.2) p.2.Name =
        exampleSecretsMore (resolutionNamespace exampleGatewayTLS p.2) p.2.Name := by
    intro p hp
    simp only [certRefWalk, exampleGatewayTLS, List.flatMap_cons, List.flatMap_nil,
      List.map_cons, List.map_nil, List.append_nil, List.cons_append, List.nil_append,
      List.mem_cons, List.mem_singleton, List.not_mem_nil, or_false] at hp
    rcases hp with rfl | rfl | rfl | rfl <;> rfl
  exact ⟨hsame,
    (BuildGatewayParent_deterministic exampleConfig exampleSecrets exampleSecretsMore
      exampleGatewayTLS "k1" "k2" hsame).1, by decide⟩

/-! ## The frame and the range of the incremental passes -/

/-- The graph with another TLS list in its first EVH virtual-service node. -/
theorem setFirstEvhVsCertRefs_split (tlsNodes : List AviTLSKeyCertNode)
    (nodes : List AviModelNode) (vs0 : AviEvhVsNode) (vsRest : List AviEvhVsNode)
    (h : AviObjectGraph.GetAviEvhVS { modelNodes := nodes } = vs0 :: vsRest) :
    ∃ pre post, nodes = pre ++ AviModelNode.evhVs vs0 :: post ∧
      (∀ m ∈ pre, ∃ name, m = AviModelNode.other name) ∧
      setFirstEvhVsCertRefs tlsNodes nodes =
        pre ++ AviModelNode.evhVs { vs0 with SSLKeyCertRefs := tlsNodes } :: post := by
  induction nodes with
  | nil => simp [AviObjectGraph.GetAviEvhVS] at h
  | cons m rest ih =>
    cases m with
    | evhVs vs =>
      simp only [AviObjectGraph.GetAviEvhVS, List.filterMap_cons, List.cons.injEq] at h
      refine ⟨[], rest, by simp [h.1], by simp, ?_⟩
      simp [setFirstEvhVsCertRefs, h.1]
    | other name =>
      simp only [AviObjectGraph.GetAviEvhVS, List.filterMap_cons] at h ih
      obtain ⟨pre, post, hn, hpre, hset⟩ := ih h
      refine ⟨AviModelNode.other name :: pre, post, by simp [hn], ?_, ?_⟩
      · intro m hm
        rcases List.mem_cons.mp hm with rfl | hm
        · exact ⟨name, rfl⟩
        · exact hpre m hm
      · simp [setFirstEvhVsCertRefs, hset]

/-- C29: a completed `AddTLSNode` or `DeleteTLSNode` changes nothing in the graph but the
TLS node list of its first EVH virtual-service node: the model nodes before that node
(none of them an EVH virtual-service node), the nodes after it and every other field of
the node itself (name, port/protocol list, VIP node and the rest) are as before. The
call returns the graph and the index map only; the gateway is an argument it reads. -/
theorem incremental_pass_changes_only_tls_list (cfg : Config) (key : String)
    (object : AviObjectGraph) (gateway : Gateway) (secretObj : Option Secret)
    (index : GoMap (List Int)) (out : AviObjectGraph × GoMap (List Int))
    (h : AddTLSNode cfg key object gateway secretObj index = some out ∨
      DeleteTLSNode cfg key object gateway secretObj index = some out) :
    ∃ pre vs0 post tlsNodes,
      object.modelNodes = pre ++ AviModelNode.evhVs vs0 :: post ∧
      (∀ m ∈ pre, ∃ name, m = AviModelNode.other name) ∧
      out.1.modelNodes =
        pre ++ AviModelNode.evhVs { vs0 with SSLKeyCertRefs := tlsNodes } :: post := by
  rcases h with h | h
  · unfold AddTLSNode at h
    cases hvs : object.GetAviEvhVS with
    | nil => simp [hvs] at h
    | cons vs0 vsRest =>
      simp only [hvs] at h
      split at h
      · cases h
      · rename_i st _
        simp only [Option.some.injEq] at h
        subst h
        obtain ⟨pre, post, hn, hpre, hset⟩ :=
          setFirstEvhVsCertRefs_split st.tlsNodes object.modelNodes vs0 vsRest hvs
        exact ⟨pre, vs0, post, st.tlsNodes, hn, hpre, hset⟩
  · unfold DeleteTLSNode at h
    cases hvs : object.GetAviEvhVS with
    | nil => simp [hvs] at h
    | cons vs0 vsRest =>
      simp only [hvs] at h
      split at h
      · cases h
      · rename_i st _
        simp only [Option.some.injEq] at h
        subst h
        obtain ⟨pre, post, hn, hpre, hset⟩ :=
          setFirstEvhVsCertRefs_split st.tlsNodes object.modelNodes vs0 vsRest hvs
        exact ⟨pre, vs0, post, st.tlsNodes, hn, hpre, hset⟩

/-- Witness for C29: `AddTLSNode` on the example graph, whose first EVH virtual-service
node comes after a VIP node and before a child node. -/
theorem incremental_pass_changes_only_tls_list_witness :
    (AddTLSNode exampleConfig "missing" exampleGraph exampleGatewayTLS
        (some exampleMissingSecret) exampleIndex).map (fun out => out.1) =
      some { modelNodes :=
               [.other "vsvip",
                .evhVs { Name := "ako-gw--default-gw", Tenant := "admin",
                         SSLKeyCertRefs := [exampleNodeAMissing, exampleNodeAC, exampleNodeBD] },
                .evhVs { Name := "child", Tenant := "admin" }] } ∧
    ∃ out, AddTLSNode exampleConfig "missing" exampleGraph exampleGatewayTLS
        (some exampleMissingSecret) exampleIndex = some out ∧
      ∃ pre vs0 post tlsNodes,
        exampleGraph.modelNodes = pre ++ AviModelNode.evhVs vs0 :: post ∧
        (∀ m ∈ pre, ∃ name, m = AviModelNode.other name) ∧
        out.1.modelNodes =
          pre ++ AviModelNode.evhVs { vs0 with SSLKeyCertRefs := tlsNodes } :: post := by
  have hs : (AddTLSNode exampleConfig "missing" exampleGraph exampleGatewayTLS
      (some exampleMissingSecret) exampleIndex).isSome = true := by decide
  obtain ⟨out, hout⟩ := Option.isSome_iff_exists.mp hs
  exact ⟨by decide, out, hout,
    incremental_pass_changes_only_tls_list exampleConfig "missing" exampleGraph
      exampleGatewayTLS (some exampleMissingSecret) exampleIndex out (Or.inl hout)⟩

/-- An access at a position that is at least `0` and smaller than the length is in range. -/
theorem sliceAt_isSome {α : Type} (xs : List α) (i : Int) (h0 : 0 ≤ i) (h1 : i < xs.length) :
    ∃ x, sliceAt xs i = some x := by
  unfold sliceAt
  have hlt : i.toNat < xs.length := by omega
  rw [if_neg (by omega)]
  exact ⟨xs[i.toNat], List.getElem?_eq_getElem hlt⟩

/-- A consumption keeps the recorded lists non-empty and their positions in range. -/
theorem popIndex_inRange (index : GoMap (List Int)) (k : String) (positions : List Int)
    (n : Nat) (hin : IndexInRange index n) (hk : index k = some positions) :
    IndexInRange (popIndex index k positions) n := by
  intro k' ps h
  unfold popIndex at h
  by_cases hkk : k' = k
  · by_cases hlen : positions.length > 1
    · simp only [hlen, if_true, GoMap.set, hkk, Option.some.injEq] at h
      subst h
      refine ⟨?_, fun position hp => (hin k positions hk).2 position (List.mem_of_mem_drop hp)⟩
      intro hnil
      have := congrArg List.length hnil
      simp only [List.length_drop, List.length_nil] at this
      omega
    · simp [hlen, GoMap.delete, hkk] at h
  · by_cases hlen : positions.length > 1
    · simp only [hlen, if_true, GoMap.set, hkk, if_false] at h
      exact hin k' ps h
    · simp only [hlen, if_false, GoMap.delete, hkk] at h
      exact hin k' ps h

/-- A step of `AddTLSNode` with a secret at hand, on a listener with a hostname and an
index in range, completes and leaves the index in range. -/
theorem AddTLSNode.addStep_inRange (cfg : Config) (key secretName : String)
    (prev : List AviTLSKeyCertNode) (secret : Secret) (l : Listener)
    (r : SecretObjectReference) (st : TLSWalk) (hh : l.Hostname ≠ none)
    (hin : IndexInRange st.encodedCertNameIndexMap prev.length) :
    ∃ st', AddTLSNode.certRef cfg key secretName prev (some secret) l r st = some st' ∧
      IndexInRange st'.encodedCertNameIndexMap prev.length := by
  cases hh' : l.Hostname with
  | none => exact absurd hh' hh
  | some hostname =>
    unfold AddTLSNode.certRef
    simp only [hh']
    cases hidx : st.encodedCertNameIndexMap (cfg.GetTLSKeyCertNodeName "" hostname r.Name) with
    | none =>
      by_cases hn : r.Name = secretName
      · simp only [hn, if_true]
        exact ⟨_, rfl, hin⟩
      · simp only [hn, if_false]
        exact ⟨_, rfl, hin⟩
    | some positions =>
      obtain ⟨hne, hr⟩ := hin _ _ hidx
      cases positions with
      | nil => exact absurd rfl hne
      | cons position rest =>
        obtain ⟨node, hnode⟩ := sliceAt_isSome prev position
          (hr position (List.mem_cons_self _ _)).1 (hr position (List.mem_cons_self _ _)).2
        simp only [List.head?_cons, hnode]
        exact ⟨_, rfl, popIndex_inRange _ _ _ _ hin hidx⟩

/-- A step of `DeleteTLSNode` on a listener with a hostname and an index in range
completes and leaves the index in range. -/
theorem DeleteTLSNode.deleteStep_inRange (cfg : Config) (secretName : String)
    (prev : List AviTLSKeyCertNode) (l : Listener)
    (r : SecretObjectReference) (st : TLSWalk) (hh : l.Hostname ≠ none)
    (hin : IndexInRange st.encodedCertNameIndexMap prev.length) :
    ∃ st', DeleteTLSNode.certRef cfg secretName prev l r st = some st' ∧
      IndexInRange st'.encodedCertNameIndexMap prev.length := by
  cases hh' : l.Hostname with
  | none => exact absurd hh' hh
  | some hostname =>
    unfold DeleteTLSNode.certRef
    simp only [hh']
    cases hidx : st.encodedCertNameIndexMap (cfg.GetTLSKeyCertNodeName "" hostname r.Name) with
    | none => exact ⟨_, rfl, hin⟩
    | some positions =>
      obtain ⟨hne, hr⟩ := hin _ _ hidx
      cases positions with
      | nil => exact absurd rfl hne
      | cons position rest =>
        obtain ⟨node, hnode⟩ := sliceAt_isSome prev position
          (hr position (List.mem_cons_self _ _)).1 (hr position (List.mem_cons_self _ _)).2
        by_cases hn : r.Name = secretName
        · have hn' : ¬ (r.Name ≠ secretName) := by simp [hn]
          simp only [if_neg hn']
          exact ⟨_, rfl, popIndex_inRange _ _ _ _ hin hidx⟩
        · simp only [ne_eq, hn, not_false_eq_true, if_true, List.head?_cons, hnode]
          exact ⟨_, rfl, popIndex_inRange _ _ _ _ hin hidx⟩

/-- A walk completes when every step preserves an invariant under which it completes. -/
theorem walkPairs_completes
    (body : Listener → SecretObjectReference → TLSWalk → Option TLSWalk)
    (Inv : TLSWalk → Prop) (refs : List (Listener × SecretObjectReference))
    (hstep : ∀ p ∈ refs, ∀ st, Inv st → ∃ st', body p.1 p.2 st = some st' ∧ Inv st')
    (st : TLSWalk) (h0 : Inv st) :
    ∃ st', walkPairs body refs st = some st' ∧ Inv st' := by
  induction refs generalizing st with
  | nil => exact ⟨st, rfl, h0⟩
  | cons p rest ih =>
    obtain ⟨st₁, h₁, hinv⟩ := hstep p (List.mem_cons_self _ _) st h0
    simp only [walkPairs, h₁]
    exact ih (fun q hq => hstep q (List.mem_cons_of_mem _ hq)) st₁ hinv

/-- A certificate reference of the walk belongs to a listener of the list that has a TLS
block. -/
theorem certRefWalk_mem (ls : List Listener) (p : Listener × SecretObjectReference)
    (hp : p ∈ certRefWalk ls) : p.1 ∈ ls ∧ p.1.TLS ≠ none := by
  simp only [certRefWalk, List.mem_flatMap] at hp
  obtain ⟨l, hl, hp⟩ := hp
  cases hT : l.TLS with
  | none => simp [hT] at hp
  | some tls =>
    simp only [hT, List.mem_map] at hp
    obtain ⟨r, -, rfl⟩ := hp
    exact ⟨hl, by simp [hT]⟩

/-- C28 (as amended): `AddTLSNode` (with a secret at hand) and `DeleteTLSNode` complete
without a fault, so that every list access of the walk is in bounds, provided the graph
has at least one EVH virtual-service node, every listener with a TLS block has a
hostname, no key of the index maps to an empty position list, and every recorded
position is at least `0` and smaller than the length of the current TLS list. -/
theorem incremental_pass_reads_in_range (cfg : Config) (key : String)
    (object : AviObjectGraph) (gateway : Gateway) (secret : Secret)
    (index : GoMap (List Int))
    (hvs : object.GetAviEvhVS ≠ [])
    (hhost : ∀ l ∈ gateway.Spec.Listeners, l.TLS ≠ none → l.Hostname ≠ none)
    (hin : IndexInRange index ((tlsListOf object).getD []).length) :
    (AddTLSNode cfg key object gateway (some secret) index).isSome = true ∧
    ∀ secretObj, (DeleteTLSNode cfg key object gateway secretObj index).isSome = true := by
  have hpairs : ∀ p ∈ certRefWalk gateway.Spec.Listeners, p.1.Hostname ≠ none := fun p hp =>
    hhost p.1 (certRefWalk_mem _ p hp).1 (certRefWalk_mem _ p hp).2
  cases hg : object.GetAviEvhVS with
  | nil => exact absurd hg hvs
  | cons vs0 vsRest =>
    have hlen : ((tlsListOf object).getD []).length = vs0.SSLKeyCertRefs.length := by
      simp [tlsListOf, hg]
    rw [hlen] at hin
    constructor
    · obtain ⟨st, hst, -⟩ := walkPairs_completes
        (AddTLSNode.certRef cfg key (cfg.ExtractTypeNameNamespace key).2.2
          vs0.SSLKeyCertRefs (some secret))
        (fun st => IndexInRange st.encodedCertNameIndexMap vs0.SSLKeyCertRefs.length)
        (certRefWalk gateway.Spec.Listeners)
        (fun p hp st hinv => AddTLSNode.addStep_inRange cfg key _ _ secret p.1 p.2 st
          (hpairs p hp) hinv)
        { tlsNodes := [], encodedCertNameIndexMap := index } hin
      simp [AddTLSNode, hg, walkListeners_eq_walkPairs, hst]
    · intro secretObj
      obtain ⟨st, hst, -⟩ := walkPairs_completes
        (DeleteTLSNode.certRef cfg (cfg.ExtractTypeNameNamespace key).2.2 vs0.SSLKeyCertRefs)
        (fun st => IndexInRange st.encodedCertNameIndexMap vs0.SSLKeyCertRefs.length)
        (certRefWalk gateway.Spec.Listeners)
        (fun p hp st hinv => DeleteTLSNode.deleteStep_inRange cfg _ _ p.1 p.2 st
          (hpairs p hp) hinv)
        { tlsNodes := [], encodedCertNameIndexMap := index } hin
      simp [DeleteTLSNode, hg, walkListeners_eq_walkPairs, hst]

/-- Witness for C28: the example gateway, graph and index meet the conditions. -/
theorem incremental_pass_reads_in_range_witness :
    exampleGraph.GetAviEvhVS ≠ [] ∧
    (∀ l ∈ exampleGatewayTLS.Spec.Listeners, l.TLS ≠ none → l.Hostname ≠ none) ∧
    IndexInRange exampleIndex ((tlsListOf exampleGraph).getD []).length ∧
    (AddTLSNode exampleConfig "missing" exampleGraph exampleGatewayTLS
      (some exampleMissingSecret) exampleIndex).isSome = true ∧
    ∀ secretObj, (DeleteTLSNode exampleConfig "missing" exampleGraph exampleGatewayTLS
      secretObj exampleIndex).isSome = true := by
  have hvs : exampleGraph.GetAviEvhVS ≠ [] := by decide
  have hhost : ∀ l ∈ exampleGatewayTLS.Spec.Listeners, l.TLS ≠ none → l.Hostname ≠ none := by
    decide
  have hin : IndexInRange exampleIndex ((tlsListOf exampleGraph).getD []).length := by
    intro k positions h
    simp only [exampleIndex, GoMap.set, GoMap.empty] at h
    split at h
    · cases h; decide
    · split at h
      · cases h; decide
      · cases h
  exact ⟨hvs, hhost, hin,
    incremental_pass_reads_in_range exampleConfig "missing" exampleGraph exampleGatewayTLS
      exampleMissingSecret exampleIndex hvs hhost hin⟩

/-- Counterexample to C28 as stated: the graph has a virtual-service node, every TLS
listener has a hostname, the index maps its one key to a non-empty list and its one
position, `-1`, is smaller than the length of the TLS list; both passes fault on the
access `evhVsCertRefs[-1]`. -/
theorem incremental_pass_faults_on_negative_position :
    exampleGraph.GetAviEvhVS ≠ [] ∧
    (∀ l ∈ exampleGatewayTLS.Spec.Listeners, l.TLS ≠ none → l.Hostname ≠ none) ∧
    (∀ k positions, exampleIndexNegative k = some positions →
      positions ≠ [] ∧
        ∀ position ∈ positions, position < ((tlsListOf exampleGraph).getD []).length) ∧
    (AddTLSNode exampleConfig "missing" exampleGraph exampleGatewayTLS
      (some exampleMissingSecret) exampleIndexNegative).isSome = false ∧
    (DeleteTLSNode exampleConfig "missing" exampleGraph exampleGatewayTLS none
      exampleIndexNegative).isSome = false := by
  refine ⟨by decide, by decide, ?_, by decide, by decide⟩
  intro k positions h
  simp only [exampleIndexNegative, GoMap.set, GoMap.empty] at h
  split at h
  · cases h; decide
  · cases h

/-! ## The incremental passes against a full rebuild -/

/-- The secret of a certificate reference is the one its lookup resolves to. -/
theorem resolveCertRef_eq_lookupSecret (cs : SecretClient) (gateway : Gateway)
    (r : SecretObjectReference) :
    resolveCertRef cs gateway r = lookupSecret cs (resolutionNamespace gateway r) r.Name :=
  rfl

/-- The access at the position that follows a prefix reads the node after the prefix. -/
theorem sliceAt_append_length {α : Type} (done : List α) (x : α) (rest : List α) :
    sliceAt (done ++ x :: rest) (done.length : Int) = some x := by
  unfold sliceAt
  rw [if_neg (by omega), Int.toNat_ofNat, List.getElem?_append_right (le_refl _)]
  simp

/-- A name that no node carries is not a key of the index. -/
theorem indexFrom_eq_none (offset : Nat) (tlsNodes : List AviTLSKeyCertNode) (k : String)
    (h : ∀ node ∈ tlsNodes, node.Name ≠ k) : indexFrom offset tlsNodes k = none := by
  have hp : positionsFrom offset tlsNodes k = [] := by
    induction tlsNodes generalizing offset with
    | nil => rfl
    | cons node rest ih =>
      rw [positionsFrom, if_neg (h node (List.mem_cons_self _ _))]
      exact ih _ fun n hn => h n (List.mem_cons_of_mem _ hn)
  simp [indexFrom, hp]

/-- The entry of the name of the first node starts with the position of that node. -/
theorem indexFrom_head (offset : Nat) (node : AviTLSKeyCertNode)
    (rest : List AviTLSKeyCertNode) :
    indexFrom offset (node :: rest) node.Name =
      some ((offset : Int) :: positionsFrom (offset + 1) rest node.Name) := by
  simp [indexFrom, positionsFrom]

/-- Consuming the position of the first node leaves the index of the remaining nodes. -/
theorem popIndex_indexFrom (offset : Nat) (node : AviTLSKeyCertNode)
    (rest : List AviTLSKeyCertNode) :
    popIndex (indexFrom offset (node :: rest)) node.Name
        ((offset : Int) :: positionsFrom (offset + 1) rest node.Name) =
      indexFrom (offset + 1) rest := by
  funext k
  unfold popIndex
  by_cases hk : k = node.Name
  · subst hk
    cases hp : positionsFrom (offset + 1) rest node.Name with
    | nil => simp [GoMap.delete, indexFrom, hp]
    | cons q qs => simp [GoMap.set, indexFrom, hp]
  · have hk' : ¬ node.Name = k := fun h => hk h.symm
    have hidx : indexFrom offset (node :: rest) k = indexFrom (offset + 1) rest k := by
      simp [indexFrom, positionsFrom, hk']
    split
    · simp [GoMap.set, hk, hidx]
    · simp [GoMap.delete, hk, hidx]

/-- The step of `DeleteTLSNode` on a reference whose key is in the index with a first
position in range. -/
theorem DeleteTLSNode.deleteStep_at_head (cfg : Config) (secretName : String)
    (prev : List AviTLSKeyCertNode) (l : Listener) (r : SecretObjectReference)
    (st : TLSWalk) (hostname : String) (position : Int) (positions : List Int)
    (node : AviTLSKeyCertNode)
    (hh : l.Hostname = some hostname)
    (hidx : st.encodedCertNameIndexMap (encodedKey cfg hostname r) =
      some (position :: positions))
    (hnode : sliceAt prev position = some node) :
    DeleteTLSNode.certRef cfg secretName prev l r st =
      some { tlsNodes := st.tlsNodes ++ (if r.Name ≠ secretName then [node] else [])
             encodedCertNameIndexMap :=
               popIndex st.encodedCertNameIndexMap (encodedKey cfg hostname r)
                 (position :: positions) } := by
  unfold encodedKey at hidx ⊢
  unfold DeleteTLSNode.certRef
  simp only [hh, hidx, List.head?_cons, hnode]
  by_cases hn : r.Name ≠ secretName
  · simp only [if_pos hn]
  · simp only [if_neg hn, List.append_nil]

/-- The step of `AddTLSNode` on a reference whose key is in the index with a first
position in range. -/
theorem AddTLSNode.addStep_at_head (cfg : Config) (key secretName : String)
    (prev : List AviTLSKeyCertNode) (secretObj : Option Secret) (l : Listener)
    (r : SecretObjectReference)
    (st : TLSWalk) (hostname : String) (position : Int) (positions : List Int)
    (node : AviTLSKeyCertNode)
    (hh : l.Hostname = some hostname)
    (hidx : st.encodedCertNameIndexMap (encodedKey cfg hostname r) =
      some (position :: positions))
    (hnode : sliceAt prev position = some node) :
    AddTLSNode.certRef cfg key secretName prev secretObj l r st =
      some { tlsNodes := st.tlsNodes ++ [node]
             encodedCertNameIndexMap :=
               popIndex st.encodedCertNameIndexMap (encodedKey cfg hostname r)
                 (position :: positions) } := by
  unfold encodedKey at hidx ⊢
  unfold AddTLSNode.certRef
  simp only [hh, hidx, List.head?_cons, hnode]

/-- The list that `DeleteTLSNode` builds from the TLS list of a full build and its index,
when references that share an encoded key resolve alike: the nodes of the resolving
references that do not name the deleted secret, in declared order. -/
theorem DeleteTLSNode.deleteWalk_of_build (cfg : Config) (cs : SecretClient)
    (gateway : Gateway) (bkey secretName : String)
    (refs : List (Listener × SecretObjectReference))
    (done acc : List AviTLSKeyCertNode)
    (hhost : ∀ p ∈ refs, p.1.Hostname ≠ none)
    (halike : ∀ p ∈ refs, ∀ q ∈ refs,
      encodedKey cfg (p.1.Hostname.getD "") p.2 = encodedKey cfg (q.1.Hostname.getD "") q.2 →
      (resolveCertRef cs gateway p.2).isSome = (resolveCertRef cs gateway q.2).isSome) :
    walkPairs
        (DeleteTLSNode.certRef cfg secretName
          (done ++ refs.filterMap (builtNode cfg cs gateway bkey)))
        refs
        { tlsNodes := acc
          encodedCertNameIndexMap :=
            indexFrom done.length (refs.filterMap (builtNode cfg cs gateway bkey)) } =
      some
        { tlsNodes := acc ++ refs.filterMap fun p =>
            if p.2.Name ≠ secretName then builtNode cfg cs gateway bkey p else none
          encodedCertNameIndexMap := GoMap.empty } := by
  induction refs generalizing done acc with
  | nil =>
    simp only [walkPairs, List.filterMap_nil, List.append_nil]
    rfl
  | cons p rest ih =>
    have hrest := fun done acc => ih done acc
      (fun q hq => hhost q (List.mem_cons_of_mem _ hq))
      (fun q hq q' hq' =>
        halike q (List.mem_cons_of_mem _ hq) q' (List.mem_cons_of_mem _ hq'))
    cases hh : p.1.Hostname with
    | none => exact absurd hh (hhost p (List.mem_cons_self _ _))
    | some hostname =>
      cases hres : resolveCertRef cs gateway p.2 with
      | none =>
        have hf : builtNode cfg cs gateway bkey p = none := by simp [builtNode, hres]
        have hidx : indexFrom done.length (rest.filterMap (builtNode cfg cs gateway bkey))
            (encodedKey cfg hostname p.2) = none := by
          apply indexFrom_eq_none
          intro node hnode hname
          obtain ⟨q, hq, hqn⟩ := List.mem_filterMap.mp hnode
          unfold builtNode at hqn
          cases hq' : resolveCertRef cs gateway q.2 with
          | none => simp [hq'] at hqn
          | some s =>
            simp only [hq', Option.map_some', Option.some.injEq] at hqn
            have hkey : encodedKey cfg (p.1.Hostname.getD "") p.2 =
                encodedKey cfg (q.1.Hostname.getD "") q.2 := by
              rw [hh, Option.getD_some, ← hname, ← hqn]
              rfl
            have := halike p (List.mem_cons_self _ _) q (List.mem_cons_of_mem _ hq) hkey
            simp [hres, hq'] at this
        have hstep : DeleteTLSNode.certRef cfg secretName
            (done ++ rest.filterMap (builtNode cfg cs gateway bkey)) p.1 p.2
            { tlsNodes := acc
              encodedCertNameIndexMap :=
                indexFrom done.length (rest.filterMap (builtNode cfg cs gateway bkey)) } =
            some { tlsNodes := acc
                   encodedCertNameIndexMap :=
                     indexFrom done.length
                       (rest.filterMap (builtNode cfg cs gateway bkey)) } := by
          unfold encodedKey at hidx
          simp only [DeleteTLSNode.certRef, hh, hidx]
        simp only [List.filterMap_cons, hf, walkPairs, hstep, ite_self]
        exact hrest done acc
      | some s =>
        have hf : builtNode cfg cs gateway bkey p =
            some (TLSNodeFromSecret cfg s hostname p.2.Name bkey) := by
          simp [builtNode, hres, hh]
        have hname : (TLSNodeFromSecret cfg s hostname p.2.Name bkey).Name =
            encodedKey cfg hostname p.2 := rfl
        have hstep := DeleteTLSNode.deleteStep_at_head cfg secretName
          (done ++ TLSNodeFromSecret cfg s hostname p.2.Name bkey ::
            rest.filterMap (builtNode cfg cs gateway bkey)) p.1 p.2
          { tlsNodes := acc
            encodedCertNameIndexMap :=
              indexFrom done.length (TLSNodeFromSecret cfg s hostname p.2.Name bkey ::
                rest.filterMap (builtNode cfg cs gateway bkey)) }
          hostname _ _ _ hh (by rw [← hname]; exact indexFrom_head _ _ _)
          (sliceAt_append_length _ _ _)
        simp only [List.filterMap_cons, hf, walkPairs, hstep]
        rw [← hname, popIndex_indexFrom]
        have hih := hrest (done ++ [TLSNodeFromSecret cfg s hostname p.2.Name bkey])
          (acc ++ if p.2.Name ≠ secretName then
            [TLSNodeFromSecret cfg s hostname p.2.Name bkey] else [])
        simp only [List.append_assoc, List.singleton_append, List.length_append,
          List.length_singleton] at hih
        rw [hih]
        by_cases hn : p.2.Name ≠ secretName
        · simp only [if_pos hn, List.singleton_append]
        · simp only [if_neg hn, List.nil_append]

/-- The list that `AddTLSNode` builds from the TLS list of a full build and its index, with
a secret at hand, when references that share an encoded key resolve alike: the existing
node of every reference that resolved, and a node built from the supplied secret for
every other reference that names the changed secret, in declared order. -/
theorem AddTLSNode.addWalk_of_build (cfg : Config) (cs : SecretClient)
    (gateway : Gateway) (bkey key secretName : String) (secret : Secret)
    (refs : List (Listener × SecretObjectReference))
    (done acc : List AviTLSKeyCertNode)
    (hhost : ∀ p ∈ refs, p.1.Hostname ≠ none)
    (halike : ∀ p ∈ refs, ∀ q ∈ refs,
      encodedKey cfg (p.1.Hostname.getD "") p.2 = encodedKey cfg (q.1.Hostname.getD "") q.2 →
      (resolveCertRef cs gateway p.2).isSome = (resolveCertRef cs gateway q.2).isSome) :
    walkPairs
        (AddTLSNode.certRef cfg key secretName
          (done ++ refs.filterMap (builtNode cfg cs gateway bkey)) (some secret))
        refs
        { tlsNodes := acc
          encodedCertNameIndexMap :=
            indexFrom done.length (refs.filterMap (builtNode cfg cs gateway bkey)) } =
      some
        { tlsNodes := acc ++ refs.filterMap fun p =>
            match builtNode cfg cs gateway bkey p with
            | some node => some node
            | none =>
              if p.2.Name = secretName then
                some (TLSNodeFromSecret cfg secret (p.1.Hostname.getD "") p.2.Name key)
              else none
          encodedCertNameIndexMap := GoMap.empty } := by
  induction refs generalizing done acc with
  | nil =>
    simp only [walkPairs, List.filterMap_nil, List.append_nil]
    rfl
  | cons p rest ih =>
    have hrest := fun done acc => ih done acc
      (fun q hq => hhost q (List.mem_cons_of_mem _ hq))
      (fun q hq q' hq' =>
        halike q (List.mem_cons_of_mem _ hq) q' (List.mem_cons_of_mem _ hq'))
    cases hh : p.1.Hostname with
    | none => exact absurd hh (hhost p (List.mem_cons_self _ _))
    | some hostname =>
      cases hres : resolveCertRef cs gateway p.2 with
      | none =>
        have hf : builtNode cfg cs gateway bkey p = none := by simp [builtNode, hres]
        have hidx : indexFrom done.length (rest.filterMap (builtNode cfg cs gateway bkey))
            (encodedKey cfg hostname p.2) = none := by
          apply indexFrom_eq_none
          intro node hnode hname
          obtain ⟨q, hq, hqn⟩ := List.mem_filterMap.mp hnode
          unfold builtNode at hqn
          cases hq' : resolveCertRef cs gateway q.2 with
          | none => simp [hq'] at hqn
          | some s =>
            simp only [hq', Option.map_some', Option.some.injEq] at hqn
            have hkey : encodedKey cfg (p.1.Hostname.getD "") p.2 =
                encodedKey cfg (q.1.Hostname.getD "") q.2 := by
              rw [hh, Option.getD_some, ← hname, ← hqn]
              rfl
            have := halike p (List.mem_cons_self _ _) q (List.mem_cons_of_mem _ hq) hkey
            simp [hres, hq'] at this
        have hstep : AddTLSNode.certRef cfg key secretName
            (done ++ rest.filterMap (builtNode cfg cs gateway bkey)) (some secret) p.1 p.2
            { tlsNodes := acc
              encodedCertNameIndexMap :=
                indexFrom done.length (rest.filterMap (builtNode cfg cs gateway bkey)) } =
            some { tlsNodes := acc ++
                     (if p.2.Name = secretName then
                       [TLSNodeFromSecret cfg secret hostname p.2.Name key] else [])
                   encodedCertNameIndexMap :=
                     indexFrom done.length
                       (rest.filterMap (builtNode cfg cs gateway bkey)) } := by
          unfold encodedKey at hidx
          simp only [AddTLSNode.certRef, hh, hidx]
          by_cases hn : p.2.Name = secretName
          · simp only [if_pos hn]
          · simp only [if_neg hn, List.append_nil]
        simp only [List.filterMap_cons, hf, walkPairs, hstep]
        rw [hrest done]
        by_cases hn : p.2.Name = secretName
        · simp only [if_pos hn, hh, Option.getD_some, List.append_assoc, List.singleton_append]
        · simp only [if_neg hn, List.append_nil]
      | some s =>
        have hf : builtNode cfg cs gateway bkey p =
            some (TLSNodeFromSecret cfg s hostname p.2.Name bkey) := by
          simp [builtNode, hres, hh]
        have hname : (TLSNodeFromSecret cfg s hostname p.2.Name bkey).Name =
            encodedKey cfg hostname p.2 := rfl
        have hstep := AddTLSNode.addStep_at_head cfg key secretName
          (done ++ TLSNodeFromSecret cfg s hostname p.2.Name bkey ::
            rest.filterMap (builtNode cfg cs gateway bkey)) (some secret) p.1 p.2
          { tlsNodes := acc
            encodedCertNameIndexMap :=
              indexFrom done.length (TLSNodeFromSecret cfg s hostname p.2.Name bkey ::
                rest.filterMap (builtNode cfg cs gateway bkey)) }
          hostname _ _ _ hh (by rw [← hname]; exact indexFrom_head _ _ _)
          (sliceAt_append_length _ _ _)
        simp only [List.filterMap_cons, hf, walkPairs, hstep]
        rw [← hname, popIndex_indexFrom]
        have hih := hrest (done ++ [TLSNodeFromSecret cfg s hostname p.2.Name bkey])
          (acc ++ [TLSNodeFromSecret cfg s hostname p.2.Name bkey])
        simp only [List.append_assoc, List.singleton_append, List.length_append,
          List.length_singleton] at hih
        rw [hih]

/-- The full build when every certificate reference belongs to a listener with a
hostname: it does not fault and returns the nodes of the resolving references. -/
theorem BuildTLSNodesForGateway_eq_builtNodes (cfg : Config) (cs : SecretClient)
    (gateway : Gateway) (key : String)
    (hhost : ∀ p ∈ certRefWalk gateway.Spec.Listeners, p.1.Hostname ≠ none) :
    (BuildTLSNodesForGateway cfg cs gateway key).tlsNodes =
        (certRefWalk gateway.Spec.Listeners).filterMap (builtNode cfg cs gateway key) ∧
      (BuildTLSNodesForGateway cfg cs gateway key).faulted = false := by
  have h := BuildTLSNodesForGateway.listeners_eq cfg cs gateway key gateway.Spec.Listeners {}
    rfl (fun p hp _ => hhost p hp)
  unfold BuildTLSNodesForGateway
  rw [h]
  exact ⟨by simp only [List.nil_append]; rfl, rfl⟩

/-- A graph whose first EVH virtual-service node holds a given TLS list has such a node. -/
theorem tlsListOf_eq_some (object : AviObjectGraph) (tlsNodes : List AviTLSKeyCertNode)
    (h : tlsListOf object = some tlsNodes) :
    ∃ vs0 vsRest, object.GetAviEvhVS = vs0 :: vsRest ∧ vs0.SSLKeyCertRefs = tlsNodes := by
  unfold tlsListOf at h
  cases hg : object.GetAviEvhVS with
  | nil => simp [hg] at h
  | cons vs0 vsRest =>
    simp only [hg, List.head?_cons, Option.map_some', Option.some.injEq] at h
    exact ⟨vs0, vsRest, rfl, h⟩

/-- C26 (as amended): incremental removal agrees with a full rebuild. The graph holds
the TLS list of a full build under the client `cs` and the index is the index of that
list; every listener with a TLS block has a hostname; under the client `cs2` the deleted
secret `(ns, secretName)` no longer resolves and every other secret resolves as before.
If moreover every certificate reference that carries the deleted secret's name
designates the namespace `ns`, and references that share an encoded key all resolved or
all failed to resolve under `cs`, then `DeleteTLSNode` completes and leaves exactly the
TLS list that `BuildTLSNodesForGateway` returns under `cs2`. -/
theorem DeleteTLSNode_agrees_with_rebuild (cfg : Config) (cs cs2 : SecretClient)
    (key bkey bkey2 : String) (object : AviObjectGraph) (gateway : Gateway)
    (secretObj : Option Secret) (ns : String)
    (hlist : tlsListOf object = some (BuildTLSNodesForGateway cfg cs gateway bkey).tlsNodes)
    (hhost : ∀ l ∈ gateway.Spec.Listeners, l.TLS ≠ none → l.Hostname ≠ none)
    (hgone : lookupSecret cs2 ns (secretNameOf cfg key) = none)
    (hsame : ∀ ns2 name, (ns2, name) ≠ (ns, secretNameOf cfg key) →
      lookupSecret cs2 ns2 name = lookupSecret cs ns2 name)
    (hrefs : ∀ p ∈ certRefWalk gateway.Spec.Listeners,
      p.2.Name = secretNameOf cfg key → resolutionNamespace gateway p.2 = ns)
    (halike : ∀ p ∈ certRefWalk gateway.Spec.Listeners,
      ∀ q ∈ certRefWalk gateway.Spec.Listeners,
      encodedKey cfg (p.1.Hostname.getD "") p.2 = encodedKey cfg (q.1.Hostname.getD "") q.2 →
      (resolveCertRef cs gateway p.2).isSome = (resolveCertRef cs gateway q.2).isSome) :
    (DeleteTLSNode cfg key object gateway secretObj
        (indexOfList (BuildTLSNodesForGateway cfg cs gateway bkey).tlsNodes)).bind
        (fun out => tlsListOf out.1) =
      some (BuildTLSNodesForGateway cfg cs2 gateway bkey2).tlsNodes ∧
    (BuildTLSNodesForGateway cfg cs2 gateway bkey2).faulted = false := by
  have hpairs : ∀ p ∈ certRefWalk gateway.Spec.Listeners, p.1.Hostname ≠ none := fun p hp =>
    hhost p.1 (certRefWalk_mem _ p hp).1 (certRefWalk_mem _ p hp).2
  obtain ⟨hb, -⟩ := BuildTLSNodesForGateway_eq_builtNodes cfg cs gateway bkey hpairs
  obtain ⟨hb2, hf2⟩ := BuildTLSNodesForGateway_eq_builtNodes cfg cs2 gateway bkey2 hpairs
  refine ⟨?_, hf2⟩
  rw [hb] at hlist ⊢
  obtain ⟨vs0, vsRest, hvs, hvs0⟩ := tlsListOf_eq_some object _ hlist
  have hw := DeleteTLSNode.deleteWalk_of_build cfg cs gateway bkey (secretNameOf cfg key)
    (certRefWalk gateway.Spec.Listeners) [] [] hpairs halike
  simp only [List.nil_append, List.length_nil] at hw
  have hg := fun t => GetAviEvhVS_setFirstEvhVsCertRefs t object.modelNodes vs0 vsRest hvs
  have hcongr : (certRefWalk gateway.Spec.Listeners).filterMap
      (fun p => if p.2.Name ≠ secretNameOf cfg key then builtNode cfg cs gateway bkey p
        else none) =
      (certRefWalk gateway.Spec.Listeners).filterMap (builtNode cfg cs2 gateway bkey2) := by
    apply List.filterMap_congr
    intro p hp
    unfold builtNode
    rw [resolveCertRef_eq_lookupSecret, resolveCertRef_eq_lookupSecret]
    by_cases hn : p.2.Name = secretNameOf cfg key
    · rw [if_neg (by simp [hn]), hrefs p hp hn, hn, hgone]
      rfl
    · rw [if_pos hn, hsame _ _ (fun h => hn (congrArg Prod.snd h))]
      rfl
  rw [hb2, ← hcongr]
  unfold DeleteTLSNode
  simp only [hvs, hvs0, walkListeners_eq_walkPairs]
  unfold secretNameOf indexOfList at *
  simp only [hw, Option.some_bind, tlsListOf, hg, List.head?_cons, Option.map_some']

/-- C27 (as amended): incremental upsert of a secret that did not resolve before agrees
with a full rebuild. The graph holds the TLS list of a full build under the client `cs`
and the index is the index of that list; every listener with a TLS block has a
hostname; the changed secret `(ns, secretName)` did not resolve under `cs`, resolves to
the supplied secret under `cs2`, and every other secret resolves as before. If moreover
every certificate reference that carries the changed secret's name designates the
namespace `ns`, and references that share an encoded key all resolved or all failed to
resolve under `cs`, then `AddTLSNode` completes and leaves exactly the TLS list that
`BuildTLSNodesForGateway` returns under `cs2`, in which every reference to the changed
secret has a node built from the supplied secret. -/
theorem AddTLSNode_agrees_with_rebuild (cfg : Config) (cs cs2 : SecretClient)
    (key bkey bkey2 : String) (object : AviObjectGraph) (gateway : Gateway)
    (secret : Secret) (ns : String)
    (hlist : tlsListOf object = some (BuildTLSNodesForGateway cfg cs gateway bkey).tlsNodes)
    (hhost : ∀ l ∈ gateway.Spec.Listeners, l.TLS ≠ none → l.Hostname ≠ none)
    (hnew : lookupSecret cs ns (secretNameOf cfg key) = none)
    (hnow : lookupSecret cs2 ns (secretNameOf cfg key) = some secret)
    (hsame : ∀ ns2 name, (ns2, name) ≠ (ns, secretNameOf cfg key) →
      lookupSecret cs2 ns2 name = lookupSecret cs ns2 name)
    (hrefs : ∀ p ∈ certRefWalk gateway.Spec.Listeners,
      p.2.Name = secretNameOf cfg key → resolutionNamespace gateway p.2 = ns)
    (halike : ∀ p ∈ certRefWalk gateway.Spec.Listeners,
      ∀ q ∈ certRefWalk gateway.Spec.Listeners,
      encodedKey cfg (p.1.Hostname.getD "") p.2 = encodedKey cfg (q.1.Hostname.getD "") q.2 →
      (resolveCertRef cs gateway p.2).isSome = (resolveCertRef cs gateway q.2).isSome) :
    (AddTLSNode cfg key object gateway (some secret)
        (indexOfList (BuildTLSNodesForGateway cfg cs gateway bkey).tlsNodes)).bind
        (fun out => tlsListOf out.1) =
      some (BuildTLSNodesForGateway cfg cs2 gateway bkey2).tlsNodes ∧
    (BuildTLSNodesForGateway cfg cs2 gateway bkey2).faulted = false ∧
    ∀ p ∈ certRefWalk gateway.Spec.Listeners, p.2.Name = secretNameOf cfg key →
      TLSNodeFromSecret cfg secret (p.1.Hostname.getD "") p.2.Name key ∈
        (BuildTLSNodesForGateway cfg cs2 gateway bkey2).tlsNodes := by
  have hpairs : ∀ p ∈ certRefWalk gateway.Spec.Listeners, p.1.Hostname ≠ none := fun p hp =>
    hhost p.1 (certRefWalk_mem _ p hp).1 (certRefWalk_mem _ p hp).2
  obtain ⟨hb, -⟩ := BuildTLSNodesForGateway_eq_builtNodes cfg cs gateway bkey hpairs
  obtain ⟨hb2, hf2⟩ := BuildTLSNodesForGateway_eq_builtNodes cfg cs2 gateway bkey2 hpairs
  refine ⟨?_, hf2, ?_⟩
  · rw [hb] at hlist ⊢
    obtain ⟨vs0, vsRest, hvs, hvs0⟩ := tlsListOf_eq_some object _ hlist
    have hw := AddTLSNode.addWalk_of_build cfg cs gateway bkey key (secretNameOf cfg key)
      secret (certRefWalk gateway.Spec.Listeners) [] [] hpairs halike
    simp only [List.nil_append, List.length_nil] at hw
    have hg := fun t => GetAviEvhVS_setFirstEvhVsCertRefs t object.modelNodes vs0 vsRest hvs
    have hcongr : (certRefWalk gateway.Spec.Listeners).filterMap
        (fun p =>
          match builtNode cfg cs gateway bkey p with
          | some node => some node
          | none =>
            if p.2.Name = secretNameOf cfg key then
              some (TLSNodeFromSecret cfg secret (p.1.Hostname.getD "") p.2.Name key)
            else none) =
        (certRefWalk gateway.Spec.Listeners).filterMap (builtNode cfg cs2 gateway bkey2) := by
      apply List.filterMap_congr
      intro p hp
      unfold builtNode
      rw [resolveCertRef_eq_lookupSecret, resolveCertRef_eq_lookupSecret]
      by_cases hn : p.2.Name = secretNameOf cfg key
      · rw [hrefs p hp hn, hn, hnew, hnow]
        simp only [Option.map_none', if_true, Option.map_some']
        rfl
      · rw [hsame _ _ (fun h => hn (congrArg Prod.snd h))]
        cases lookupSecret cs (resolutionNamespace gateway p.2) p.2.Name with
        | none => simp [hn]
        | some s => rfl
    rw [hb2, ← hcongr]
    unfold AddTLSNode
    simp only [hvs, hvs0, walkListeners_eq_walkPairs]
    unfold secretNameOf indexOfList at *
    simp only [hw, Option.some_bind, tlsListOf, hg, List.head?_cons, Option.map_some']
  · intro p hp hn
    rw [hb2]
    refine List.mem_filterMap.mpr ⟨p, hp, ?_⟩
    unfold builtNode
    rw [resolveCertRef_eq_lookupSecret, hrefs p hp hn, hn, hnow]
    rfl

/-- Witness for C26: the secret `default/d` is deleted under the example gateway. -/
theorem DeleteTLSNode_agrees_with_rebuild_witness :
    (DeleteTLSNode exampleConfig "d" exampleGraph exampleGatewayTLS none
        (indexOfList
          (BuildTLSNodesForGateway exampleConfig exampleSecrets exampleGatewayTLS "k").tlsNodes)).bind
        (fun out => tlsListOf out.1) =
      some (BuildTLSNodesForGateway exampleConfig exampleSecretsWithoutD
        exampleGatewayTLS "k").tlsNodes ∧
    (BuildTLSNodesForGateway exampleConfig exampleSecretsWithoutD
      exampleGatewayTLS "k").tlsNodes = [exampleNodeAC] :=
  ⟨(DeleteTLSNode_agrees_with_rebuild exampleConfig exampleSecrets exampleSecretsWithoutD
      "d" "k" "k" exampleGraph exampleGatewayTLS none "default"
      (by decide) (by decide)
      (by simp [lookupSecret, exampleSecretsWithoutD, secretNameOf, exampleConfig])
      (by
        intro ns2 name hne
        have hc : ¬ (ns2 = "default" ∧ name = "d") := fun h => hne (by rw [h.1, h.2]; rfl)
        simp only [lookupSecret, exampleSecretsWithoutD, if_neg hc])
      (by decide) (by decide)).1, by decide⟩

/-- Counterexample to C26 as stated: the gateway refers to `c` in namespace `other` and to
`c` in its own namespace, the TLS list and the index are those of a full build, and the
secret `default/c` is deleted while `other/c` resolves as before; `DeleteTLSNode` drops
both nodes, the full rebuild keeps the node of `other/c`. -/
theorem DeleteTLSNode_differs_from_rebuild :
    tlsListOf exampleGraphTwoNamespaces =
      some (BuildTLSNodesForGateway exampleConfig exampleSecretsOther
        exampleGatewayTwoNamespaces "c").tlsNodes ∧
    lookupSecret exampleSecretsOtherWithoutC "default" "c" = none ∧
    (∀ ns2 name, (ns2, name) ≠ ("default", "c") →
      lookupSecret exampleSecretsOtherWithoutC ns2 name =
        lookupSecret exampleSecretsOther ns2 name) ∧
    (DeleteTLSNode exampleConfig "c" exampleGraphTwoNamespaces exampleGatewayTwoNamespaces none
        (indexOfList (BuildTLSNodesForGateway exampleConfig exampleSecretsOther
          exampleGatewayTwoNamespaces "c").tlsNodes)).bind
        (fun out => tlsListOf out.1) = some [] ∧
    (BuildTLSNodesForGateway exampleConfig exampleSecretsOtherWithoutC
      exampleGatewayTwoNamespaces "c").tlsNodes = [exampleNodeACOther] ∧
    (BuildTLSNodesForGateway exampleConfig exampleSecretsOtherWithoutC
      exampleGatewayTwoNamespaces "c").faulted = false := by
  refine ⟨by decide, by simp [lookupSecret, exampleSecretsOtherWithoutC], ?_, by decide,
    by decide, by decide⟩
  intro ns2 name hne
  have hc : ¬ (ns2 = "default" ∧ name = "c") := fun h => hne (by rw [h.1, h.2])
  simp only [lookupSecret, exampleSecretsOtherWithoutC, if_neg hc]

/-- Witness for C27: the secret `default/missing` is created under the example gateway. -/
theorem AddTLSNode_agrees_with_rebuild_witness :
    (AddTLSNode exampleConfig "missing" exampleGraph exampleGatewayTLS (some exampleMissingSecret)
        (indexOfList
          (BuildTLSNodesForGateway exampleConfig exampleSecrets exampleGatewayTLS "k").tlsNodes)).bind
        (fun out => tlsListOf out.1) =
      some (BuildTLSNodesForGateway exampleConfig exampleSecretsWithMissing
        exampleGatewayTLS "k").tlsNodes ∧
    (BuildTLSNodesForGateway exampleConfig exampleSecretsWithMissing
      exampleGatewayTLS "k").tlsNodes = [exampleNodeAMissing, exampleNodeAC, exampleNodeBD] :=
  ⟨(AddTLSNode_agrees_with_rebuild exampleConfig exampleSecrets exampleSecretsWithMissing
      "missing" "k" "k" exampleGraph exampleGatewayTLS exampleMissingSecret "default"
      (by decide) (by decide)
      (by simp [lookupSecret, exampleSecrets, secretNameOf, exampleConfig])
      (by simp [lookupSecret, exampleSecretsWithMissing, secretNameOf, exampleConfig])
      (by
        intro ns2 name hne
        have hc : ¬ (ns2 = "default" ∧ name = "missing") :=
          fun h => hne (by rw [h.1, h.2]; rfl)
        simp only [lookupSecret, exampleSecretsWithMissing, if_neg hc])
      (by decide) (by decide)).1, by decide⟩

/-- Counterexample to C27 as stated: the TLS list and the index are those of a full
build, and the secret `default/c` gets a new key and certificate; `AddTLSNode` keeps the
node with the old key and certificate, the full rebuild carries the new ones. -/
theorem AddTLSNode_keeps_stale_certificate :
    tlsListOf exampleGraphOne =
      some (BuildTLSNodesForGateway exampleConfig exampleSecrets exampleGateway "c").tlsNodes ∧
    lookupSecret exampleSecretsRotated "default" "c" = some exampleSecretCRotated ∧
    (∀ ns2 name, (ns2, name) ≠ ("default", "c") →
      lookupSecret exampleSecretsRotated ns2 name = lookupSecret exampleSecrets ns2 name) ∧
    (AddTLSNode exampleConfig "c" exampleGraphOne exampleGateway (some exampleSecretCRotated)
        (indexOfList (BuildTLSNodesForGateway exampleConfig exampleSecrets
          exampleGateway "c").tlsNodes)).bind
        (fun out => tlsListOf out.1) =
      some [{ Name := "a.com/c", Tenant := "admin", Type_ := "VS", Key := [3, 4],
              Cert := [1, 2] }] ∧
    (BuildTLSNodesForGateway exampleConfig exampleSecretsRotated exampleGateway "c").tlsNodes =
      [{ Name := "a.com/c", Tenant := "admin", Type_ := "VS", Key := [9, 9], Cert := [9] }] := by
  refine ⟨by decide, by simp [lookupSecret, exampleSecretsRotated], ?_, by decide, by decide⟩
  intro ns2 name hne
  have hc : ¬ (ns2 = "default" ∧ name = "c") := fun h => hne (by rw [h.1, h.2])
  simp only [lookupSecret, exampleSecretsRotated, if_neg hc]

/-! ## GetNetworkForNamespace and the VIP networks of the VIP node -/

/-- C24: `GetNetworkForNamespace` returns the one-element list holding the cached network
name when the cluster is a VCF cluster, a namespace argument is given and the first
argument has a cached network, and the cluster-wide list in every other case, the empty
argument list included; after `UpdateNamespaceNetworkCache(ns, n)` the lookup for `ns` on
a VCF cluster yields `n`, and after `RemoveNamespaceNetworkCache(ns)` it yields the
cluster-wide list. -/
theorem GetNetworkForNamespace_cases (cfg : Config) (w : WCPLister) :
    (∀ ns rest networkName, cfg.IsVCFCluster = true →
      w.NamespaceNetworkCache.Get ns = some networkName →
      w.GetNetworkForNamespace cfg (ns :: rest) = [{ NetworkName := networkName }]) ∧
    (∀ args, (cfg.IsVCFCluster = false ∨ args = [] ∨
        args.head?.bind w.NamespaceNetworkCache.Get = none) →
      w.GetNetworkForNamespace cfg args = cfg.GetVipNetworkList) ∧
    (∀ ns n, cfg.IsVCFCluster = true →
      (w.UpdateNamespaceNetworkCache ns n).GetNetworkForNamespace cfg [ns] =
        [{ NetworkName := n }]) ∧
    (∀ ns, (w.RemoveNamespaceNetworkCache ns).GetNetworkForNamespace cfg [ns] =
      cfg.GetVipNetworkList) := by
  refine ⟨?_, ?_, ?_, ?_⟩
  · intro ns rest networkName hv hc
    simp [WCPLister.GetNetworkForNamespace, hv, hc]
  · intro args h
    unfold WCPLister.GetNetworkForNamespace
    rcases h with h | h | h
    · simp [h]
    · simp [h]
    · split
      · rw [h]
      · rfl
  · intro ns n hv
    simp [WCPLister.GetNetworkForNamespace, hv, WCPLister.UpdateNamespaceNetworkCache,
      ObjectMapStore.AddOrUpdate, ObjectMapStore.Get, GoMap.set]
  · intro ns
    unfold WCPLister.GetNetworkForNamespace
    split
    · simp [WCPLister.RemoveNamespaceNetworkCache, ObjectMapStore.Delete, ObjectMapStore.Get,
        GoMap.delete]
    · rfl

/-- Witness for C24: the example lister on a VCF cluster. -/
theorem GetNetworkForNamespace_cases_witness :
    exampleLister.GetNetworkForNamespace exampleConfigVCF ["default", "x"] =
      [{ NetworkName := "ns-net" }] ∧
    exampleLister.GetNetworkForNamespace exampleConfigVCF [] = [{ NetworkName := "vip-net" }] ∧
    (exampleLister.UpdateNamespaceNetworkCache "other" "n2").GetNetworkForNamespace
      exampleConfigVCF ["other"] = [{ NetworkName := "n2" }] ∧
    (exampleLister.RemoveNamespaceNetworkCache "default").GetNetworkForNamespace
      exampleConfigVCF ["default"] = [{ NetworkName := "vip-net" }] :=
  ⟨(GetNetworkForNamespace_cases exampleConfigVCF exampleLister).1 "default" ["x"] "ns-net"
      rfl (by decide),
    (GetNetworkForNamespace_cases exampleConfigVCF exampleLister).2.1 []
      (Or.inr (Or.inl rfl)),
    (GetNetworkForNamespace_cases exampleConfigVCF exampleLister).2.2.1 "other" "n2" rfl,
    (GetNetworkForNamespace_cases exampleConfigVCF exampleLister).2.2.2 "default"⟩

/-- C23 (as amended): the VIP networks of the VIP node are the cluster-wide VIP network
list, whatever the namespace caches hold; they are what `GetNetworkForNamespace` returns
for the gateway's namespace when no override applies, that is, when the cluster is not
a VCF cluster or the namespace has no cached network. -/
theorem BuildVsVipNodeForGateway_vip_networks (cfg : Config) (gateway : Gateway)
    (vsName : String) (w : WCPLister) :
    (BuildVsVipNodeForGateway cfg gateway vsName).VipNetworks = cfg.GetVipNetworkList ∧
    ((cfg.IsVCFCluster = false ∨ w.NamespaceNetworkCache.Get gateway.Namespace = none) →
      (BuildVsVipNodeForGateway cfg gateway vsName).VipNetworks =
        w.GetNetworkForNamespace cfg [gateway.Namespace]) := by
  have h1 : (BuildVsVipNodeForGateway cfg gateway vsName).VipNetworks =
      cfg.GetVipNetworkList := by
    unfold BuildVsVipNodeForGateway
    split
    · split <;> rfl
    · rfl
  refine ⟨h1, fun h => ?_⟩
  rw [h1]
  unfold WCPLister.GetNetworkForNamespace
  rcases h with h | h
  · simp [h]
  · split
    · simp [h]
    · rfl

/-- Witness for C23: the example gateway on a VCF cluster whose namespace cache holds no
network for the gateway's namespace. -/
theorem BuildVsVipNodeForGateway_vip_networks_witness :
    (BuildVsVipNodeForGateway exampleConfigVCF exampleGateway "vs").VipNetworks =
      [{ NetworkName := "vip-net" }] ∧
    (BuildVsVipNodeForGateway exampleConfigVCF exampleGateway "vs").VipNetworks =
      (exampleLister.RemoveNamespaceNetworkCache "default").GetNetworkForNamespace
        exampleConfigVCF [exampleGateway.Namespace] :=
  ⟨(BuildVsVipNodeForGateway_vip_networks exampleConfigVCF exampleGateway "vs"
      (exampleLister.RemoveNamespaceNetworkCache "default")).1,
    (BuildVsVipNodeForGateway_vip_networks exampleConfigVCF exampleGateway "vs"
      (exampleLister.RemoveNamespaceNetworkCache "default")).2 (Or.inr (by decide))⟩

/-- Counterexample to C23 as stated: on a VCF cluster whose cache holds the network
`ns-net` for the gateway's namespace, `GetNetworkForNamespace` returns the override while
the VIP node carries the cluster-wide list. -/
theorem BuildVsVipNodeForGateway_ignores_namespace_network :
    exampleLister.GetNetworkForNamespace exampleConfigVCF [exampleGateway.Namespace] =
      [{ NetworkName := "ns-net" }] ∧
    (BuildVsVipNodeForGateway exampleConfigVCF exampleGateway "vs").VipNetworks =
      [{ NetworkName := "vip-net" }] ∧
    ((BuildGatewayParent exampleConfigVCF exampleSecrets exampleGateway "k").map
      fun tree => tree.VSVIPRefs.map fun vip => vip.VipNetworks) =
      some [[{ NetworkName := "vip-net" }]] := by
  decide

/-! ## A redelivered Update -/

/-- The status that `Update` computes from a stored status that `Update` wrote for the same
VIP differs from the stored one in its addresses, whatever the transition times: the VIP
is appended once more. -/
theorem Update.status_redelivered_ne (env env2 : StatusEnv) (gw : Gateway) (vip : String) :
    withoutTransitionTimes (Update.status env gw vip) ≠
      withoutTransitionTimes
        (Update.status env2 { gw with Status := Update.status env gw vip } vip) := by
  intro h
  have hlen := congrArg (fun s : GatewayStatus => s.Addresses.toList.length) h
  simp [withoutTransitionTimes, setTransitionTimes, Update.status, Slice.append,
    Slice.toList] at hlen

/-- C22 (failing input): the store holds the gateway `default/gw` without address; `Update`
with the VIP `10.0.0.1` patches the status with that one address, and the store then
holds this status. The same `Update` redelivered computes a status with the address
`10.0.0.1` twice, which differs from the stored one, and issues a second patch call;
apart from the addresses the desired status equals the stored one modulo transition
times. -/
theorem Update_redelivered_patches_again :
    Update exampleFreshEnv "k" exampleOption =
      { events := [.patch "default" "gw" exampleAppliedGateway.Status] } ∧
    Get exampleAppliedEnv "k" exampleOption = some exampleAppliedGateway ∧
    Update exampleAppliedEnv "k" exampleOption =
      { events := [.patch "default" "gw"
          (Update.status exampleAppliedEnv exampleAppliedGateway "10.0.0.1")] } ∧
    (exampleAppliedGateway.Status.Addresses.toList.map fun a => a.Value) = ["10.0.0.1"] ∧
    ((Update.status exampleAppliedEnv exampleAppliedGateway "10.0.0.1").Addresses.toList.map
      fun a => a.Value) = ["10.0.0.1", "10.0.0.1"] ∧
    withoutTransitionTimes
        { Update.status exampleAppliedEnv exampleAppliedGateway "10.0.0.1" with
          Addresses := exampleAppliedGateway.Status.Addresses } =
      withoutTransitionTimes exampleAppliedGateway.Status ∧
    patchCalls (Update exampleAppliedEnv "k" exampleOption).events = 1 := by
  have hget0 : Get exampleFreshEnv "k" exampleOption = some exampleFreshGateway := by decide
  have hget1 : Get exampleAppliedEnv "k" exampleOption = some exampleAppliedGateway := by
    decide
  have hp0 := Patch_single_call exampleFreshEnv "k" exampleFreshGateway
    (Update.status exampleFreshEnv exampleFreshGateway "10.0.0.1") (by decide) rfl
  have hp1 := Patch_single_call exampleAppliedEnv "k" exampleAppliedGateway
    (Update.status exampleAppliedEnv exampleAppliedGateway "10.0.0.1")
    (Update.status_redelivered_ne exampleStatusEnv exampleAppliedEnv exampleFreshGateway
      "10.0.0.1") rfl
  have hu1 : Update exampleAppliedEnv "k" exampleOption =
      { events := [.patch "default" "gw"
          (Update.status exampleAppliedEnv exampleAppliedGateway "10.0.0.1")] } := by
    simp only [Update, hget1]
    rw [show exampleOption.Options.Vip.head? = some "10.0.0.1" from rfl]
    simp only [hp1]
    rfl
  refine ⟨?_, hget1, hu1, by decide, by decide, by decide, ?_⟩
  · simp only [Update, hget0]
    rw [show exampleOption.Options.Vip.head? = some "10.0.0.1" from rfl]
    simp only [hp0]
    rfl
  · rw [hu1]
    rfl

/-! ## isStatusEqual as equality modulo transition times -/

/-- The condition fields other than the transition time survive its overwriting. -/
theorem conditionFields_setTime (t : Int) (conditions : Slice Condition) :
    (Slice.toList (conditions.map
      (List.map fun c => { c with LastTransitionTime := t }))).map Condition.fields =
      conditions.toList.map Condition.fields := by
  cases conditions with
  | none => rfl
  | some l => simp [Slice.toList, Condition.fields, Function.comp_def]

/-- A status agrees with itself after its transition times have been overwritten. -/
theorem agree_setTransitionTimes (t : Int) (status : GatewayStatus) :
    (setTransitionTimes t status).Addresses = status.Addresses ∧
    (setTransitionTimes t status).Conditions.toList.map Condition.fields =
      status.Conditions.toList.map Condition.fields ∧
    (setTransitionTimes t status).Listeners.toList.map
        (fun l => l.Conditions.toList.map Condition.fields) =
      status.Listeners.toList.map (fun l => l.Conditions.toList.map Condition.fields) := by
  refine ⟨rfl, conditionFields_setTime t status.Conditions, ?_⟩
  simp only [setTransitionTimes]
  cases status.Listeners with
  | none => rfl
  | some ls =>
    simp only [Option.map_some', Slice.toList, Option.getD_some, List.map_map]
    apply List.map_congr_left
    intro l _
    exact conditionFields_setTime t l.Conditions

/-- C30 (as amended): `isStatusEqual` is exactly equality modulo transition times: it
returns true if and only if the two statuses are equal once every `LastTransitionTime`
is ignored, that is, equal in addresses, in the object-level conditions and in the
listener entries with their name, supported kinds, attached routes and conditions. When
it returns true the statuses agree on addresses and on every condition field other than
`LastTransitionTime` at object level and per listener, so any such difference makes a
call of `Patch` within its retry budget start with a patch call, whose payload is the
desired status as it was passed; it is reflexive and symmetric. -/
theorem isStatusEqual_modulo_transition_times (currentTime : Int) (old new : GatewayStatus) :
    (isStatusEqual currentTime old new = true ↔
      withoutTransitionTimes old = withoutTransitionTimes new) ∧
    (isStatusEqual currentTime old new = true → AgreeOnAddressesAndConditions old new) ∧
    isStatusEqual currentTime old old = true ∧
    isStatusEqual currentTime old new = isStatusEqual currentTime new old ∧
    ∀ (env : StatusEnv) (key : String) (gw : Gateway) (retryNum : List Int),
      gw.Status = old → ¬ AgreeOnAddressesAndConditions old new →
      ¬ (retryNum.length > 0 ∧ retryNum.headD 0 ≥ 5) →
      (Patch env key gw new retryNum).head? = some (.patch gw.Namespace gw.Name new) := by
  have hagree : ∀ t, isStatusEqual t old new = true → AgreeOnAddressesAndConditions old new := by
    intro t h
    unfold isStatusEqual at h
    rw [decide_eq_true_iff] at h
    obtain ⟨a1, c1, l1⟩ := agree_setTransitionTimes t old
    obtain ⟨a2, c2, l2⟩ := agree_setTransitionTimes t new
    exact ⟨by rw [← a1, ← a2, h], by rw [← c1, ← c2, h], by rw [← l1, ← l2, h]⟩
  refine ⟨isStatusEqual_iff currentTime old new, hagree currentTime, ?_, ?_, ?_⟩
  · simp [isStatusEqual]
  · unfold isStatusEqual
    by_cases h : setTransitionTimes currentTime old = setTransitionTimes currentTime new
    · simp [h]
    · have h' : ¬ setTransitionTimes currentTime new = setTransitionTimes currentTime old :=
        fun e => h e.symm
      simp [h, h']
  · intro env key gw retryNum hgw hdiff hbudget
    rw [Patch_eq, if_neg hbudget]
    have hne : ¬ isStatusEqual (env.Now (retryNum.headD 0).toNat) gw.Status new = true := by
      rw [hgw]
      exact fun h => hdiff (hagree _ h)
    rw [if_neg hne]
    split
    · split <;> rfl
    · rfl

/-- Witness for C30: the stored example status against itself with other transition times
(equal), and against a desired status with another address (a first call of `Patch`
writes). -/
theorem isStatusEqual_modulo_transition_times_witness :
    isStatusEqual 7 exampleStoredGateway.Status exampleStatusLater = true ∧
    AgreeOnAddressesAndConditions exampleStoredGateway.Status exampleStatusLater ∧
    (Patch exampleStatusEnv "k" exampleStoredGateway
        { exampleStoredGateway.Status with Addresses := none } []).head? =
      some (.patch "default" "gw" { exampleStoredGateway.Status with Addresses := none }) :=
  ⟨by decide,
    (isStatusEqual_modulo_transition_times 7 exampleStoredGateway.Status
      exampleStatusLater).2.1 (by decide),
    (isStatusEqual_modulo_transition_times 0 exampleStoredGateway.Status
      { exampleStoredGateway.Status with Addresses := none }).2.2.2.2
      exampleStatusEnv "k" exampleStoredGateway [] rfl
      (by
        intro h
        exact absurd h.1 (by decide))
      (by decide)⟩

/-- Counterexample to C30 as stated: the stored example status and the same status with
one route attached to its listener agree on addresses and on every condition field at
object level and per listener, yet `isStatusEqual` returns false and `Patch` writes. -/
theorem isStatusEqual_sees_attached_routes :
    AgreeOnAddressesAndConditions exampleStoredGateway.Status exampleStatusRouteAttached ∧
    isStatusEqual 7 exampleStoredGateway.Status exampleStatusRouteAttached = false ∧
    Patch exampleStatusEnv "k" exampleStoredGateway exampleStatusRouteAttached [] =
      [.patch "default" "gw" exampleStatusRouteAttached] := by
  refine ⟨⟨by decide, by decide, by decide⟩, by decide, ?_⟩
  exact Patch_single_call exampleStatusEnv "k" exampleStoredGateway exampleStatusRouteAttached
    (by decide) rfl

/-! ## The object-level condition at admission -/

/-- C25: the object-level status of a gateway owned by this controller is decided first
match wins: without listeners it is `Accepted` false, reason `Invalid`, message
`No listeners found`; with at least one listener and more than one static address it is
`Accepted` false, reason `Invalid`, message `More than one address is not supported`,
whatever the validity of the listeners; with the one listener `80, HTTP,
foo.example.com` (no TLS block) and at most one address it is `Accepted` true. -/
theorem objectLevelCondition_first_match (cs : SecretClient) (gateway : Gateway) :
    (gateway.Spec.Listeners = [] →
      objectLevelCondition cs gateway true =
        some { Type_ := "Accepted", Status := "False", Reason := "Invalid",
               Message := "No listeners found", ObservedGeneration := gateway.Generation }) ∧
    (gateway.Spec.Listeners ≠ [] → gateway.Spec.Addresses.length > 1 →
      objectLevelCondition cs gateway true =
        some { Type_ := "Accepted", Status := "False", Reason := "Invalid",
               Message := "More than one address is not supported",
               ObservedGeneration := gateway.Generation }) ∧
    (∀ name, gateway.Spec.Listeners =
        [{ Name := name, Hostname := some "foo.example.com", Port := 80, Protocol := "HTTP" }] →
      gateway.Spec.Addresses.length ≤ 1 →
      ∃ c, objectLevelCondition cs gateway true = some c ∧ c.Type_ = "Accepted" ∧
        c.Status = "True") := by
  refine ⟨?_, ?_, ?_⟩
  · intro h
    simp [objectLevelCondition, h]
    exact ⟨rfl, rfl, rfl⟩
  · intro h hlen
    have h0 : gateway.Spec.Listeners.length ≠ 0 := by
      simpa [List.length_eq_zero] using h
    simp only [objectLevelCondition, h0, if_false, hlen, if_true]
    rfl
  · intro name h hlen
    have hnot : ¬ gateway.Spec.Addresses.length > 1 := by omega
    have hv : isValidListener cs gateway
        { Name := name, Hostname := some "foo.example.com", Port := 80, Protocol := "HTTP" } =
        true := by
      simp [isValidListener]
    refine ⟨{ Type_ := GatewayConditionAccepted, Status := ConditionTrue,
              Reason := GatewayReasonAccepted, Message := "Gateway configuration is valid",
              ObservedGeneration := gateway.Generation }, ?_, rfl, rfl⟩
    simp [objectLevelCondition, h, hnot, hv]

/-- Witness for C25: a gateway without listeners, a gateway with an invalid listener and
two addresses, and a gateway with the listener `80, HTTP, foo.example.com` and one
address. -/
theorem objectLevelCondition_first_match_witness :
    objectLevelCondition exampleSecrets exampleGatewayNoListeners true =
      some { Type_ := "Accepted", Status := "False", Reason := "Invalid",
             Message := "No listeners found", ObservedGeneration := 1 } ∧
    objectLevelCondition exampleSecrets exampleGatewayInvalidTwoAddresses true =
      some { Type_ := "Accepted", Status := "False", Reason := "Invalid",
             Message := "More than one address is not supported", ObservedGeneration := 1 } ∧
    ∃ c, objectLevelCondition exampleSecrets exampleGatewayFoo true = some c ∧
      c.Type_ = "Accepted" ∧ c.Status = "True" :=
  ⟨(objectLevelCondition_first_match exampleSecrets exampleGatewayNoListeners).1 rfl,
    (objectLevelCondition_first_match exampleSecrets exampleGatewayInvalidTwoAddresses).2.1
      (by decide) (by decide),
    (objectLevelCondition_first_match exampleSecrets exampleGatewayFoo).2.2 "l1" rfl
      (by decide)⟩

end AKO
